import Mathlib

/-!
Ordered hash tables behind the Map and Set builtins

A shallow embedding of `src/builtins/builtins-collections-gen.cc`: the table
allocator, the two constructors, the small-integer chain walk and the three
lookup builtins, followed by the properties proved about them.

Conventions of the embedding.

* Tagged values are a closed variant (`Value`); a `FixedArray` is the list of
  its slots, and a load or store outside the array has no defined behaviour,
  which the embedding reports as `none` / `Completion.Fault`.
* Constants that live in `src/objects/hash-table.h` (not part of the embedded
  file) are the fields of `CollectionType`; every definition takes the
  collection type as an argument.
* `CSA_ASSERT` is compiled only into debug builds; the flag `debug_code`
  says whether the assertions are checked.
* Loops that wait on data (the chain walk, the iteration of the source) take
  a fuel argument; `none` means the fuel ran out.
* Word-sized integers are kept as unbounded integers. The build is the 64-bit
  one: the unsigned comparison is taken modulo `2 ^ 64` and the sum of two
  small integers wraps at 32 bits. An index is compared with the bounds of the
  array before it is used, so a walk that stays inside the table computes the
  indices the machine computes.
* Every builtin records the memory accesses and the outgoing calls it makes,
  in order (`Event`).
-/

namespace Collections

/-! ## Values -/

/-- Modelled from the spec: the numeric value held by a boxed floating-point
number (`LoadHeapNumberValue` is declared outside the embedded file). A value
is NaN, an infinity, the negative zero, or a rational; every IEEE double is one
of these, `finite 0` being the positive zero. -/
inductive Float64 where
  | nan
  | infinity (negative : Bool)
  | negZero
  | finite (q : ℚ)
  deriving DecidableEq

/-- Modelled from the spec: "ordinary floating equality, no special -0
handling" (`Float64Equal` is declared outside the embedded file). NaN equals
nothing, the two zeros are equal, an infinity equals only itself. -/
def Float64Equal : Float64 → Float64 → Bool
  | .nan, _ => false
  | _, .nan => false
  | .infinity a, .infinity b => a == b
  | .infinity _, _ => false
  | _, .infinity _ => false
  | .negZero, .negZero => true
  | .negZero, .finite q => q == 0
  | .finite q, .negZero => q == 0
  | .finite p, .finite q => p == q

/-- Tagged values: small integers are immediate, everything else is a heap
object. Heap numbers are kept by value; JS objects are kept by address. -/
inductive Value where
  | smi (value : Int)
  | heapNumber (value : Float64)
  | undefined
  | null
  | the_hole
  | true_value
  | false_value
  | string (chars : String)
  | object (address : Nat)
  deriving DecidableEq

/-- The slots of a `FixedArray`. -/
abbrev FixedArray := List Value

def TaggedIsSmi : Value → Bool
  | .smi _ => true
  | _ => false

def IsHeapNumber : Value → Bool
  | .heapNumber _ => true
  | _ => false

def IsUndefined (v : Value) : Bool := v == .undefined

def IsNull (v : Value) : Bool := v == .null

/-- Pointer identity. It is applied only where one side is a small integer or
both sides are object references, where it coincides with equality of the
embedded values. -/
def WordEqual (a b : Value) : Bool := a == b

/-- The untagged integer of a small integer; shifting the bits of a heap
pointer has no defined meaning. -/
def SmiUntag : Value → Option Int
  | .smi n => some n
  | _ => none

/-- Exact conversion of a small integer to a double. -/
def SmiToFloat64 : Value → Option Float64
  | .smi n => some (.finite n)
  | _ => none

def LoadHeapNumberValue : Value → Option Float64
  | .heapNumber x => some x
  | _ => none

def SelectBooleanConstant (b : Bool) : Value :=
  if b then .true_value else .false_value

/-- Element `index_node + additional_offset` (in slots) of the array. -/
def LoadFixedArrayElement (table : FixedArray) (index_node : Int)
    (additional_offset : Int) : Option Value :=
  if 0 ≤ index_node + additional_offset then
    table[(index_node + additional_offset).toNat]?
  else none

def StoreFixedArrayElement (table : FixedArray) (index : Nat) (value : Value) :
    Option FixedArray :=
  if index < table.length then some (table.set index value) else none

/-- A fresh array of holey elements: every slot holds the hole. -/
def AllocateFixedArray (length : Nat) : FixedArray :=
  List.replicate length Value.the_hole

/-! ## Layout constants -/

/-- The constants of `OrderedHashTable<Derived, entrysize>` that the embedded
file uses; they are declared in `src/objects/hash-table.h`. -/
structure CollectionType where
  kMinCapacity : Nat
  kMaxCapacity : Nat
  kLoadFactor : Nat
  kEntrySize : Nat
  kChainOffset : Nat
  kValueOffset : Nat
  kNotFound : Int
  kNumberOfElementsIndex : Nat
  kNumberOfDeletedElementsIndex : Nat
  kNumberOfBucketsIndex : Nat
  kHashTableStartIndex : Nat
  deriving DecidableEq

/-- The values `hash-table.h` gives `OrderedHashMap` (entry: key, value,
chain link). -/
def OrderedHashMap : CollectionType where
  kMinCapacity := 4
  kMaxCapacity := 26843545
  kLoadFactor := 2
  kEntrySize := 3
  kChainOffset := 2
  kValueOffset := 1
  kNotFound := -1
  kNumberOfElementsIndex := 0
  kNumberOfDeletedElementsIndex := 1
  kNumberOfBucketsIndex := 2
  kHashTableStartIndex := 3

/-- The values `hash-table.h` gives `OrderedHashSet` (entry: key, chain
link). -/
def OrderedHashSet : CollectionType where
  kMinCapacity := 4
  kMaxCapacity := 26843545
  kLoadFactor := 2
  kEntrySize := 2
  kChainOffset := 1
  kValueOffset := 1
  kNotFound := -1
  kNumberOfElementsIndex := 0
  kNumberOfDeletedElementsIndex := 1
  kNumberOfBucketsIndex := 2
  kHashTableStartIndex := 3

def IsPowerOfTwo32 (value : Nat) : Bool :=
  value != 0 && (value &&& (value - 1)) == 0

namespace CollectionType

def kCapacity (C : CollectionType) : Nat := C.kMinCapacity

def kBucketCount (C : CollectionType) : Nat := C.kCapacity / C.kLoadFactor

def kDataTableLength (C : CollectionType) : Nat := C.kCapacity * C.kEntrySize

def kFixedArrayLength (C : CollectionType) : Nat :=
  C.kHashTableStartIndex + C.kBucketCount + C.kDataTableLength

def kDataTableStartIndex (C : CollectionType) : Nat :=
  C.kHashTableStartIndex + C.kBucketCount

/-- The `STATIC_ASSERT`s of `AllocateOrderedHashTable`: an instantiation that
compiles satisfies them. -/
def StaticAsserts (C : CollectionType) : Prop :=
  IsPowerOfTwo32 C.kCapacity = true ∧
  C.kCapacity ≤ C.kMaxCapacity ∧
  C.kHashTableStartIndex = C.kNumberOfBucketsIndex + 1 ∧
  C.kHashTableStartIndex + C.kBucketCount = C.kDataTableStartIndex ∧
  C.kDataTableStartIndex + C.kDataTableLength = C.kFixedArrayLength

instance (C : CollectionType) : Decidable C.StaticAsserts := by
  unfold StaticAsserts; infer_instance

/-- The header of `hash-table.h`: the three counters occupy three different
slots, all before the first bucket. -/
def HeaderLayout (C : CollectionType) : Prop :=
  C.kNumberOfElementsIndex < C.kHashTableStartIndex ∧
  C.kNumberOfDeletedElementsIndex < C.kHashTableStartIndex ∧
  C.kNumberOfBucketsIndex < C.kHashTableStartIndex ∧
  C.kNumberOfElementsIndex ≠ C.kNumberOfDeletedElementsIndex ∧
  C.kNumberOfElementsIndex ≠ C.kNumberOfBucketsIndex ∧
  C.kNumberOfDeletedElementsIndex ≠ C.kNumberOfBucketsIndex

instance (C : CollectionType) : Decidable C.HeaderLayout := by
  unfold HeaderLayout; infer_instance

end CollectionType

/-! ## AllocateOrderedHashTable -/

/-- The loop `for (int i = 0; i < count; i++) Store(table, base + i, value)`,
from the iteration `i` on with `count` iterations left. -/
def storeLoop (base : Nat) (value : Value) :
    (count : Nat) → (i : Nat) → FixedArray → Option FixedArray
  | 0, _, table => some table
  | count + 1, i, table =>
    (StoreFixedArrayElement table (base + i) value).bind
      (storeLoop base value count (i + 1))

/-- The template `AllocateOrderedHashTable<CollectionType>()`. `kMaxRegularLength` is
`FixedArray::kMaxRegularLength`. The result is `none` when the assertion of a
debug build fails or a store leaves the array. The map word of the array is
not part of the embedding. -/
def AllocateOrderedHashTable (C : CollectionType) (debug_code : Bool)
    (kMaxRegularLength : Nat) : Option FixedArray :=
  let table := AllocateFixedArray C.kFixedArrayLength
  if debug_code && !(decide (C.kFixedArrayLength ≤ kMaxRegularLength)) then none
  else
    (StoreFixedArrayElement table C.kNumberOfElementsIndex (.smi 0)).bind fun table =>
    (StoreFixedArrayElement table C.kNumberOfDeletedElementsIndex (.smi 0)).bind fun table =>
    (StoreFixedArrayElement table C.kNumberOfBucketsIndex (.smi C.kBucketCount)).bind fun table =>
    (storeLoop C.kHashTableStartIndex (.smi C.kNotFound) C.kBucketCount 0 table).bind fun table =>
    storeLoop C.kDataTableStartIndex .undefined C.kDataTableLength 0 table

/-! ## Heap objects, exceptions, traces -/

inductive InstanceType where
  | JS_MAP_TYPE
  | JS_SET_TYPE
  | OTHER_TYPE (code : Nat)
  deriving DecidableEq

/-- What the embedded file reads or writes of a heap object: the instance type
and the constructor bit of its map, for a function the instance type of the map
at `JSFunction::kPrototypeOrInitialMapOffset`, and the field at
`JSMap::kTableOffset` (`none` is the undefined value). -/
structure HeapObject where
  instance_type : InstanceType
  is_constructor_map : Bool
  prototype_or_initial_map : Option InstanceType
  table : Option FixedArray
  deriving DecidableEq

/-- The JS objects of the heap; the address of an object is its position. -/
abbrev Heap := List HeapObject

inductive MessageTemplate where
  | kConstructorNotFunction
  | kPropertyNotFunction
  | kIteratorValueNotAnObject
  | kIncompatibleMethodReceiver
  deriving DecidableEq

inductive Exception where
  | TypeError (message_id : MessageTemplate) (args : List Value)
  | Thrown (value : Value)
  deriving DecidableEq

/-- How a piece of code ends: it returns, it throws, a `CSA_ASSERT` of a debug
build fails, or it does something without defined behaviour (a load or store
outside an array, the untagging of a heap pointer, a field of a missing
object). -/
inductive Completion (α : Type) where
  | Return (value : α)
  | Throw (exception : Exception)
  | AssertFailed
  | Fault
  deriving DecidableEq

/-- The memory accesses and outgoing calls a builtin makes, in order. -/
inductive Event where
  | LoadObjectField (object : Value)
  | StoreObjectField (object : Value)
  | LoadFixedArrayElement (slot : Int)
  | CallCFunction (name : String) (table : FixedArray) (key : Value)
  | AllocateJSCollection (shell : Value)
  | EmitFastNewObject (shell : Value)
  | AllocateOrderedHashTable
  | GetProperty (object : Value) (name : String)
  | GetIterator (iterable : Value)
  | IteratorStep (iterator : Value)
  | IteratorValue (next : Value)
  | CallJS (callee receiver : Value) (args : List Value)
  | IteratorCloseOnException (iterator : Value) (exception : Exception)
  deriving DecidableEq

/-- The C functions behind `ExternalReference::orderedhashmap_get_raw` and
`ExternalReference::orderedhashtable_has_raw<CollectionType, entrysize>`, and
`ComputeIntegerHash` of the code-stub assembler. `has_raw` yields the raw
32-bit word the call leaves in the result register. -/
structure ExternalReference where
  orderedhashmap_get_raw : FixedArray → Value → Value
  orderedhashtable_has_raw : CollectionType → Nat → FixedArray → Value → Nat
  ComputeIntegerHash : Int → Int → Int

/-- The heap together with the state of user-level code. -/
structure World (σ : Type) where
  heap : Heap
  host : σ
  deriving DecidableEq

/-- The collaborators that can run user-level code. Each takes the world and
gives back the world it leaves, with the value it produced or the exception it
threw. `IteratorStep` produces `none` when the iterator is done.
The field `IteratorCloseOnException` is the user-level part of the close path of
the iterator: the world that the cleanup of the iterator leaves. -/
structure Runtime (σ : Type) where
  GetProperty : World σ → Value → String → World σ × Except Exception Value
  GetIterator : World σ → Value → World σ × Except Exception Value
  IteratorStep : World σ → Value → World σ × Except Exception (Option Value)
  IteratorValue : World σ → Value → World σ × Except Exception Value
  CallJS : World σ → Value → Value → List Value → World σ × Except Exception Value
  IteratorCloseOnException : World σ → Value → Exception → World σ
  IsCallable : World σ → Value → Bool
  IsJSReceiver : World σ → Value → Bool

/-- The native context: the Map and Set functions. -/
structure Context where
  JS_MAP_FUN : Value
  JS_SET_FUN : Value

/-- The outcome of a lookup builtin. -/
structure Outcome where
  completion : Completion Value
  trace : List Event
  deriving DecidableEq

/-- The outcome of a constructor. -/
structure Run (σ : Type) where
  world : World σ
  completion : Completion Value
  trace : List Event
  deriving DecidableEq

/-! ## The chain walk -/

/-- The labels `FindOrderedHashMapEntryForSmiKey` can leave through, and the two
ways it can go wrong. -/
inductive WalkExit where
  | entry_found (entry_start_position : Int)
  | not_found
  | assert_failed
  | fault
  deriving DecidableEq

structure Walk where
  exit : WalkExit
  trace : List Event
  deriving DecidableEq

def Walk.after (events : List Event) (w : Walk) : Walk :=
  { w with trace := events ++ w.trace }

def WordAnd (a b : Int) : Int := Int.land a b

/-- Unsigned comparison of two 64-bit words. -/
def UintPtrLessThan (a b : Int) : Bool :=
  decide (a % 2 ^ 64 < b % 2 ^ 64)

/-- The 32-bit payload of a small integer on a 64-bit build, as a signed
number. -/
def signed32 (x : Int) : Int := (x + 2 ^ 31) % 2 ^ 32 - 2 ^ 31

/-- The sum of two small integers: the tagged words are added, so the payload
wraps at 32 bits. -/
def SmiAdd : Value → Value → Option Value
  | .smi a, .smi b => some (.smi (signed32 (a + b)))
  | _, _ => none

/-- The range check of the `CSA_ASSERT` in the walk: `none` when one of the two
counters is missing or is not a small integer. -/
def entryInRange (M : CollectionType) (table : FixedArray) (var_entry : Int) :
    Option Bool :=
  (LoadFixedArrayElement table M.kNumberOfElementsIndex 0).bind fun a =>
  (LoadFixedArrayElement table M.kNumberOfDeletedElementsIndex 0).bind fun b =>
  (SmiAdd a b).bind fun s =>
  (SmiUntag s).map fun limit => UintPtrLessThan var_entry limit

/-- The comparison of a candidate key with the small-integer key: `true` is the
jump to `entry_found`, `false` the jump to `continue_next_entry`. -/
def keyComparison (candidate_key : Value) (key : Int) : Bool :=
  if WordEqual candidate_key (.smi key) then true
  else if TaggedIsSmi candidate_key then false
  else if !IsHeapNumber candidate_key then false
  else
    match LoadHeapNumberValue candidate_key, SmiToFloat64 (.smi key) with
    | some candidate_key_number, some key_number =>
      Float64Equal candidate_key_number key_number
    | _, _ => false

/-- The `CSA_ASSERT` of the walk: checked in a debug build only. -/
def rangeCheck (M : CollectionType) (debug_code : Bool) (table : FixedArray)
    (var_entry : Int) : Option Bool :=
  if debug_code then entryInRange M table var_entry else some true

/-- The loads the `CSA_ASSERT` of the walk makes. -/
def rangeCheckLoads (M : CollectionType) (debug_code : Bool) : List Event :=
  if debug_code then
    [.LoadFixedArrayElement M.kNumberOfElementsIndex,
     .LoadFixedArrayElement M.kNumberOfDeletedElementsIndex]
  else []

/-- The slot of the candidate key of an entry. -/
def keySlot (M : CollectionType) (entry_start_position : Int) : Int :=
  entry_start_position + M.kHashTableStartIndex

/-- The slot of the chain link of an entry. -/
def chainSlot (M : CollectionType) (entry_start_position : Int) : Int :=
  entry_start_position + (M.kHashTableStartIndex + M.kChainOffset : Nat)

/-- The loop of `FindOrderedHashMapEntryForSmiKey`, one unit of fuel per
iteration. -/
def walkChain (M : CollectionType) (debug_code : Bool) (table : FixedArray)
    (key : Int) (number_of_buckets : Int) : (fuel : Nat) → (var_entry : Int) → Option Walk
  | 0, _ => none
  | fuel + 1, var_entry =>
    if var_entry = M.kNotFound then some ⟨.not_found, []⟩
    else
      match rangeCheck M debug_code table var_entry with
      | none => some ⟨.fault, rangeCheckLoads M debug_code⟩
      | some false => some ⟨.assert_failed, rangeCheckLoads M debug_code⟩
      | some true =>
        let entry_start_position := var_entry * M.kEntrySize + number_of_buckets
        match LoadFixedArrayElement table entry_start_position M.kHashTableStartIndex with
        | none =>
          some ⟨.fault, rangeCheckLoads M debug_code ++
            [.LoadFixedArrayElement (keySlot M entry_start_position)]⟩
        | some candidate_key =>
          if keyComparison candidate_key key then
            some ⟨.entry_found entry_start_position, rangeCheckLoads M debug_code ++
              [.LoadFixedArrayElement (keySlot M entry_start_position)]⟩
          else
            match (LoadFixedArrayElement table entry_start_position
                (M.kHashTableStartIndex + M.kChainOffset : Nat)).bind SmiUntag with
            | none =>
              some ⟨.fault, rangeCheckLoads M debug_code ++
                [.LoadFixedArrayElement (keySlot M entry_start_position),
                 .LoadFixedArrayElement (chainSlot M entry_start_position)]⟩
            | some next =>
              (walkChain M debug_code table key number_of_buckets fuel next).map
                (Walk.after (rangeCheckLoads M debug_code ++
                  [.LoadFixedArrayElement (keySlot M entry_start_position),
                   .LoadFixedArrayElement (chainSlot M entry_start_position)]))

/-- The function `FindOrderedHashMapEntryForSmiKey(table, key_tagged, entry_found, not_found)`
for the map constants `M`. -/
def FindOrderedHashMapEntryForSmiKey (ext : ExternalReference) (M : CollectionType)
    (debug_code : Bool) (fuel : Nat) (table : FixedArray) (key_tagged : Value) :
    Option Walk :=
  match SmiUntag key_tagged with
  | none => some ⟨.fault, []⟩
  | some key =>
    let hash := ext.ComputeIntegerHash key 0
    match (LoadFixedArrayElement table M.kNumberOfBucketsIndex 0).bind SmiUntag with
    | none => some ⟨.fault, [.LoadFixedArrayElement M.kNumberOfBucketsIndex]⟩
    | some number_of_buckets =>
      let bucket := WordAnd hash (number_of_buckets - 1)
      let bucket_slot : Int := bucket + M.kHashTableStartIndex
      match (LoadFixedArrayElement table bucket M.kHashTableStartIndex).bind SmiUntag with
      | none =>
        some ⟨.fault, [.LoadFixedArrayElement M.kNumberOfBucketsIndex,
          .LoadFixedArrayElement bucket_slot]⟩
      | some first_entry =>
        (walkChain M debug_code table key number_of_buckets fuel first_entry).map
          (Walk.after [.LoadFixedArrayElement M.kNumberOfBucketsIndex,
            .LoadFixedArrayElement bucket_slot])

/-! ## The lookup builtins -/

/-- The instance type in the map of a heap value; a small integer has no map. -/
def LoadInstanceType (heap : Heap) : Value → Option InstanceType
  | .smi _ => none
  | .object address => (heap[address]?).map HeapObject.instance_type
  | .heapNumber _ => some (.OTHER_TYPE 0)
  | .string _ => some (.OTHER_TYPE 1)
  | _ => some (.OTHER_TYPE 2)

/-- Modelled from the spec: `ThrowIfNotInstanceType` of the code-stub assembler
(declared outside the embedded file), "fails with a type error if receiver is
not a Map ... naming the method". A small integer and a heap value of another
instance type throw; `none` is the fall-through. -/
def ThrowIfNotInstanceType (heap : Heap) (value : Value) (instance_type : InstanceType)
    (method_name : String) : Option Exception :=
  if TaggedIsSmi value then
    some (.TypeError .kIncompatibleMethodReceiver [.string method_name, value])
  else if LoadInstanceType heap value = some instance_type then none
  else some (.TypeError .kIncompatibleMethodReceiver [.string method_name, value])

/-- The field at `JSMap::kTableOffset` of the receiver. -/
def LoadTableField (heap : Heap) : Value → Option FixedArray
  | .object address => (heap[address]?).bind HeapObject.table
  | _ => none

def CallGetRaw (ext : ExternalReference) (table : FixedArray) (key : Value) : Value :=
  ext.orderedhashmap_get_raw table key

/-- The template `CallHasRaw<CollectionType, entrysize>(table, key)`. -/
def CallHasRaw (ext : ExternalReference) (C : CollectionType) (entrysize : Nat)
    (table : FixedArray) (key : Value) : Value :=
  let result := ext.orderedhashtable_has_raw C entrysize table key
  SelectBooleanConstant ((result &&& 0xFF) != 0)

/-- The completion of a walk that left through neither label. -/
def walkFailure : WalkExit → Completion Value
  | .assert_failed => .AssertFailed
  | _ => .Fault

/-- The builtin `TF_BUILTIN(MapGet, ...)`. -/
def MapGet (ext : ExternalReference) (M : CollectionType) (debug_code : Bool)
    (heap : Heap) (fuel : Nat) (receiver key_tagged : Value) : Option Outcome :=
  match ThrowIfNotInstanceType heap receiver .JS_MAP_TYPE "Map.prototype.get" with
  | some exception => some ⟨.Throw exception, []⟩
  | none =>
    match LoadTableField heap receiver with
    | none => some ⟨.Fault, [.LoadObjectField receiver]⟩
    | some table =>
      if TaggedIsSmi key_tagged then
        (FindOrderedHashMapEntryForSmiKey ext M debug_code fuel table key_tagged).map
          fun walk =>
            match walk.exit with
            | .entry_found entry_start_position =>
              let value_slot : Int :=
                entry_start_position + (M.kHashTableStartIndex + M.kValueOffset : Nat)
              match LoadFixedArrayElement table entry_start_position
                  (M.kHashTableStartIndex + M.kValueOffset : Nat) with
              | some value =>
                ⟨.Return value, .LoadObjectField receiver :: walk.trace ++
                  [.LoadFixedArrayElement value_slot]⟩
              | none =>
                ⟨.Fault, .LoadObjectField receiver :: walk.trace ++
                  [.LoadFixedArrayElement value_slot]⟩
            | .not_found => ⟨.Return .undefined, .LoadObjectField receiver :: walk.trace⟩
            | other => ⟨walkFailure other, .LoadObjectField receiver :: walk.trace⟩
      else
        some ⟨.Return (CallGetRaw ext table key_tagged),
          [.LoadObjectField receiver,
           .CallCFunction "orderedhashmap_get_raw" table key_tagged]⟩

/-- The builtin `TF_BUILTIN(MapHas, ...)`. -/
def MapHas (ext : ExternalReference) (M : CollectionType) (debug_code : Bool)
    (heap : Heap) (fuel : Nat) (receiver key_tagged : Value) : Option Outcome :=
  match ThrowIfNotInstanceType heap receiver .JS_MAP_TYPE "Map.prototype.has" with
  | some exception => some ⟨.Throw exception, []⟩
  | none =>
    match LoadTableField heap receiver with
    | none => some ⟨.Fault, [.LoadObjectField receiver]⟩
    | some table =>
      if TaggedIsSmi key_tagged then
        (FindOrderedHashMapEntryForSmiKey ext M debug_code fuel table key_tagged).map
          fun walk =>
            match walk.exit with
            | .entry_found _ => ⟨.Return .true_value, .LoadObjectField receiver :: walk.trace⟩
            | .not_found => ⟨.Return .false_value, .LoadObjectField receiver :: walk.trace⟩
            | other => ⟨walkFailure other, .LoadObjectField receiver :: walk.trace⟩
      else
        some ⟨.Return (CallHasRaw ext M 2 table key_tagged),
          [.LoadObjectField receiver,
           .CallCFunction "orderedhashtable_has_raw" table key_tagged]⟩

/-- The builtin `TF_BUILTIN(SetHas, ...)`; `S` stands for the set constants. -/
def SetHas (ext : ExternalReference) (S : CollectionType) (heap : Heap)
    (receiver key : Value) : Outcome :=
  match ThrowIfNotInstanceType heap receiver .JS_SET_TYPE "Set.prototype.has" with
  | some exception => ⟨.Throw exception, []⟩
  | none =>
    match LoadTableField heap receiver with
    | none => ⟨.Fault, [.LoadObjectField receiver]⟩
    | some table =>
      ⟨.Return (CallHasRaw ext S 1 table key),
        [.LoadObjectField receiver,
         .CallCFunction "orderedhashtable_has_raw" table key]⟩

/-! ## The constructors -/

def GetOptionalArgumentValue (args : List Value) (index : Nat) : Value :=
  (args[index]?).getD .undefined

/-- The function object a value refers to. -/
def LoadFunction (heap : Heap) : Value → Option HeapObject
  | .object address => heap[address]?
  | _ => none

/-- The function `AllocateJSCollection(js_map_function)`: a new object of the function's
initial map, its table field set to undefined. Gives the heap with the new
object and the reference to it. -/
def AllocateJSCollection (debug_code : Bool) (heap : Heap) (js_map_function : Value) :
    Completion (Heap × Value) :=
  match LoadFunction heap js_map_function with
  | none => .Fault
  | some function =>
    if debug_code && !function.is_constructor_map then .AssertFailed
    else
      match function.prototype_or_initial_map with
      | none => .Fault
      | some initial_map =>
        let shell : HeapObject :=
          { instance_type := initial_map, is_constructor_map := false,
            prototype_or_initial_map := none, table := none }
        .Return (heap ++ [shell], .object heap.length)

/-- Modelled from the spec: `EmitFastNewObject(context, target, new_target)` of
the constructor builtins (declared outside the embedded file), the slow path of
the shell allocator: it "delegates to a generic object-allocation routine
honoring prototype changes. Both yield an equivalent shell shape", with the
table field set to "none". -/
def EmitFastNewObject (heap : Heap) (target : Value) (_new_target : Value) :
    Completion (Heap × Value) :=
  match LoadFunction heap target with
  | none => .Fault
  | some function =>
    match function.prototype_or_initial_map with
    | none => .Fault
    | some initial_map =>
      let shell : HeapObject :=
        { instance_type := initial_map, is_constructor_map := false,
          prototype_or_initial_map := none, table := none }
      .Return (heap ++ [shell], .object heap.length)

/-- The store `StoreObjectField(object, JSMap::kTableOffset, table)`. -/
def StoreTableField (heap : Heap) (object : Value) (table : FixedArray) : Option Heap :=
  match object with
  | .object address =>
    (heap[address]?).map fun o => heap.set address { o with table := some table }
  | _ => none

/-- Modelled from the spec: `IteratorBuiltinsAssembler::IteratorCloseOnException(context,
iterator, &var_exception)` is declared outside the embedded file; the spec says
that a failure "triggers the iterator's close/cleanup path, then the original
failure is rethrown". The close path of the iterator runs in the world (the
collaborator `rt.IteratorCloseOnException`), and the call does not return: it
completes with the exception that the variable `var_exception` holds. -/
def IteratorCloseOnException {σ : Type} (rt : Runtime σ) (w : World σ) (iterator : Value)
    (var_exception : Exception) : Run σ :=
  ⟨rt.IteratorCloseOnException w iterator var_exception, .Throw var_exception,
    [.IteratorCloseOnException iterator var_exception]⟩

/-- The label `if_exception` of both constructors: its block holds the call
`IteratorCloseOnException(context, iterator, &var_exception)` and nothing
else. -/
def ifException {σ : Type} (rt : Runtime σ) (w : World σ) (iterator : Value)
    (var_exception : Exception) : Run σ :=
  IteratorCloseOnException rt w iterator var_exception

def Run.after {σ : Type} (events : List Event) (r : Run σ) : Run σ :=
  { r with trace := events ++ r.trace }

/-- The loop of `MapConstructor`, one unit of fuel per step of the iterator. -/
def MapConstructor_loop {σ : Type} (rt : Runtime σ) (adder iterator var_result : Value) :
    (fuel : Nat) → World σ → Option (Run σ)
  | 0, _ => none
  | fuel + 1, w =>
    match rt.IteratorStep w iterator with
    | (w, .error exception) => some ⟨w, .Throw exception, [.IteratorStep iterator]⟩
    | (w, .ok none) => some ⟨w, .Return var_result, [.IteratorStep iterator]⟩
    | (w, .ok (some next)) =>
      match rt.IteratorValue w next with
      | (w, .error exception) =>
        some ⟨w, .Throw exception, [.IteratorStep iterator, .IteratorValue next]⟩
      | (w, .ok next_value) =>
        if TaggedIsSmi next_value || !rt.IsJSReceiver w next_value then
          some ((ifException rt w iterator
            (.TypeError .kIteratorValueNotAnObject [next_value])).after
              [.IteratorStep iterator, .IteratorValue next])
        else
          match rt.GetProperty w next_value "0" with
          | (w, .error exception) =>
            some ((ifException rt w iterator exception).after
              [.IteratorStep iterator, .IteratorValue next, .GetProperty next_value "0"])
          | (w, .ok k) =>
            match rt.GetProperty w next_value "1" with
            | (w, .error exception) =>
              some ((ifException rt w iterator exception).after
                [.IteratorStep iterator, .IteratorValue next,
                 .GetProperty next_value "0", .GetProperty next_value "1"])
            | (w, .ok v) =>
              match rt.CallJS w adder var_result [k, v] with
              | (w, .error exception) =>
                some ((ifException rt w iterator exception).after
                  [.IteratorStep iterator, .IteratorValue next,
                   .GetProperty next_value "0", .GetProperty next_value "1",
                   .CallJS adder var_result [k, v]])
              | (w, .ok _) =>
                (MapConstructor_loop rt adder iterator var_result fuel w).map
                  (Run.after [.IteratorStep iterator, .IteratorValue next,
                    .GetProperty next_value "0", .GetProperty next_value "1",
                    .CallJS adder var_result [k, v]])

/-- The builtin `TF_BUILTIN(MapConstructor, ...)`; `M` stands for the map constants. -/
def MapConstructor {σ : Type} (rt : Runtime σ) (M : CollectionType) (debug_code : Bool)
    (kMaxRegularLength : Nat) (context : Context) (fuel : Nat) (w : World σ)
    (new_target : Value) (args : List Value) : Option (Run σ) :=
  let iterable := GetOptionalArgumentValue args 0
  if IsUndefined new_target then
    some ⟨w, .Throw (.TypeError .kConstructorNotFunction [.string "Map"]), []⟩
  else
    let js_map_fun := context.JS_MAP_FUN
    let allocation :=
      if WordEqual js_map_fun new_target then AllocateJSCollection debug_code w.heap js_map_fun
      else EmitFastNewObject w.heap js_map_fun new_target
    let allocated : Value → Event := fun shell =>
      if WordEqual js_map_fun new_target then .AllocateJSCollection shell
      else .EmitFastNewObject shell
    match allocation with
    | .Throw exception => some ⟨w, .Throw exception, []⟩
    | .AssertFailed => some ⟨w, .AssertFailed, []⟩
    | .Fault => some ⟨w, .Fault, []⟩
    | .Return (heap, var_result) =>
      match AllocateOrderedHashTable M debug_code kMaxRegularLength with
      | none => some ⟨⟨heap, w.host⟩, .Fault, [allocated var_result]⟩
      | some table =>
        match StoreTableField heap var_result table with
        | none =>
          some ⟨⟨heap, w.host⟩, .Fault, [allocated var_result, .AllocateOrderedHashTable]⟩
        | some heap =>
          let w : World σ := ⟨heap, w.host⟩
          let init : List Event :=
            [allocated var_result, .AllocateOrderedHashTable, .StoreObjectField var_result]
          if IsUndefined iterable || IsNull iterable then
            some ⟨w, .Return var_result, init⟩
          else
            match rt.GetProperty w var_result "set" with
            | (w, .error exception) =>
              some ⟨w, .Throw exception, init ++ [.GetProperty var_result "set"]⟩
            | (w, .ok adder) =>
              if TaggedIsSmi adder || !rt.IsCallable w adder then
                some ⟨w, .Throw (.TypeError .kPropertyNotFunction
                    [adder, .string "add", var_result]),
                  init ++ [.GetProperty var_result "set"]⟩
              else
                match rt.GetIterator w iterable with
                | (w, .error exception) =>
                  some ⟨w, .Throw exception,
                    init ++ [.GetProperty var_result "set", .GetIterator iterable]⟩
                | (w, .ok iterator) =>
                  if IsUndefined iterator then
                    some ⟨w, .Return var_result,
                      init ++ [.GetProperty var_result "set", .GetIterator iterable]⟩
                  else
                    (MapConstructor_loop rt adder iterator var_result fuel w).map
                      (Run.after
                        (init ++ [.GetProperty var_result "set", .GetIterator iterable]))

/-- The loop of `SetConstructor`, one unit of fuel per step of the iterator. -/
def SetConstructor_loop {σ : Type} (rt : Runtime σ) (adder iterator var_result : Value) :
    (fuel : Nat) → World σ → Option (Run σ)
  | 0, _ => none
  | fuel + 1, w =>
    match rt.IteratorStep w iterator with
    | (w, .error exception) => some ⟨w, .Throw exception, [.IteratorStep iterator]⟩
    | (w, .ok none) => some ⟨w, .Return var_result, [.IteratorStep iterator]⟩
    | (w, .ok (some next)) =>
      match rt.IteratorValue w next with
      | (w, .error exception) =>
        some ⟨w, .Throw exception, [.IteratorStep iterator, .IteratorValue next]⟩
      | (w, .ok next_value) =>
        match rt.CallJS w adder var_result [next_value] with
        | (w, .error exception) =>
          some ((ifException rt w iterator exception).after
            [.IteratorStep iterator, .IteratorValue next,
             .CallJS adder var_result [next_value]])
        | (w, .ok _) =>
          (SetConstructor_loop rt adder iterator var_result fuel w).map
            (Run.after [.IteratorStep iterator, .IteratorValue next,
              .CallJS adder var_result [next_value]])

/-- The builtin `TF_BUILTIN(SetConstructor, ...)`; `S` stands for the set constants. -/
def SetConstructor {σ : Type} (rt : Runtime σ) (S : CollectionType) (debug_code : Bool)
    (kMaxRegularLength : Nat) (context : Context) (fuel : Nat) (w : World σ)
    (new_target : Value) (args : List Value) : Option (Run σ) :=
  let iterable := GetOptionalArgumentValue args 0
  if IsUndefined new_target then
    some ⟨w, .Throw (.TypeError .kConstructorNotFunction [.string "Set"]), []⟩
  else
    let js_set_fun := context.JS_SET_FUN
    let allocation :=
      if WordEqual js_set_fun new_target then AllocateJSCollection debug_code w.heap js_set_fun
      else EmitFastNewObject w.heap js_set_fun new_target
    let allocated : Value → Event := fun shell =>
      if WordEqual js_set_fun new_target then .AllocateJSCollection shell
      else .EmitFastNewObject shell
    match allocation with
    | .Throw exception => some ⟨w, .Throw exception, []⟩
    | .AssertFailed => some ⟨w, .AssertFailed, []⟩
    | .Fault => some ⟨w, .Fault, []⟩
    | .Return (heap, var_result) =>
      match AllocateOrderedHashTable S debug_code kMaxRegularLength with
      | none => some ⟨⟨heap, w.host⟩, .Fault, [allocated var_result]⟩
      | some table =>
        match StoreTableField heap var_result table with
        | none =>
          some ⟨⟨heap, w.host⟩, .Fault, [allocated var_result, .AllocateOrderedHashTable]⟩
        | some heap =>
          let w : World σ := ⟨heap, w.host⟩
          let init : List Event :=
            [allocated var_result, .AllocateOrderedHashTable, .StoreObjectField var_result]
          if IsUndefined iterable || IsNull iterable then
            some ⟨w, .Return var_result, init⟩
          else
            match rt.GetProperty w var_result "add" with
            | (w, .error exception) =>
              some ⟨w, .Throw exception, init ++ [.GetProperty var_result "add"]⟩
            | (w, .ok adder) =>
              if TaggedIsSmi adder || !rt.IsCallable w adder then
                some ⟨w, .Throw (.TypeError .kPropertyNotFunction
                    [adder, .string "add", var_result]),
                  init ++ [.GetProperty var_result "add"]⟩
              else
                match rt.GetIterator w iterable with
                | (w, .error exception) =>
                  some ⟨w, .Throw exception,
                    init ++ [.GetProperty var_result "add", .GetIterator iterable]⟩
                | (w, .ok iterator) =>
                  if IsUndefined iterator then
                    some ⟨w, .Return var_result,
                      init ++ [.GetProperty var_result "add", .GetIterator iterable]⟩
                  else
                    (SetConstructor_loop rt adder iterator var_result fuel w).map
                      (Run.after
                        (init ++ [.GetProperty var_result "add", .GetIterator iterable]))

/-- Some call of a collaborator ends by throwing `exception`. -/
def Runtime.throws {σ : Type} (rt : Runtime σ) (exception : Exception) : Prop :=
  (∃ w object name, (rt.GetProperty w object name).2 = .error exception) ∨
  (∃ w iterable, (rt.GetIterator w iterable).2 = .error exception) ∨
  (∃ w iterator, (rt.IteratorStep w iterator).2 = .error exception) ∨
  (∃ w next, (rt.IteratorValue w next).2 = .error exception) ∨
  (∃ w callee receiver args, (rt.CallJS w callee receiver args).2 = .error exception)

/-- An event in which user-level code can run or the source is touched. -/
def Event.isUserLevel : Event → Bool
  | .GetProperty _ _ => true
  | .GetIterator _ => true
  | .IteratorStep _ => true
  | .IteratorValue _ => true
  | .CallJS _ _ _ => true
  | .IteratorCloseOnException _ _ => true
  | _ => false

/-! ## Chains, as the data model describes them -/

/-- The number a double stands for, when it stands for one. -/
def Float64.numericValue : Float64 → Option ℚ
  | .nan => none
  | .infinity _ => none
  | .negZero => some 0
  | .finite q => some q

/-- In the words of the lookup contract: the candidate is the identical small
integer `k`, or a heap number whose value equals `k`. -/
def holdsSmiKey (candidate : Value) (k : Int) : Bool :=
  match candidate with
  | .smi n => decide (n = k)
  | .heapNumber x => decide (x.numericValue = some (k : ℚ))
  | _ => false

/-- The key slot of the entry with index `entry`. -/
def entryKey (M : CollectionType) (table : FixedArray) (number_of_buckets entry : Int) :
    Option Value :=
  LoadFixedArrayElement table (entry * M.kEntrySize + number_of_buckets)
    M.kHashTableStartIndex

/-- The chain-link slot of the entry with index `entry`. -/
def entryLink (M : CollectionType) (table : FixedArray) (number_of_buckets entry : Int) :
    Option Value :=
  LoadFixedArrayElement table (entry * M.kEntrySize + number_of_buckets)
    (M.kHashTableStartIndex + M.kChainOffset : Nat)

/-- The value slot of the entry with index `entry`. -/
def entryValue (M : CollectionType) (table : FixedArray) (number_of_buckets entry : Int) :
    Option Value :=
  LoadFixedArrayElement table (entry * M.kEntrySize + number_of_buckets)
    (M.kHashTableStartIndex + M.kValueOffset : Nat)

/-- Whether the key slot of an entry holds the small-integer key `k`. -/
def entryHoldsKey (M : CollectionType) (table : FixedArray) (number_of_buckets : Int)
    (k : Int) (entry : Int) : Bool :=
  match entryKey M table number_of_buckets entry with
  | some candidate => holdsSmiKey candidate k
  | none => false

/-- The predicate `Chain M table n e l`: the chain links starting at entry index `e` form a
singly linked list terminated by the sentinel, and `l` lists the entries on it
in chain order. Every entry on it has its key slot and its chain-link slot
inside the table, the link being a small integer. -/
inductive Chain (M : CollectionType) (table : FixedArray) (number_of_buckets : Int) :
    Int → List Int → Prop where
  | done : Chain M table number_of_buckets M.kNotFound []
  | link {entry next : Int} {key : Value} {rest : List Int} :
      entry ≠ M.kNotFound →
      entryKey M table number_of_buckets entry = some key →
      entryLink M table number_of_buckets entry = some (.smi next) →
      Chain M table number_of_buckets next rest →
      Chain M table number_of_buckets entry (entry :: rest)

/-- Modelled from the spec: the key equivalence of the external
full-equivalence routine, "strict equality plus NaN-equals-NaN": numbers are
compared by value whatever their representation, NaN equals NaN, everything
else is compared by identity. -/
def SameValueZero : Value → Value → Bool
  | .smi a, .smi b => decide (a = b)
  | .smi a, .heapNumber y => decide (y.numericValue = some (a : ℚ))
  | .heapNumber x, .smi b => decide (x.numericValue = some (b : ℚ))
  | .heapNumber x, .heapNumber y => (x == .nan && y == .nan) || Float64Equal x y
  | a, b => a == b

/-- Modelled from the spec: the answer of a full-equivalence lookup over the
entries of a chain. -/
def fullEquivalenceHas (M : CollectionType) (table : FixedArray) (number_of_buckets : Int)
    (chain : List Int) (key : Value) : Bool :=
  chain.any fun e =>
    match entryKey M table number_of_buckets e with
    | some candidate => SameValueZero candidate key
    | none => false

/-- An event that is a load from the table. -/
def Event.isTableLoad : Event → Bool
  | .LoadFixedArrayElement _ => true
  | _ => false

/-- An event that is a call of an external C function. -/
def Event.isExternalCall : Event → Bool
  | .CallCFunction _ _ _ => true
  | _ => false

/-! ## What the source produces -/

/-- An event that is a call of a user-level function. -/
def Event.isCallJS : Event → Bool
  | .CallJS _ _ _ => true
  | _ => false

/-- An event that is the close path of the iterator. -/
def Event.isClose : Event → Bool
  | .IteratorCloseOnException _ _ => true
  | _ => false

/-- An event that is a step of the iterator. -/
def Event.isStep : Event → Bool
  | .IteratorStep _ => true
  | _ => false

/-- An event that only reads memory. -/
def Event.isRead : Event → Bool
  | .LoadObjectField _ => true
  | .LoadFixedArrayElement _ => true
  | _ => false

/-- One element of the source as `MapConstructor` consumes it: the iterator
result, the value in it, and the members "0" and "1" of that value. -/
structure MapStep where
  next : Value
  next_value : Value
  k : Value
  v : Value

/-- The events of one round of the loop of `MapConstructor` that ends with the
insertion call. -/
def MapStep.events (adder iterator var_result : Value) (s : MapStep) : List Event :=
  [.IteratorStep iterator, .IteratorValue s.next,
   .GetProperty s.next_value "0", .GetProperty s.next_value "1",
   .CallJS adder var_result [s.k, s.v]]

/-- The events of successive rounds. -/
def MapStep.trace (adder iterator var_result : Value) : List MapStep → List Event
  | [] => []
  | s :: rest => s.events adder iterator var_result ++ MapStep.trace adder iterator var_result rest

/-- The relation `MapProduces rt adder iterator shell w steps w'`: from the
world `w` the iterator produces, one after the other and without any failure,
the elements `steps`; each value is an object, its members "0" and "1" are
read in that order, the call of `adder` on the shell with the two members
returns, and the world is then `w'`. -/
inductive MapProduces {σ : Type} (rt : Runtime σ) (adder iterator var_result : Value) :
    World σ → List MapStep → World σ → Prop where
  | done (w : World σ) : MapProduces rt adder iterator var_result w [] w
  | step {w w1 w2 w3 w4 w5 w6 : World σ} {s : MapStep} {steps : List MapStep}
      {result : Value} :
      rt.IteratorStep w iterator = (w1, .ok (some s.next)) →
      rt.IteratorValue w1 s.next = (w2, .ok s.next_value) →
      TaggedIsSmi s.next_value = false →
      rt.IsJSReceiver w2 s.next_value = true →
      rt.GetProperty w2 s.next_value "0" = (w3, .ok s.k) →
      rt.GetProperty w3 s.next_value "1" = (w4, .ok s.v) →
      rt.CallJS w4 adder var_result [s.k, s.v] = (w5, .ok result) →
      MapProduces rt adder iterator var_result w5 steps w6 →
      MapProduces rt adder iterator var_result w (s :: steps) w6

/-- One element of the source as `SetConstructor` consumes it: the iterator
result and the value in it. -/
structure SetStep where
  next : Value
  next_value : Value

/-- The events of one round of the loop of `SetConstructor` that ends with the
insertion call. -/
def SetStep.events (adder iterator var_result : Value) (s : SetStep) : List Event :=
  [.IteratorStep iterator, .IteratorValue s.next,
   .CallJS adder var_result [s.next_value]]

/-- The events of successive rounds. -/
def SetStep.trace (adder iterator var_result : Value) : List SetStep → List Event
  | [] => []
  | s :: rest => s.events adder iterator var_result ++ SetStep.trace adder iterator var_result rest

/-- The relation `SetProduces rt adder iterator shell w steps w'`: from the
world `w` the iterator produces, one after the other and without any failure,
the elements `steps`; the call of `adder` on the shell with each value returns,
and the world is then `w'`. -/
inductive SetProduces {σ : Type} (rt : Runtime σ) (adder iterator var_result : Value) :
    World σ → List SetStep → World σ → Prop where
  | done (w : World σ) : SetProduces rt adder iterator var_result w [] w
  | step {w w1 w2 w3 w4 : World σ} {s : SetStep} {steps : List SetStep}
      {result : Value} :
      rt.IteratorStep w iterator = (w1, .ok (some s.next)) →
      rt.IteratorValue w1 s.next = (w2, .ok s.next_value) →
      rt.CallJS w2 adder var_result [s.next_value] = (w3, .ok result) →
      SetProduces rt adder iterator var_result w3 steps w4 →
      SetProduces rt adder iterator var_result w (s :: steps) w4

/-- The conditions under which a constructor allocates its shell and its
table: the function of the native context is a function object with an initial
map (a constructor map, which a debug build asserts), and the table allocator
succeeds. -/
structure Allocates (C : CollectionType) (debug_code : Bool) (kMaxRegularLength : Nat)
    (heap : Heap) (js_function : Value) (initial_map : InstanceType)
    (table : FixedArray) : Prop where
  function : ∃ f, LoadFunction heap js_function = some f ∧
    (debug_code = true → f.is_constructor_map = true) ∧
    f.prototype_or_initial_map = some initial_map
  table : AllocateOrderedHashTable C debug_code kMaxRegularLength = some table

/-- The heap after the shell has been allocated and its table installed. -/
def heapWithShell (heap : Heap) (initial_map : InstanceType) (table : FixedArray) : Heap :=
  heap ++ [⟨initial_map, false, none, some table⟩]

/-- The three events with which a constructor starts once the new-target is
known to be defined. -/
def initEvents (js_function new_target shell : Value) : List Event :=
  [if WordEqual js_function new_target then .AllocateJSCollection shell
    else .EmitFastNewObject shell,
   .AllocateOrderedHashTable, .StoreObjectField shell]


/-- The conditions under which `MapConstructor` reaches its loop in the world
`w2`: the new-target is defined, the source is neither undefined nor null, the
shell and the table are allocated, the read of `set` on the shell gives the
callable value `adder`, and the source gives the iterator `iterator`. -/
structure MapResolves {σ : Type} (rt : Runtime σ) (M : CollectionType) (debug_code : Bool)
    (kMaxRegularLength : Nat) (context : Context) (w : World σ) (new_target : Value)
    (args : List Value) (initial_map : InstanceType) (table : FixedArray)
    (adder iterator : Value) (w2 : World σ) : Prop where
  defined : new_target ≠ .undefined
  not_undefined : GetOptionalArgumentValue args 0 ≠ .undefined
  not_null : GetOptionalArgumentValue args 0 ≠ .null
  allocates : Allocates M debug_code kMaxRegularLength w.heap context.JS_MAP_FUN
    initial_map table
  resolved : ∃ w1,
    rt.GetProperty ⟨heapWithShell w.heap initial_map table, w.host⟩
      (.object w.heap.length) "set" = (w1, .ok adder) ∧
    TaggedIsSmi adder = false ∧ rt.IsCallable w1 adder = true ∧
    rt.GetIterator w1 (GetOptionalArgumentValue args 0) = (w2, .ok iterator)
  iterator_defined : iterator ≠ .undefined

/-- The conditions under which `SetConstructor` reaches its loop in the world
`w2`, as `MapResolves` with the property `add`. -/
structure SetResolves {σ : Type} (rt : Runtime σ) (S : CollectionType) (debug_code : Bool)
    (kMaxRegularLength : Nat) (context : Context) (w : World σ) (new_target : Value)
    (args : List Value) (initial_map : InstanceType) (table : FixedArray)
    (adder iterator : Value) (w2 : World σ) : Prop where
  defined : new_target ≠ .undefined
  not_undefined : GetOptionalArgumentValue args 0 ≠ .undefined
  not_null : GetOptionalArgumentValue args 0 ≠ .null
  allocates : Allocates S debug_code kMaxRegularLength w.heap context.JS_SET_FUN
    initial_map table
  resolved : ∃ w1,
    rt.GetProperty ⟨heapWithShell w.heap initial_map table, w.host⟩
      (.object w.heap.length) "add" = (w1, .ok adder) ∧
    TaggedIsSmi adder = false ∧ rt.IsCallable w1 adder = true ∧
    rt.GetIterator w1 (GetOptionalArgumentValue args 0) = (w2, .ok iterator)
  iterator_defined : iterator ≠ .undefined

/-- The events of a constructor up to its loop: the allocation, the read of the
insertion-method property `name`, the obtaining of the iterator. -/
def resolveEvents (js_function new_target shell : Value) (name : String)
    (iterable : Value) : List Event :=
  initEvents js_function new_target shell ++
    [.GetProperty shell name, .GetIterator iterable]


/-- An event that obtains, steps, reads or closes the iterator of the source,
or calls the insertion method. -/
def Event.isIteration : Event → Bool
  | .GetIterator _ => true
  | .IteratorStep _ => true
  | .IteratorValue _ => true
  | .CallJS _ _ _ => true
  | .IteratorCloseOnException _ _ => true
  | _ => false


/-! ## The invariants of the data model -/

/-- The invariants of the data model for a map table with `number_of_buckets`
buckets, `live` live entries and `deleted` deleted entries: the three counters
are in the header; the bucket count is a positive power of two; live plus
deleted entries do not exceed the capacity, which is the bucket count times the
load factor; the length of the table is `kHashTableStartIndex` plus the bucket
count plus the capacity times the entry size; every bucket slot, and the
chain-link slot of every entry below live plus deleted, holds `kNotFound` or
an index below live plus deleted. -/
structure TableInvariants (M : CollectionType) (table : FixedArray)
    (number_of_buckets live deleted : Int) : Prop where
  buckets_slot : LoadFixedArrayElement table M.kNumberOfBucketsIndex 0 =
    some (.smi number_of_buckets)
  live_slot : LoadFixedArrayElement table M.kNumberOfElementsIndex 0 = some (.smi live)
  deleted_slot : LoadFixedArrayElement table M.kNumberOfDeletedElementsIndex 0 =
    some (.smi deleted)
  power_of_two : ∃ j : Nat, number_of_buckets = 2 ^ j
  counts : live + deleted ≤ number_of_buckets * M.kLoadFactor
  length : (table.length : Int) =
    M.kHashTableStartIndex + number_of_buckets +
      number_of_buckets * M.kLoadFactor * M.kEntrySize
  bucket_heads : ∀ (b : Int) (value : Value), 0 ≤ b → b < number_of_buckets →
    LoadFixedArrayElement table b M.kHashTableStartIndex = some value →
    ∃ x, value = .smi x ∧ (x = M.kNotFound ∨ (0 ≤ x ∧ x < live + deleted))
  chain_links : ∀ (e : Int) (value : Value), 0 ≤ e → e < live + deleted →
    entryLink M table number_of_buckets e = some value →
    ∃ x, value = .smi x ∧ (x = M.kNotFound ∨ (0 ≤ x ∧ x < live + deleted))

/-! ## Sample data -/

/-- External routines for the examples: the hash of an integer is its absolute
value, `get_raw` finds nothing and `has_raw` answers 0. -/
def sampleExternal : ExternalReference where
  orderedhashmap_get_raw := fun _ _ => .undefined
  orderedhashtable_has_raw := fun _ _ _ _ => 0
  ComputeIntegerHash := fun key _ => key.natAbs

/-- A map table with two buckets and two live entries, both in bucket 1:
entry 1 (key 5, value "b") links to entry 0 (key 3, value "a"). -/
def sampleTable : FixedArray :=
  [.smi 2, .smi 0, .smi 2,
   .smi (-1), .smi 1,
   .smi 3, .string "a", .smi (-1),
   .smi 5, .string "b", .smi 0,
   .undefined, .undefined, .undefined,
   .undefined, .undefined, .undefined]

/-- A heap for the examples: the Map function, the Set function, a map whose
table is `sampleTable`, and a set with an empty table. -/
def sampleHeap : Heap :=
  [{ instance_type := .OTHER_TYPE 3, is_constructor_map := true,
     prototype_or_initial_map := some .JS_MAP_TYPE, table := none },
   { instance_type := .OTHER_TYPE 3, is_constructor_map := true,
     prototype_or_initial_map := some .JS_SET_TYPE, table := none },
   { instance_type := .JS_MAP_TYPE, is_constructor_map := false,
     prototype_or_initial_map := none, table := some sampleTable },
   { instance_type := .JS_SET_TYPE, is_constructor_map := false,
     prototype_or_initial_map := none,
     table := some [.smi 0, .smi 0, .smi 2, .smi (-1), .smi (-1),
       .undefined, .undefined, .undefined, .undefined,
       .undefined, .undefined, .undefined, .undefined] }]

def sampleContext : Context where
  JS_MAP_FUN := .object 0
  JS_SET_FUN := .object 1

/-- The sample table with the key of entry 0 boxed: the heap number 3.0. -/
def boxedTable : FixedArray :=
  [.smi 2, .smi 0, .smi 2,
   .smi (-1), .smi 1,
   .heapNumber (.finite 3), .string "a", .smi (-1),
   .smi 5, .string "b", .smi 0,
   .undefined, .undefined, .undefined,
   .undefined, .undefined, .undefined]

/-- A heap holding one map whose table is `boxedTable`. -/
def boxedHeap : Heap :=
  [{ instance_type := .JS_MAP_TYPE, is_constructor_map := false,
     prototype_or_initial_map := none, table := some boxedTable }]

/-- A runtime for the examples, on a host state that counts the elements
already produced: the source is an iterable of two pairs, every property read
gives the small integer 7, every call succeeds, and the only callable value is
the object at address 9. -/
def sampleRuntime : Runtime Nat where
  GetProperty := fun w _ name =>
    (w, .ok (if name = "set" ∨ name = "add" then .object 9 else .smi 7))
  GetIterator := fun w _ => (w, .ok (.object 8))
  IteratorStep := fun w _ =>
    if w.host < 2 then (⟨w.heap, w.host + 1⟩, .ok (some (.object 7))) else (w, .ok none)
  IteratorValue := fun w _ => (w, .ok (.object 6))
  CallJS := fun w _ _ _ => (w, .ok .undefined)
  IteratorCloseOnException := fun w _ _ => w
  IsCallable := fun _ v => v == .object 9
  IsJSReceiver := fun _ v => !TaggedIsSmi v

/-- The sample runtime with a `set` property whose getter calls `Map` without
`new`: reading it throws the constructor-not-called-as-constructor error. -/
def throwingRuntime : Runtime Nat :=
  { sampleRuntime with
    GetProperty := fun w _ _ =>
      (w, .error (.TypeError .kConstructorNotFunction [.string "Map"])) }

/-- The sample runtime with an insertion-method property that user code
reassigns while the first element is produced: read in a world where no
element has been produced yet it is the object at address 9, read later it is
the object at address 10. Both are callable. -/
def reassigningRuntime : Runtime Nat :=
  { sampleRuntime with
    GetProperty := fun w _ name =>
      (w, .ok (if name = "set" ∨ name = "add" then
        (if w.host = 0 then .object 9 else .object 10) else .smi 7))
    IsCallable := fun _ v => v == .object 9 || v == .object 10 }


/-- The table the allocator returns for the map constants. -/
def freshMapTable : FixedArray :=
  [.smi 0, .smi 0, .smi 2, .smi (-1), .smi (-1),
   .undefined, .undefined, .undefined, .undefined, .undefined, .undefined,
   .undefined, .undefined, .undefined, .undefined, .undefined, .undefined]

/-- The table the allocator returns for the set constants. -/
def freshSetTable : FixedArray :=
  [.smi 0, .smi 0, .smi 2, .smi (-1), .smi (-1),
   .undefined, .undefined, .undefined, .undefined,
   .undefined, .undefined, .undefined, .undefined]

/-- The sample heap with a new map at address 4, and a host state. -/
def mapWorld (host : Nat) : World Nat :=
  ⟨heapWithShell sampleHeap .JS_MAP_TYPE freshMapTable, host⟩

/-- The sample heap with a new set at address 4, and a host state. -/
def setWorld (host : Nat) : World Nat :=
  ⟨heapWithShell sampleHeap .JS_SET_TYPE freshSetTable, host⟩


/-- The sample runtime on a source whose first element is an object and whose
second element is the small integer 2; the close path of the iterator leaves
the host state 100. -/
def mixedRuntime : Runtime Nat :=
  { sampleRuntime with
    IteratorValue := fun w _ => (w, .ok (if w.host ≤ 1 then .object 6 else .smi 2))
    IteratorCloseOnException := fun w _ _ => ⟨w.heap, 100⟩ }


/-- The sample runtime with an iterator whose `next` method throws "boom"; the
close path of the iterator leaves the host state 100. -/
def steppingFailsRuntime : Runtime Nat :=
  { sampleRuntime with
    IteratorStep := fun w _ => (w, .error (.Thrown (.string "boom")))
    IteratorCloseOnException := fun w _ _ => ⟨w.heap, 100⟩ }

/-- The sample runtime with an insertion method that throws "boom"; the close
path of the iterator leaves the host state 100. -/
def callFailsRuntime : Runtime Nat :=
  { sampleRuntime with
    CallJS := fun w _ _ _ => (w, .error (.Thrown (.string "boom")))
    IteratorCloseOnException := fun w _ _ => ⟨w.heap, 100⟩ }


/-- The sample runtime with an insertion-method property that holds the small
integer 1 (as after `Map.prototype.set = 1`). -/
def notCallableRuntime : Runtime Nat :=
  { sampleRuntime with
    GetProperty := fun w _ _ => (w, .ok (.smi 1)) }


/-- A heap holding one map whose table is `sampleTable`. -/
def singleMapHeap : Heap :=
  [{ instance_type := .JS_MAP_TYPE, is_constructor_map := false,
     prototype_or_initial_map := none, table := some sampleTable }]


/-- A map table with one bucket and one live entry whose chain link points
back at the entry itself: entry 0 holds the key 5 and links to entry 0. -/
def cyclicTable : FixedArray :=
  [.smi 1, .smi 0, .smi 1,
   .smi 0,
   .smi 5, .string "x", .smi 0,
   .undefined, .undefined, .undefined]


/-- External routines whose `has_raw` leaves the word `r` in the result
register, whatever the table and the key. -/
def rawExternal (r : Nat) : ExternalReference where
  orderedhashmap_get_raw := fun _ _ => .undefined
  orderedhashtable_has_raw := fun _ _ _ _ => r
  ComputeIntegerHash := fun key _ => key.natAbs


/-! ## Facts about stores -/

theorem StoreFixedArrayElement_spec (table : FixedArray) (index : Nat) (value : Value)
    (h : index < table.length) :
    ∃ t, StoreFixedArrayElement table index value = some t ∧ t.length = table.length ∧
      t[index]? = some value ∧ ∀ j, j ≠ index → t[j]? = table[j]? := by
  refine ⟨table.set index value, by simp [StoreFixedArrayElement, h], by simp, ?_, ?_⟩
  · simp [List.getElem?_set, h]
  · intro j hj
    simp [List.getElem?_set, Ne.symm hj]

theorem storeLoop_spec (base : Nat) (value : Value) :
    ∀ (count i : Nat) (table : FixedArray), base + i + count ≤ table.length →
      ∃ t, storeLoop base value count i table = some t ∧ t.length = table.length ∧
        (∀ j, base + i ≤ j → j < base + i + count → t[j]? = some value) ∧
        (∀ j, (j < base + i ∨ base + i + count ≤ j) → t[j]? = table[j]?) := by
  intro count
  induction count with
  | zero =>
    intro i table _
    exact ⟨table, rfl, rfl, fun j h1 h2 => by omega, fun _ _ => rfl⟩
  | succ n ih =>
    intro i table h
    obtain ⟨t1, e1, l1, g1, o1⟩ :=
      StoreFixedArrayElement_spec table (base + i) value (by omega)
    obtain ⟨t2, e2, l2, g2, o2⟩ := ih (i + 1) t1 (by omega)
    refine ⟨t2, by simp [storeLoop, e1, e2], by omega, ?_, ?_⟩
    · intro j h1 h2
      by_cases hj : j = base + i
      · subst hj
        rw [o2 _ (Or.inl (by omega))]
        exact g1
      · exact g2 j (by omega) (by omega)
    · intro j hj
      rw [o2 j (by omega), o1 j (by omega)]

/-! ## The freshly allocated table -/

/-- The table `AllocateOrderedHashTable` builds, slot by slot. -/
theorem AllocateOrderedHashTable_spec (C : CollectionType) (debug_code : Bool)
    (kMaxRegularLength : Nat) (hlayout : C.HeaderLayout)
    (hmax : debug_code = true → C.kFixedArrayLength ≤ kMaxRegularLength) :
    ∃ table, AllocateOrderedHashTable C debug_code kMaxRegularLength = some table ∧
      table.length = C.kHashTableStartIndex + C.kBucketCount + C.kDataTableLength ∧
      table[C.kNumberOfElementsIndex]? = some (.smi 0) ∧
      table[C.kNumberOfDeletedElementsIndex]? = some (.smi 0) ∧
      table[C.kNumberOfBucketsIndex]? = some (.smi (C.kBucketCount : Int)) ∧
      (∀ i, i < C.kBucketCount →
        table[C.kHashTableStartIndex + i]? = some (.smi C.kNotFound)) ∧
      (∀ i, i < C.kDataTableLength →
        table[C.kHashTableStartIndex + C.kBucketCount + i]? = some .undefined) := by
  obtain ⟨h1, h2, h3, h12, h13, h23⟩ := hlayout
  have hlen : (AllocateFixedArray C.kFixedArrayLength).length =
      C.kHashTableStartIndex + C.kBucketCount + C.kDataTableLength := by
    simp [AllocateFixedArray, CollectionType.kFixedArrayLength]
  obtain ⟨t1, e1, l1, g1, o1⟩ := StoreFixedArrayElement_spec
    (AllocateFixedArray C.kFixedArrayLength) C.kNumberOfElementsIndex (.smi 0) (by omega)
  obtain ⟨t2, e2, l2, g2, o2⟩ := StoreFixedArrayElement_spec
    t1 C.kNumberOfDeletedElementsIndex (.smi 0) (by omega)
  obtain ⟨t3, e3, l3, g3, o3⟩ := StoreFixedArrayElement_spec
    t2 C.kNumberOfBucketsIndex (.smi C.kBucketCount) (by omega)
  obtain ⟨t4, e4, l4, g4, o4⟩ := storeLoop_spec C.kHashTableStartIndex
    (.smi C.kNotFound) C.kBucketCount 0 t3 (by omega)
  obtain ⟨t5, e5, l5, g5, o5⟩ := storeLoop_spec C.kDataTableStartIndex
    .undefined C.kDataTableLength 0 t4
    (by simp only [CollectionType.kDataTableStartIndex]; omega)
  have hdbg : (debug_code && !(decide (C.kFixedArrayLength ≤ kMaxRegularLength))) = false := by
    cases debug_code with
    | false => rfl
    | true => simp [hmax rfl]
  have run : AllocateOrderedHashTable C debug_code kMaxRegularLength = some t5 := by
    unfold AllocateOrderedHashTable
    simp only [hdbg, Bool.false_eq_true, if_false]
    rw [e1, Option.some_bind, e2, Option.some_bind, e3, Option.some_bind, e4,
      Option.some_bind, e5]
  simp only [CollectionType.kDataTableStartIndex] at g5 o5
  refine ⟨t5, run, by omega, ?_, ?_, ?_, ?_, ?_⟩
  · rw [o5 _ (Or.inl (by omega)), o4 _ (Or.inl (by omega)), o3 _ h13, o2 _ h12]
    exact g1
  · rw [o5 _ (Or.inl (by omega)), o4 _ (Or.inl (by omega)), o3 _ h23]
    exact g2
  · rw [o5 _ (Or.inl (by omega)), o4 _ (Or.inl (by omega))]
    exact g3
  · intro i hi
    rw [o5 _ (Or.inl (by omega))]
    exact g4 _ (by omega) (by omega)
  · intro i hi
    exact g5 _ (by omega) (by omega)

/-- C1: for a collection type whose three header counters occupy three
different slots before the first bucket, `AllocateOrderedHashTable` returns a
table of length `kHashTableStartIndex + kBucketCount + kMinCapacity * kEntrySize`
with `kBucketCount = kMinCapacity / kLoadFactor`; its number-of-elements slot and
its number-of-deleted-elements slot hold 0, its number-of-buckets slot holds
`kBucketCount`, every bucket slot holds `kNotFound` and every data slot holds
undefined. -/
theorem AllocateOrderedHashTable_fresh (C : CollectionType) (debug_code : Bool)
    (kMaxRegularLength : Nat) (hlayout : C.HeaderLayout)
    (hmax : debug_code = true → C.kFixedArrayLength ≤ kMaxRegularLength) :
    ∃ table, AllocateOrderedHashTable C debug_code kMaxRegularLength = some table ∧
      table.length =
        C.kHashTableStartIndex + C.kMinCapacity / C.kLoadFactor +
          C.kMinCapacity * C.kEntrySize ∧
      table[C.kNumberOfElementsIndex]? = some (.smi 0) ∧
      table[C.kNumberOfDeletedElementsIndex]? = some (.smi 0) ∧
      table[C.kNumberOfBucketsIndex]? =
        some (.smi ((C.kMinCapacity / C.kLoadFactor : Nat) : Int)) ∧
      (∀ i, i < C.kMinCapacity / C.kLoadFactor →
        table[C.kHashTableStartIndex + i]? = some (.smi C.kNotFound)) ∧
      (∀ i, i < C.kMinCapacity * C.kEntrySize →
        table[C.kHashTableStartIndex + C.kMinCapacity / C.kLoadFactor + i]? =
          some .undefined) :=
  AllocateOrderedHashTable_spec C debug_code kMaxRegularLength hlayout hmax

/-- C1 at the constants of `OrderedHashMap`, in a debug build. -/
theorem AllocateOrderedHashTable_fresh_witness :
    ∃ table, AllocateOrderedHashTable OrderedHashMap true 1000 = some table ∧
      table.length =
        OrderedHashMap.kHashTableStartIndex +
          OrderedHashMap.kMinCapacity / OrderedHashMap.kLoadFactor +
          OrderedHashMap.kMinCapacity * OrderedHashMap.kEntrySize ∧
      table[OrderedHashMap.kNumberOfElementsIndex]? = some (.smi 0) ∧
      table[OrderedHashMap.kNumberOfDeletedElementsIndex]? = some (.smi 0) ∧
      table[OrderedHashMap.kNumberOfBucketsIndex]? =
        some (.smi ((OrderedHashMap.kMinCapacity / OrderedHashMap.kLoadFactor : Nat) : Int)) ∧
      (∀ i, i < OrderedHashMap.kMinCapacity / OrderedHashMap.kLoadFactor →
        table[OrderedHashMap.kHashTableStartIndex + i]? =
          some (.smi OrderedHashMap.kNotFound)) ∧
      (∀ i, i < OrderedHashMap.kMinCapacity * OrderedHashMap.kEntrySize →
        table[OrderedHashMap.kHashTableStartIndex +
          OrderedHashMap.kMinCapacity / OrderedHashMap.kLoadFactor + i]? =
          some .undefined) :=
  AllocateOrderedHashTable_fresh OrderedHashMap true 1000 (by decide) (by decide)

/-! ## The chain walk -/

theorem keyComparison_eq_holdsSmiKey (candidate_key : Value) (key : Int) :
    keyComparison candidate_key key = holdsSmiKey candidate_key key := by
  cases candidate_key with
  | smi n =>
    by_cases h : n = key
    · simp [keyComparison, holdsSmiKey, WordEqual, h]
    · simp [keyComparison, holdsSmiKey, WordEqual, TaggedIsSmi, h]
  | heapNumber x =>
    cases x with
    | nan =>
      simp [keyComparison, holdsSmiKey, WordEqual, TaggedIsSmi, IsHeapNumber,
        LoadHeapNumberValue, SmiToFloat64, Float64Equal, Float64.numericValue]
    | infinity s =>
      simp [keyComparison, holdsSmiKey, WordEqual, TaggedIsSmi, IsHeapNumber,
        LoadHeapNumberValue, SmiToFloat64, Float64Equal, Float64.numericValue]
    | negZero =>
      have h : (Value.heapNumber Float64.negZero == Value.smi key) = false := by
        simp
      simp only [keyComparison, holdsSmiKey, WordEqual, TaggedIsSmi, IsHeapNumber,
        LoadHeapNumberValue, SmiToFloat64, Float64Equal, Float64.numericValue, h]
      rw [Bool.eq_iff_iff]
      simp only [Bool.false_eq_true, if_false, Bool.not_true, beq_iff_eq, decide_eq_true_eq,
        Option.some.injEq]
      exact eq_comm
    | finite q =>
      have h : (Value.heapNumber (Float64.finite q) == Value.smi key) = false := by
        simp
      simp only [keyComparison, holdsSmiKey, WordEqual, TaggedIsSmi, IsHeapNumber,
        LoadHeapNumberValue, SmiToFloat64, Float64Equal, Float64.numericValue, h]
      rw [Bool.eq_iff_iff]
      simp only [Bool.false_eq_true, if_false, Bool.not_true, beq_iff_eq, decide_eq_true_eq,
        Option.some.injEq]
  | _ => simp [keyComparison, holdsSmiKey, WordEqual, TaggedIsSmi, IsHeapNumber]

theorem walkChain_sentinel (M : CollectionType) (debug_code : Bool) (table : FixedArray)
    (k number_of_buckets : Int) (fuel : Nat) :
    walkChain M debug_code table k number_of_buckets (fuel + 1) M.kNotFound =
      some ⟨.not_found, []⟩ := by
  simp [walkChain]

theorem walkChain_found (M : CollectionType) (debug_code : Bool) (table : FixedArray)
    (k number_of_buckets : Int) (fuel : Nat) {entry : Int} {candidate_key : Value}
    (hne : entry ≠ M.kNotFound)
    (hcheck : rangeCheck M debug_code table entry = some true)
    (hkey : entryKey M table number_of_buckets entry = some candidate_key)
    (hm : holdsSmiKey candidate_key k = true) :
    walkChain M debug_code table k number_of_buckets (fuel + 1) entry =
      some ⟨.entry_found (entry * M.kEntrySize + number_of_buckets),
        rangeCheckLoads M debug_code ++
          [.LoadFixedArrayElement (keySlot M (entry * M.kEntrySize + number_of_buckets))]⟩ := by
  unfold entryKey at hkey
  rw [walkChain]
  simp only [hne, if_false, hcheck, hkey, keyComparison_eq_holdsSmiKey, hm, if_true]

theorem walkChain_next (M : CollectionType) (debug_code : Bool) (table : FixedArray)
    (k number_of_buckets : Int) (fuel : Nat) {entry next : Int} {candidate_key : Value}
    (hne : entry ≠ M.kNotFound)
    (hcheck : rangeCheck M debug_code table entry = some true)
    (hkey : entryKey M table number_of_buckets entry = some candidate_key)
    (hm : holdsSmiKey candidate_key k = false)
    (hlink : entryLink M table number_of_buckets entry = some (.smi next)) :
    walkChain M debug_code table k number_of_buckets (fuel + 1) entry =
      (walkChain M debug_code table k number_of_buckets fuel next).map
        (Walk.after (rangeCheckLoads M debug_code ++
          [.LoadFixedArrayElement (keySlot M (entry * M.kEntrySize + number_of_buckets)),
           .LoadFixedArrayElement
             (chainSlot M (entry * M.kEntrySize + number_of_buckets))])) := by
  unfold entryKey at hkey
  unfold entryLink at hlink
  rw [walkChain]
  simp only [hne, if_false, hcheck, hkey, keyComparison_eq_holdsSmiKey, hm, hlink,
    Option.some_bind, SmiUntag, Bool.false_eq_true]

/-- Where a walk along the chain `chain` ends for the key `k`. -/
theorem walkChain_chain (M : CollectionType) (debug_code : Bool) (table : FixedArray)
    (k number_of_buckets : Int) {first_entry : Int} {chain : List Int}
    (hchain : Chain M table number_of_buckets first_entry chain)
    (hrange : ∀ e ∈ chain, rangeCheck M debug_code table e = some true) :
    ∀ fuel, chain.length < fuel →
      (walkChain M debug_code table k number_of_buckets fuel first_entry).map Walk.exit =
        some (match chain.find? (entryHoldsKey M table number_of_buckets k) with
          | some e => .entry_found (e * M.kEntrySize + number_of_buckets)
          | none => .not_found) := by
  induction hchain with
  | done =>
    intro fuel hfuel
    obtain ⟨f, rfl⟩ : ∃ f, fuel = f + 1 := ⟨fuel - 1, by simp at hfuel; omega⟩
    simp [walkChain_sentinel]
  | @link entry next key rest hne hkey hlink _ ih =>
    intro fuel hfuel
    obtain ⟨f, rfl⟩ : ∃ f, fuel = f + 1 := ⟨fuel - 1, by simp at hfuel; omega⟩
    have hcheck := hrange entry (List.mem_cons_self _ _)
    have hholds : entryHoldsKey M table number_of_buckets k entry = holdsSmiKey key k := by
      simp [entryHoldsKey, hkey]
    cases hm : holdsSmiKey key k with
    | true =>
      rw [walkChain_found M debug_code table k number_of_buckets f hne hcheck hkey hm]
      simp [List.find?_cons, hholds, hm]
    | false =>
      have ih2 := ih (fun e he => hrange e (List.mem_cons_of_mem _ he)) f
        (by simp at hfuel; omega)
      rw [walkChain_next M debug_code table k number_of_buckets f hne hcheck hkey hm hlink]
      rw [Option.map_map]
      simp only [List.find?_cons, hholds, hm]
      exact ih2

/-- The walk from the bucket of the key, along the chain it heads. -/
theorem FindOrderedHashMapEntryForSmiKey_chain (ext : ExternalReference)
    (M : CollectionType) (debug_code : Bool) (table : FixedArray)
    (k number_of_buckets first_entry : Int) (chain : List Int) (fuel : Nat)
    (hbuckets : LoadFixedArrayElement table M.kNumberOfBucketsIndex 0 =
      some (.smi number_of_buckets))
    (hbucket : LoadFixedArrayElement table
      (WordAnd (ext.ComputeIntegerHash k 0) (number_of_buckets - 1))
      M.kHashTableStartIndex = some (.smi first_entry))
    (hchain : Chain M table number_of_buckets first_entry chain)
    (hrange : ∀ e ∈ chain, rangeCheck M debug_code table e = some true)
    (hfuel : chain.length < fuel) :
    (FindOrderedHashMapEntryForSmiKey ext M debug_code fuel table (.smi k)).map Walk.exit =
      some (match chain.find? (entryHoldsKey M table number_of_buckets k) with
        | some e => .entry_found (e * M.kEntrySize + number_of_buckets)
        | none => .not_found) := by
  have h := walkChain_chain M debug_code table k number_of_buckets hchain hrange fuel hfuel
  unfold FindOrderedHashMapEntryForSmiKey
  simp only [SmiUntag, hbuckets, hbucket, Option.some_bind, Option.map_map]
  exact h

/-- C2: take a map table whose number-of-buckets slot holds a small integer `n`
and whose bucket `hash(k) AND (n - 1)` heads the chain `chain` (links ending in
the sentinel, key and link slots inside the table, every entry passing the
range check that a debug build asserts). For a small-integer key `k` and fuel
above the length of the chain, `FindOrderedHashMapEntryForSmiKey` ends; it
leaves through `entry_found` if and only if some entry of the chain has a key
slot holding the small integer `k` or a heap number of value `k`, the position
it returns being `n + e * kEntrySize` for the first such entry `e` in chain
order, whatever keys the entries before it hold; if no entry of the chain is
such, it leaves through `not_found`. -/
theorem FindOrderedHashMapEntryForSmiKey_finds (ext : ExternalReference)
    (M : CollectionType) (debug_code : Bool) (table : FixedArray)
    (k number_of_buckets first_entry : Int) (chain : List Int) (fuel : Nat)
    (hbuckets : LoadFixedArrayElement table M.kNumberOfBucketsIndex 0 =
      some (.smi number_of_buckets))
    (hbucket : LoadFixedArrayElement table
      (WordAnd (ext.ComputeIntegerHash k 0) (number_of_buckets - 1))
      M.kHashTableStartIndex = some (.smi first_entry))
    (hchain : Chain M table number_of_buckets first_entry chain)
    (hrange : ∀ e ∈ chain, rangeCheck M debug_code table e = some true)
    (hfuel : chain.length < fuel) :
    ∃ walk, FindOrderedHashMapEntryForSmiKey ext M debug_code fuel table (.smi k) =
        some walk ∧
      ((∃ position, walk.exit = .entry_found position) ↔
        ∃ e ∈ chain, entryHoldsKey M table number_of_buckets k e = true) ∧
      (∀ e, chain.find? (entryHoldsKey M table number_of_buckets k) = some e →
        walk.exit = .entry_found (number_of_buckets + e * M.kEntrySize)) ∧
      ((∀ e ∈ chain, entryHoldsKey M table number_of_buckets k e = false) →
        walk.exit = .not_found) := by
  have h := FindOrderedHashMapEntryForSmiKey_chain ext M debug_code table k
    number_of_buckets first_entry chain fuel hbuckets hbucket hchain hrange hfuel
  obtain ⟨walk, hw, hexit⟩ := Option.map_eq_some'.mp h
  refine ⟨walk, hw, ?_, ?_, ?_⟩
  · cases hf : chain.find? (entryHoldsKey M table number_of_buckets k) with
    | none =>
      rw [hf] at hexit
      constructor
      · rintro ⟨position, hp⟩
        rw [hp] at hexit
        cases hexit
      · rintro ⟨e, he, hk⟩
        have := List.find?_eq_none.mp hf e he
        exact absurd hk this
    | some e =>
      rw [hf] at hexit
      constructor
      · intro _
        exact ⟨e, List.mem_of_find?_eq_some hf, List.find?_some hf⟩
      · intro _
        exact ⟨_, hexit⟩
  · intro e hf
    rw [hf] at hexit
    rw [hexit, add_comm]
  · intro hall
    have hf : chain.find? (entryHoldsKey M table number_of_buckets k) = none := by
      apply List.find?_eq_none.mpr
      intro e he
      simp [hall e he]
    rw [hf] at hexit
    exact hexit

/-- C2 on the sample table: the key 3 is found in the second entry of the chain
of bucket 1, at position 2. -/
theorem FindOrderedHashMapEntryForSmiKey_finds_witness :
    ∃ walk, FindOrderedHashMapEntryForSmiKey sampleExternal OrderedHashMap true 3
        sampleTable (.smi 3) = some walk ∧
      ((∃ position, walk.exit = .entry_found position) ↔
        ∃ e ∈ [(1 : Int), 0], entryHoldsKey OrderedHashMap sampleTable 2 3 e = true) ∧
      (∀ e, List.find? (entryHoldsKey OrderedHashMap sampleTable 2 3) [(1 : Int), 0] = some e →
        walk.exit = .entry_found (2 + e * OrderedHashMap.kEntrySize)) ∧
      ((∀ e ∈ [(1 : Int), 0], entryHoldsKey OrderedHashMap sampleTable 2 3 e = false) →
        walk.exit = .not_found) :=
  FindOrderedHashMapEntryForSmiKey_finds sampleExternal OrderedHashMap true sampleTable
    3 2 1 [1, 0] 3 (by decide) (by decide)
    (Chain.link (by decide) (by decide : _ = some (Value.smi 5)) (by decide : _ = some (Value.smi 0))
      (Chain.link (by decide) (by decide : _ = some (Value.smi 3))
        (by decide : _ = some (Value.smi (-1))) Chain.done))
    (by decide) (by decide)

/-! ## The lookup builtins on a small-integer key -/

theorem ThrowIfNotInstanceType_pass {heap : Heap} {value : Value}
    {instance_type : InstanceType} (method_name : String)
    (h : LoadInstanceType heap value = some instance_type) :
    ThrowIfNotInstanceType heap value instance_type method_name = none := by
  cases value <;> simp_all [ThrowIfNotInstanceType, TaggedIsSmi, LoadInstanceType]

theorem MapGet_entry_found (ext : ExternalReference) (M : CollectionType)
    (debug_code : Bool) {heap : Heap} {receiver : Value} {table : FixedArray} (k : Int)
    (fuel : Nat) {walk : Walk} {position : Int}
    (hrecv : LoadInstanceType heap receiver = some .JS_MAP_TYPE)
    (htable : LoadTableField heap receiver = some table)
    (hwalk : FindOrderedHashMapEntryForSmiKey ext M debug_code fuel table (.smi k) = some walk)
    (hexit : walk.exit = .entry_found position) :
    MapGet ext M debug_code heap fuel receiver (.smi k) =
      some ⟨(match LoadFixedArrayElement table position
          (M.kHashTableStartIndex + M.kValueOffset : Nat) with
          | some value => .Return value
          | none => .Fault),
        .LoadObjectField receiver :: walk.trace ++
          [.LoadFixedArrayElement
            (position + (M.kHashTableStartIndex + M.kValueOffset : Nat))]⟩ := by
  unfold MapGet
  simp only [ThrowIfNotInstanceType_pass _ hrecv, htable, TaggedIsSmi, if_true, hwalk,
    Option.map_some', hexit]
  cases LoadFixedArrayElement table position (M.kHashTableStartIndex + M.kValueOffset : Nat) <;>
    rfl

theorem MapGet_not_found (ext : ExternalReference) (M : CollectionType)
    (debug_code : Bool) {heap : Heap} {receiver : Value} {table : FixedArray} (k : Int)
    (fuel : Nat) {walk : Walk}
    (hrecv : LoadInstanceType heap receiver = some .JS_MAP_TYPE)
    (htable : LoadTableField heap receiver = some table)
    (hwalk : FindOrderedHashMapEntryForSmiKey ext M debug_code fuel table (.smi k) = some walk)
    (hexit : walk.exit = .not_found) :
    MapGet ext M debug_code heap fuel receiver (.smi k) =
      some ⟨.Return .undefined, .LoadObjectField receiver :: walk.trace⟩ := by
  unfold MapGet
  simp only [ThrowIfNotInstanceType_pass _ hrecv, htable, TaggedIsSmi, if_true, hwalk,
    Option.map_some', hexit]

theorem MapHas_entry_found (ext : ExternalReference) (M : CollectionType)
    (debug_code : Bool) {heap : Heap} {receiver : Value} {table : FixedArray} (k : Int)
    (fuel : Nat) {walk : Walk} {position : Int}
    (hrecv : LoadInstanceType heap receiver = some .JS_MAP_TYPE)
    (htable : LoadTableField heap receiver = some table)
    (hwalk : FindOrderedHashMapEntryForSmiKey ext M debug_code fuel table (.smi k) = some walk)
    (hexit : walk.exit = .entry_found position) :
    MapHas ext M debug_code heap fuel receiver (.smi k) =
      some ⟨.Return .true_value, .LoadObjectField receiver :: walk.trace⟩ := by
  unfold MapHas
  simp only [ThrowIfNotInstanceType_pass _ hrecv, htable, TaggedIsSmi, if_true, hwalk,
    Option.map_some', hexit]

theorem MapHas_not_found (ext : ExternalReference) (M : CollectionType)
    (debug_code : Bool) {heap : Heap} {receiver : Value} {table : FixedArray} (k : Int)
    (fuel : Nat) {walk : Walk}
    (hrecv : LoadInstanceType heap receiver = some .JS_MAP_TYPE)
    (htable : LoadTableField heap receiver = some table)
    (hwalk : FindOrderedHashMapEntryForSmiKey ext M debug_code fuel table (.smi k) = some walk)
    (hexit : walk.exit = .not_found) :
    MapHas ext M debug_code heap fuel receiver (.smi k) =
      some ⟨.Return .false_value, .LoadObjectField receiver :: walk.trace⟩ := by
  unfold MapHas
  simp only [ThrowIfNotInstanceType_pass _ hrecv, htable, TaggedIsSmi, if_true, hwalk,
    Option.map_some', hexit]

/-- C3: for a receiver that is a Map, a small-integer key `k` and a table
whose bucket for `k` heads a chain as in C2, with the value slots of the chain
inside the table: `MapGet` and `MapHas` both end. When the walk leaves through
`entry_found` with a position, `MapGet` makes the loads `MapHas` makes and then
loads the value slot `position + kValueOffset` (positions count from
`kHashTableStartIndex`), whose content it returns, and
`MapHas` returns true; when the walk leaves through `not_found`, `MapGet`
makes the same loads as `MapHas` and returns undefined, and `MapHas` returns
false. So `MapHas` false implies `MapGet` undefined, and `MapHas` is true
exactly when `MapGet` reads a value slot after the walk. -/
theorem MapGet_MapHas_smi (ext : ExternalReference) (M : CollectionType)
    (debug_code : Bool) (heap : Heap) (receiver : Value) (table : FixedArray)
    (k number_of_buckets first_entry : Int) (chain : List Int) (fuel : Nat)
    (hrecv : LoadInstanceType heap receiver = some .JS_MAP_TYPE)
    (htable : LoadTableField heap receiver = some table)
    (hbuckets : LoadFixedArrayElement table M.kNumberOfBucketsIndex 0 =
      some (.smi number_of_buckets))
    (hbucket : LoadFixedArrayElement table
      (WordAnd (ext.ComputeIntegerHash k 0) (number_of_buckets - 1))
      M.kHashTableStartIndex = some (.smi first_entry))
    (hchain : Chain M table number_of_buckets first_entry chain)
    (hrange : ∀ e ∈ chain, rangeCheck M debug_code table e = some true)
    (hvalues : ∀ e ∈ chain, (entryValue M table number_of_buckets e).isSome = true)
    (hfuel : chain.length < fuel) :
    ∃ walk get has,
      FindOrderedHashMapEntryForSmiKey ext M debug_code fuel table (.smi k) = some walk ∧
      MapGet ext M debug_code heap fuel receiver (.smi k) = some get ∧
      MapHas ext M debug_code heap fuel receiver (.smi k) = some has ∧
      (∀ position, walk.exit = .entry_found position →
        ∃ value, LoadFixedArrayElement table position
            (M.kHashTableStartIndex + M.kValueOffset : Nat) = some value ∧
          get.completion = .Return value ∧
          get.trace = has.trace ++ [.LoadFixedArrayElement
            (position + (M.kHashTableStartIndex + M.kValueOffset : Nat))] ∧
          has.completion = .Return .true_value) ∧
      (walk.exit = .not_found →
        get.completion = .Return .undefined ∧ get.trace = has.trace ∧
          has.completion = .Return .false_value) ∧
      (has.completion = .Return .false_value → get.completion = .Return .undefined) ∧
      (has.completion = .Return .true_value ↔
        ∃ position, get.trace = has.trace ++ [.LoadFixedArrayElement
          (position + (M.kHashTableStartIndex + M.kValueOffset : Nat))]) := by
  have h := FindOrderedHashMapEntryForSmiKey_chain ext M debug_code table k
    number_of_buckets first_entry chain fuel hbuckets hbucket hchain hrange hfuel
  obtain ⟨walk, hw, hexit⟩ := Option.map_eq_some'.mp h
  cases hf : chain.find? (entryHoldsKey M table number_of_buckets k) with
  | none =>
    rw [hf] at hexit
    refine ⟨walk, _, _, hw,
      MapGet_not_found ext M debug_code k fuel hrecv htable hw hexit,
      MapHas_not_found ext M debug_code k fuel hrecv htable hw hexit, ?_, ?_, ?_, ?_⟩
    · intro position hp
      rw [hp] at hexit
      cases hexit
    · intro _
      exact ⟨rfl, rfl, rfl⟩
    · intro _
      rfl
    · constructor
      · intro hc
        simp at hc
      · rintro ⟨position, hp⟩
        have := congrArg List.length hp
        simp at this
  | some e =>
    rw [hf] at hexit
    obtain ⟨value, hvalue⟩ := Option.isSome_iff_exists.mp
      (hvalues e (List.mem_of_find?_eq_some hf))
    have hvalue2 : LoadFixedArrayElement table (e * M.kEntrySize + number_of_buckets)
        (M.kHashTableStartIndex + M.kValueOffset : Nat) = some value := hvalue
    have hget := MapGet_entry_found ext M debug_code k fuel hrecv htable hw hexit
    rw [hvalue2] at hget
    refine ⟨walk, _, _, hw, hget,
      MapHas_entry_found ext M debug_code k fuel hrecv htable hw hexit, ?_, ?_, ?_, ?_⟩
    · intro position hp
      rw [hp] at hexit
      cases hexit
      exact ⟨value, hvalue2, rfl, rfl, rfl⟩
    · intro hn
      rw [hn] at hexit
      cases hexit
    · intro hc
      simp at hc
    · constructor
      · intro _
        exact ⟨_, rfl⟩
      · intro _
        rfl

/-- C3 on the sample heap: the map at address 2 and the key 3. -/
theorem MapGet_MapHas_smi_witness :
    ∃ walk get has,
      FindOrderedHashMapEntryForSmiKey sampleExternal OrderedHashMap true 3 sampleTable
        (.smi 3) = some walk ∧
      MapGet sampleExternal OrderedHashMap true sampleHeap 3 (.object 2) (.smi 3) = some get ∧
      MapHas sampleExternal OrderedHashMap true sampleHeap 3 (.object 2) (.smi 3) = some has ∧
      (∀ position, walk.exit = .entry_found position →
        ∃ value, LoadFixedArrayElement sampleTable position
            (OrderedHashMap.kHashTableStartIndex + OrderedHashMap.kValueOffset : Nat) =
              some value ∧
          get.completion = .Return value ∧
          get.trace = has.trace ++ [.LoadFixedArrayElement
            (position +
              (OrderedHashMap.kHashTableStartIndex + OrderedHashMap.kValueOffset : Nat))] ∧
          has.completion = .Return .true_value) ∧
      (walk.exit = .not_found →
        get.completion = .Return .undefined ∧ get.trace = has.trace ∧
          has.completion = .Return .false_value) ∧
      (has.completion = .Return .false_value → get.completion = .Return .undefined) ∧
      (has.completion = .Return .true_value ↔
        ∃ position, get.trace = has.trace ++ [.LoadFixedArrayElement
          (position +
            (OrderedHashMap.kHashTableStartIndex + OrderedHashMap.kValueOffset : Nat))]) :=
  MapGet_MapHas_smi sampleExternal OrderedHashMap true sampleHeap (.object 2) sampleTable
    3 2 1 [1, 0] 3 (by decide) (by decide) (by decide) (by decide)
    (Chain.link (by decide) (by decide : _ = some (Value.smi 5)) (by decide : _ = some (Value.smi 0))
      (Chain.link (by decide) (by decide : _ = some (Value.smi 3))
        (by decide : _ = some (Value.smi (-1))) Chain.done))
    (by decide) (by decide) (by decide)

/-! ## The empty map -/

theorem ldiff_le (n m : Nat) : Nat.ldiff n m ≤ n := by
  apply Nat.le_of_testBit
  intro i h
  rw [Nat.testBit_ldiff] at h
  simp only [Bool.and_eq_true] at h
  exact h.1

/-- The bucket index stays between 0 and the mask, whatever the sign of the hash. -/
theorem WordAnd_range (hash mask : Int) (hmask : 0 ≤ mask) :
    0 ≤ WordAnd hash mask ∧ WordAnd hash mask ≤ mask := by
  obtain ⟨n, rfl⟩ := Int.eq_ofNat_of_zero_le hmask
  cases hash with
  | ofNat m =>
    have h : WordAnd (Int.ofNat m) (n : Int) = ((m &&& n : Nat) : Int) := rfl
    rw [h]
    exact ⟨Int.natCast_nonneg _, Int.ofNat_le.mpr Nat.and_le_right⟩
  | negSucc m =>
    have h : WordAnd (Int.negSucc m) (n : Int) = ((Nat.ldiff n m : Nat) : Int) := rfl
    rw [h]
    exact ⟨Int.natCast_nonneg _, Int.ofNat_le.mpr (ldiff_le n m)⟩

theorem LoadFixedArrayElement_nat (table : FixedArray) (i : Nat) :
    LoadFixedArrayElement table (i : Int) 0 = table[i]? := by
  simp [LoadFixedArrayElement]

theorem LoadFixedArrayElement_offset (table : FixedArray) (index : Int) (offset i : Nat)
    (h : index = (i : Int)) :
    LoadFixedArrayElement table index (offset : Int) = table[offset + i]? := by
  subst h
  have : ((i : Int) + (offset : Int)).toNat = offset + i := by omega
  simp [LoadFixedArrayElement, this]
  omega

theorem MapGet_not_smi (ext : ExternalReference) (M : CollectionType)
    (debug_code : Bool) {heap : Heap} {receiver key : Value} {table : FixedArray}
    (fuel : Nat)
    (hrecv : LoadInstanceType heap receiver = some .JS_MAP_TYPE)
    (htable : LoadTableField heap receiver = some table)
    (hkey : TaggedIsSmi key = false) :
    MapGet ext M debug_code heap fuel receiver key =
      some ⟨.Return (ext.orderedhashmap_get_raw table key),
        [.LoadObjectField receiver, .CallCFunction "orderedhashmap_get_raw" table key]⟩ := by
  unfold MapGet
  simp only [ThrowIfNotInstanceType_pass _ hrecv, htable, hkey, Bool.false_eq_true,
    if_false, CallGetRaw]

theorem MapHas_not_smi (ext : ExternalReference) (M : CollectionType)
    (debug_code : Bool) {heap : Heap} {receiver key : Value} {table : FixedArray}
    (fuel : Nat)
    (hrecv : LoadInstanceType heap receiver = some .JS_MAP_TYPE)
    (htable : LoadTableField heap receiver = some table)
    (hkey : TaggedIsSmi key = false) :
    MapHas ext M debug_code heap fuel receiver key =
      some ⟨.Return (CallHasRaw ext M 2 table key),
        [.LoadObjectField receiver, .CallCFunction "orderedhashtable_has_raw" table key]⟩ := by
  unfold MapHas
  simp only [ThrowIfNotInstanceType_pass _ hrecv, htable, hkey, Bool.false_eq_true,
    if_false]

theorem rangeCheckLoads_isTableLoad (M : CollectionType) (debug_code : Bool) :
    ∀ ev ∈ rangeCheckLoads M debug_code, ev.isTableLoad = true := by
  intro ev hev
  cases debug_code <;> simp [rangeCheckLoads] at hev
  rcases hev with rfl | rfl <;> rfl

/-- The walk only loads from the table. -/
theorem walkChain_trace (M : CollectionType) (debug_code : Bool) (table : FixedArray)
    (k number_of_buckets : Int) :
    ∀ (fuel : Nat) (entry : Int) (walk : Walk),
      walkChain M debug_code table k number_of_buckets fuel entry = some walk →
      ∀ ev ∈ walk.trace, ev.isTableLoad = true := by
  intro fuel
  induction fuel with
  | zero =>
    intro entry walk h
    simp [walkChain] at h
  | succ f ih =>
    intro entry walk h ev hev
    have hl := rangeCheckLoads_isTableLoad M debug_code
    rw [walkChain] at h
    split at h
    · cases h
      simp at hev
    · split at h
      · cases h
        exact hl ev hev
      · cases h
        exact hl ev hev
      · simp only at h
        split at h
        · cases h
          simp only [List.mem_append, List.mem_singleton] at hev
          rcases hev with hev | rfl
          · exact hl ev hev
          · rfl
        · split at h
          · cases h
            simp only [List.mem_append, List.mem_singleton] at hev
            rcases hev with hev | rfl
            · exact hl ev hev
            · rfl
          · split at h
            · cases h
              simp only [List.mem_append, List.mem_cons, List.mem_singleton,
                List.not_mem_nil, or_false] at hev
              rcases hev with hev | rfl | rfl
              · exact hl ev hev
              · rfl
              · rfl
            · obtain ⟨w, hw, rfl⟩ := Option.map_eq_some'.mp h
              simp only [Walk.after, List.mem_append, List.mem_cons, List.mem_singleton,
                List.not_mem_nil, or_false] at hev
              rcases hev with (hev | rfl | rfl) | hev
              · exact hl ev hev
              · rfl
              · rfl
              · exact ih _ w hw ev hev

theorem FindOrderedHashMapEntryForSmiKey_trace (ext : ExternalReference)
    (M : CollectionType) (debug_code : Bool) (fuel : Nat) (table : FixedArray)
    (key_tagged : Value) (walk : Walk)
    (h : FindOrderedHashMapEntryForSmiKey ext M debug_code fuel table key_tagged = some walk) :
    ∀ ev ∈ walk.trace, ev.isTableLoad = true := by
  intro ev hev
  unfold FindOrderedHashMapEntryForSmiKey at h
  split at h
  · cases h
    simp at hev
  · simp only at h
    split at h
    · cases h
      simp only [List.mem_singleton] at hev
      subst hev
      rfl
    · split at h
      · cases h
        simp only [List.mem_cons, List.mem_singleton, List.not_mem_nil, or_false] at hev
        rcases hev with rfl | rfl <;> rfl
      · obtain ⟨w, hw, rfl⟩ := Option.map_eq_some'.mp h
        simp only [Walk.after, List.mem_append, List.mem_cons, List.mem_singleton,
          List.not_mem_nil, or_false] at hev
        rcases hev with (rfl | rfl) | hev
        · rfl
        · rfl
        · exact walkChain_trace M debug_code table _ _ fuel _ w hw ev hev

theorem holdsSmiKey_eq_SameValueZero (candidate : Value) (k : Int) :
    holdsSmiKey candidate k = SameValueZero candidate (.smi k) := by
  cases candidate <;> simp [holdsSmiKey, SameValueZero]

/-- C5: let the receiver be a Map whose table has, on the chain of the bucket
`hash(n) AND (bucketCount - 1)` (a chain as in C2), an entry whose key is a
heap number of value `n`. Then `MapHas` with the small-integer key `n` ends and
returns true; it makes no call to an external routine (the answer comes from
the walk), and the answer is the one a full-equivalence lookup over that chain
gives. -/
theorem MapHas_boxed_key (ext : ExternalReference) (M : CollectionType)
    (debug_code : Bool) (heap : Heap) (receiver : Value) (table : FixedArray)
    (n number_of_buckets first_entry : Int) (chain : List Int) (fuel : Nat)
    (e : Int) (x : Float64)
    (hrecv : LoadInstanceType heap receiver = some .JS_MAP_TYPE)
    (htable : LoadTableField heap receiver = some table)
    (hbuckets : LoadFixedArrayElement table M.kNumberOfBucketsIndex 0 =
      some (.smi number_of_buckets))
    (hbucket : LoadFixedArrayElement table
      (WordAnd (ext.ComputeIntegerHash n 0) (number_of_buckets - 1))
      M.kHashTableStartIndex = some (.smi first_entry))
    (hchain : Chain M table number_of_buckets first_entry chain)
    (hrange : ∀ e ∈ chain, rangeCheck M debug_code table e = some true)
    (hfuel : chain.length < fuel)
    (he : e ∈ chain)
    (hkey : entryKey M table number_of_buckets e = some (.heapNumber x))
    (hx : x.numericValue = some (n : ℚ)) :
    ∃ has, MapHas ext M debug_code heap fuel receiver (.smi n) = some has ∧
      has.completion = .Return .true_value ∧
      (∀ ev ∈ has.trace, ev.isExternalCall = false) ∧
      has.completion = .Return (SelectBooleanConstant
        (fullEquivalenceHas M table number_of_buckets chain (.smi n))) := by
  have h := FindOrderedHashMapEntryForSmiKey_chain ext M debug_code table n
    number_of_buckets first_entry chain fuel hbuckets hbucket hchain hrange hfuel
  obtain ⟨walk, hw, hexit⟩ := Option.map_eq_some'.mp h
  have hholds : entryHoldsKey M table number_of_buckets n e = true := by
    simp [entryHoldsKey, hkey, holdsSmiKey, hx]
  have hfull : fullEquivalenceHas M table number_of_buckets chain (.smi n) = true := by
    unfold fullEquivalenceHas
    rw [List.any_eq_true]
    exact ⟨e, he, by simp [hkey, SameValueZero, hx]⟩
  cases hf : chain.find? (entryHoldsKey M table number_of_buckets n) with
  | none =>
    have := List.find?_eq_none.mp hf e he
    exact absurd hholds this
  | some e1 =>
    rw [hf] at hexit
    refine ⟨_, MapHas_entry_found ext M debug_code n fuel hrecv htable hw hexit, rfl, ?_, ?_⟩
    · intro ev hev
      simp only [List.mem_cons] at hev
      rcases hev with rfl | hev
      · rfl
      · have := FindOrderedHashMapEntryForSmiKey_trace ext M debug_code fuel table _ walk hw
          ev hev
        cases ev <;> simp_all [Event.isTableLoad, Event.isExternalCall]
    · rw [hfull]
      rfl

/-- C5 on the table that holds the boxed 3.0: `MapHas` with the key 3. -/
theorem MapHas_boxed_key_witness :
    ∃ has, MapHas sampleExternal OrderedHashMap true boxedHeap 3 (.object 0) (.smi 3) =
        some has ∧
      has.completion = .Return .true_value ∧
      (∀ ev ∈ has.trace, ev.isExternalCall = false) ∧
      has.completion = .Return (SelectBooleanConstant
        (fullEquivalenceHas OrderedHashMap boxedTable 2 [1, 0] (.smi 3))) :=
  MapHas_boxed_key sampleExternal OrderedHashMap true boxedHeap (.object 0) boxedTable
    3 2 1 [1, 0] 3 0 (.finite 3) (by decide) (by decide) (by decide) (by decide)
    (Chain.link (by decide) (by decide : _ = some (Value.smi 5)) (by decide : _ = some (Value.smi 0))
      (Chain.link (by decide) (by decide : _ = some (Value.heapNumber (.finite 3)))
        (by decide : _ = some (Value.smi (-1))) Chain.done))
    (by decide) (by decide) (by decide) (by decide) (by decide)

/-! ## The receiver check -/

theorem ThrowIfNotInstanceType_fail {heap : Heap} {value : Value}
    {instance_type : InstanceType} (method_name : String)
    (h : LoadInstanceType heap value ≠ some instance_type) :
    ThrowIfNotInstanceType heap value instance_type method_name =
      some (.TypeError .kIncompatibleMethodReceiver [.string method_name, value]) := by
  unfold ThrowIfNotInstanceType
  by_cases hs : TaggedIsSmi value = true
  · simp [hs]
  · simp [hs, h]

theorem MapGet_no_throw (ext : ExternalReference) (M : CollectionType)
    (debug_code : Bool) {heap : Heap} {receiver : Value} (key : Value) (fuel : Nat)
    (hrecv : LoadInstanceType heap receiver = some .JS_MAP_TYPE) (out : Outcome)
    (h : MapGet ext M debug_code heap fuel receiver key = some out) :
    (∀ exception, out.completion ≠ .Throw exception) ∧
      out.trace.head? = some (.LoadObjectField receiver) := by
  unfold MapGet at h
  simp only [ThrowIfNotInstanceType_pass _ hrecv] at h
  split at h
  · cases h
    exact ⟨(fun _ hc => by cases hc), rfl⟩
  · rename_i table _
    split at h
    · obtain ⟨walk, _, rfl⟩ := Option.map_eq_some'.mp h
      cases hx : walk.exit with
      | entry_found position =>
        dsimp only
        cases LoadFixedArrayElement table position
            (M.kHashTableStartIndex + M.kValueOffset : Nat) <;>
          exact ⟨(fun _ hc => by cases hc), rfl⟩
      | not_found => exact ⟨(fun _ hc => by cases hc), rfl⟩
      | assert_failed => exact ⟨(fun _ hc => by cases hc), rfl⟩
      | fault => exact ⟨(fun _ hc => by cases hc), rfl⟩
    · cases h
      exact ⟨(fun _ hc => by cases hc), rfl⟩

theorem MapHas_no_throw (ext : ExternalReference) (M : CollectionType)
    (debug_code : Bool) {heap : Heap} {receiver : Value} (key : Value) (fuel : Nat)
    (hrecv : LoadInstanceType heap receiver = some .JS_MAP_TYPE) (out : Outcome)
    (h : MapHas ext M debug_code heap fuel receiver key = some out) :
    (∀ exception, out.completion ≠ .Throw exception) ∧
      out.trace.head? = some (.LoadObjectField receiver) := by
  unfold MapHas at h
  simp only [ThrowIfNotInstanceType_pass _ hrecv] at h
  split at h
  · cases h
    exact ⟨(fun _ hc => by cases hc), rfl⟩
  · split at h
    · obtain ⟨walk, _, rfl⟩ := Option.map_eq_some'.mp h
      cases hx : walk.exit <;> exact ⟨(fun _ hc => by cases hc), rfl⟩
    · cases h
      exact ⟨(fun _ hc => by cases hc), rfl⟩

theorem SetHas_pass (ext : ExternalReference) (S : CollectionType) {heap : Heap}
    {receiver : Value} {table : FixedArray} (key : Value)
    (hrecv : LoadInstanceType heap receiver = some .JS_SET_TYPE)
    (htable : LoadTableField heap receiver = some table) :
    SetHas ext S heap receiver key =
      ⟨.Return (CallHasRaw ext S 1 table key),
        [.LoadObjectField receiver, .CallCFunction "orderedhashtable_has_raw" table key]⟩ := by
  unfold SetHas
  simp only [ThrowIfNotInstanceType_pass _ hrecv, htable]

theorem SetHas_no_throw (ext : ExternalReference) (S : CollectionType) {heap : Heap}
    {receiver : Value} (key : Value)
    (hrecv : LoadInstanceType heap receiver = some .JS_SET_TYPE) :
    (∀ exception, (SetHas ext S heap receiver key).completion ≠ .Throw exception) ∧
      (SetHas ext S heap receiver key).trace.head? = some (.LoadObjectField receiver) := by
  unfold SetHas
  simp only [ThrowIfNotInstanceType_pass _ hrecv]
  split
  · exact ⟨(fun _ hc => by cases hc), rfl⟩
  · exact ⟨(fun _ hc => by cases hc), rfl⟩

/-- On a chain as in C2 with value slots inside the table, both map lookups
return a value for a small-integer key. -/
theorem smi_lookup_returns (ext : ExternalReference) (M : CollectionType)
    (debug_code : Bool) (heap : Heap) (receiver : Value) (table : FixedArray)
    (k number_of_buckets first_entry : Int) (chain : List Int) (fuel : Nat)
    (hrecv : LoadInstanceType heap receiver = some .JS_MAP_TYPE)
    (htable : LoadTableField heap receiver = some table)
    (hbuckets : LoadFixedArrayElement table M.kNumberOfBucketsIndex 0 =
      some (.smi number_of_buckets))
    (hbucket : LoadFixedArrayElement table
      (WordAnd (ext.ComputeIntegerHash k 0) (number_of_buckets - 1))
      M.kHashTableStartIndex = some (.smi first_entry))
    (hchain : Chain M table number_of_buckets first_entry chain)
    (hrange : ∀ e ∈ chain, rangeCheck M debug_code table e = some true)
    (hvalues : ∀ e ∈ chain, (entryValue M table number_of_buckets e).isSome = true)
    (hfuel : chain.length < fuel) :
    (∃ value trace, MapGet ext M debug_code heap fuel receiver (.smi k) =
        some ⟨.Return value, trace⟩) ∧
      (∃ value trace, MapHas ext M debug_code heap fuel receiver (.smi k) =
        some ⟨.Return value, trace⟩) := by
  have h := FindOrderedHashMapEntryForSmiKey_chain ext M debug_code table k
    number_of_buckets first_entry chain fuel hbuckets hbucket hchain hrange hfuel
  obtain ⟨walk, hw, hexit⟩ := Option.map_eq_some'.mp h
  cases hf : chain.find? (entryHoldsKey M table number_of_buckets k) with
  | none =>
    rw [hf] at hexit
    exact ⟨⟨_, _, MapGet_not_found ext M debug_code k fuel hrecv htable hw hexit⟩,
      ⟨_, _, MapHas_not_found ext M debug_code k fuel hrecv htable hw hexit⟩⟩
  | some e =>
    rw [hf] at hexit
    obtain ⟨value, hvalue⟩ := Option.isSome_iff_exists.mp
      (hvalues e (List.mem_of_find?_eq_some hf))
    have hvalue2 : LoadFixedArrayElement table (e * M.kEntrySize + number_of_buckets)
        (M.kHashTableStartIndex + M.kValueOffset : Nat) = some value := hvalue
    have hget := MapGet_entry_found ext M debug_code k fuel hrecv htable hw hexit
    rw [hvalue2] at hget
    exact ⟨⟨_, _, hget⟩,
      ⟨_, _, MapHas_entry_found ext M debug_code k fuel hrecv htable hw hexit⟩⟩

/-- C6: `MapGet`, `MapHas` and `SetHas` throw the incompatible-receiver type
error naming "Map.prototype.get", "Map.prototype.has", "Set.prototype.has" when
the receiver is not of instance type `JS_MAP_TYPE` (resp. `JS_SET_TYPE`), and
they do so before any load: the trace is empty, the table field is not read.
When the receiver is of the required type no run of the operation throws, and
its first access is the load of the table field. It then returns a value: for
every key that is not a small integer and for `SetHas` as soon as the table
field holds a table, for a small-integer key on a chain as in C2 with enough
fuel. -/
theorem receiver_check (ext : ExternalReference) (M S : CollectionType)
    (debug_code : Bool) (heap : Heap) (receiver key : Value) (fuel : Nat) :
    (LoadInstanceType heap receiver ≠ some .JS_MAP_TYPE →
      MapGet ext M debug_code heap fuel receiver key =
        some ⟨.Throw (.TypeError .kIncompatibleMethodReceiver
          [.string "Map.prototype.get", receiver]), []⟩ ∧
      MapHas ext M debug_code heap fuel receiver key =
        some ⟨.Throw (.TypeError .kIncompatibleMethodReceiver
          [.string "Map.prototype.has", receiver]), []⟩) ∧
    (LoadInstanceType heap receiver = some .JS_MAP_TYPE →
      (∀ out, MapGet ext M debug_code heap fuel receiver key = some out →
        (∀ exception, out.completion ≠ .Throw exception) ∧
          out.trace.head? = some (.LoadObjectField receiver)) ∧
      (∀ out, MapHas ext M debug_code heap fuel receiver key = some out →
        (∀ exception, out.completion ≠ .Throw exception) ∧
          out.trace.head? = some (.LoadObjectField receiver))) ∧
    (LoadInstanceType heap receiver ≠ some .JS_SET_TYPE →
      SetHas ext S heap receiver key =
        ⟨.Throw (.TypeError .kIncompatibleMethodReceiver
          [.string "Set.prototype.has", receiver]), []⟩) ∧
    (LoadInstanceType heap receiver = some .JS_SET_TYPE →
      (∀ exception, (SetHas ext S heap receiver key).completion ≠ .Throw exception) ∧
        (SetHas ext S heap receiver key).trace.head? = some (.LoadObjectField receiver)) ∧
    (∀ table, LoadInstanceType heap receiver = some .JS_MAP_TYPE →
      LoadTableField heap receiver = some table →
      (TaggedIsSmi key = false →
        (∃ value trace, MapGet ext M debug_code heap fuel receiver key =
          some ⟨.Return value, trace⟩) ∧
        (∃ value trace, MapHas ext M debug_code heap fuel receiver key =
          some ⟨.Return value, trace⟩)) ∧
      (∀ (k number_of_buckets first_entry : Int) (chain : List Int), key = .smi k →
        LoadFixedArrayElement table M.kNumberOfBucketsIndex 0 =
          some (.smi number_of_buckets) →
        LoadFixedArrayElement table
          (WordAnd (ext.ComputeIntegerHash k 0) (number_of_buckets - 1))
          M.kHashTableStartIndex = some (.smi first_entry) →
        Chain M table number_of_buckets first_entry chain →
        (∀ e ∈ chain, rangeCheck M debug_code table e = some true) →
        (∀ e ∈ chain, (entryValue M table number_of_buckets e).isSome = true) →
        chain.length < fuel →
        (∃ value trace, MapGet ext M debug_code heap fuel receiver key =
          some ⟨.Return value, trace⟩) ∧
        (∃ value trace, MapHas ext M debug_code heap fuel receiver key =
          some ⟨.Return value, trace⟩))) ∧
    (∀ table, LoadInstanceType heap receiver = some .JS_SET_TYPE →
      LoadTableField heap receiver = some table →
      ∃ value trace, SetHas ext S heap receiver key = ⟨.Return value, trace⟩) := by
  refine ⟨?_, ?_, ?_, ?_, ?_, ?_⟩
  · intro h
    constructor
    · unfold MapGet
      rw [ThrowIfNotInstanceType_fail _ h]
    · unfold MapHas
      rw [ThrowIfNotInstanceType_fail _ h]
  · intro h
    exact ⟨MapGet_no_throw ext M debug_code key fuel h,
      MapHas_no_throw ext M debug_code key fuel h⟩
  · intro h
    unfold SetHas
    rw [ThrowIfNotInstanceType_fail _ h]
  · intro h
    exact SetHas_no_throw ext S key h
  · intro table hrecv htable
    constructor
    · intro hkey
      exact ⟨⟨_, _, MapGet_not_smi ext M debug_code fuel hrecv htable hkey⟩,
        ⟨_, _, MapHas_not_smi ext M debug_code fuel hrecv htable hkey⟩⟩
    · intro k number_of_buckets first_entry chain hk hbuckets hbucket hchain hrange
        hvalues hfuel
      subst hk
      exact smi_lookup_returns ext M debug_code heap receiver table k
        number_of_buckets first_entry chain fuel hrecv htable hbuckets hbucket hchain
        hrange hvalues hfuel
  · intro table hrecv htable
    exact ⟨_, _, SetHas_pass ext S key hrecv htable⟩

/-- C6 on the sample heap: the set at address 3 is refused by the map
operations and the map at address 2 by `SetHas`; the map at address 2 answers
the key 3 and the set at address 3 answers it too. -/
theorem receiver_check_witness :
    (MapGet sampleExternal OrderedHashMap true sampleHeap 3 (.object 3) (.smi 3) =
        some ⟨.Throw (.TypeError .kIncompatibleMethodReceiver
          [.string "Map.prototype.get", .object 3]), []⟩ ∧
      MapHas sampleExternal OrderedHashMap true sampleHeap 3 (.object 3) (.smi 3) =
        some ⟨.Throw (.TypeError .kIncompatibleMethodReceiver
          [.string "Map.prototype.has", .object 3]), []⟩) ∧
    SetHas sampleExternal OrderedHashSet sampleHeap (.object 2) (.smi 3) =
      ⟨.Throw (.TypeError .kIncompatibleMethodReceiver
        [.string "Set.prototype.has", .object 2]), []⟩ ∧
    ((∃ value trace, MapGet sampleExternal OrderedHashMap true sampleHeap 3 (.object 2)
        (.smi 3) = some ⟨.Return value, trace⟩) ∧
      (∃ value trace, MapHas sampleExternal OrderedHashMap true sampleHeap 3 (.object 2)
        (.smi 3) = some ⟨.Return value, trace⟩)) ∧
    (∀ exception, (SetHas sampleExternal OrderedHashSet sampleHeap (.object 3)
      (.smi 3)).completion ≠ .Throw exception) :=
  ⟨(receiver_check sampleExternal OrderedHashMap OrderedHashSet true sampleHeap
      (.object 3) (.smi 3) 3).1 (by decide),
    (receiver_check sampleExternal OrderedHashMap OrderedHashSet true sampleHeap
      (.object 2) (.smi 3) 3).2.2.1 (by decide),
    ((receiver_check sampleExternal OrderedHashMap OrderedHashSet true sampleHeap
      (.object 2) (.smi 3) 3).2.2.2.2.1 sampleTable (by decide) (by decide)).2
        3 2 1 [1, 0] rfl (by decide) (by decide)
        (Chain.link (by decide) (by decide : _ = some (Value.smi 5))
          (by decide : _ = some (Value.smi 0))
          (Chain.link (by decide) (by decide : _ = some (Value.smi 3))
            (by decide : _ = some (Value.smi (-1))) Chain.done))
        (by decide) (by decide) (by decide),
    ((receiver_check sampleExternal OrderedHashMap OrderedHashSet true sampleHeap
      (.object 3) (.smi 3) 3).2.2.2.1 (by decide)).1⟩

/-! ## Delegation to the external routines -/

/-- C7: for a receiver that is a Map and a key that is not a small integer
(a heap number included, whatever its value), `MapGet` returns the result of
the external get routine on the table and the key, and `MapHas` returns the
boolean of the external has routine for the map constants with entry size 2 on
the table and the key. Both do so with any fuel, zero included, and neither
loads a slot of the table: the walk is not performed. -/
theorem MapGet_MapHas_delegate (ext : ExternalReference) (M : CollectionType)
    (debug_code : Bool) (heap : Heap) (receiver key : Value) (table : FixedArray)
    (fuel : Nat)
    (hrecv : LoadInstanceType heap receiver = some .JS_MAP_TYPE)
    (htable : LoadTableField heap receiver = some table)
    (hkey : TaggedIsSmi key = false) :
    ∃ get has,
      MapGet ext M debug_code heap fuel receiver key = some get ∧
      MapHas ext M debug_code heap fuel receiver key = some has ∧
      get.completion = .Return (ext.orderedhashmap_get_raw table key) ∧
      has.completion = .Return (SelectBooleanConstant
        ((ext.orderedhashtable_has_raw M 2 table key &&& 0xFF) != 0)) ∧
      (∀ ev ∈ get.trace, ev.isTableLoad = false) ∧
      (∀ ev ∈ has.trace, ev.isTableLoad = false) := by
  refine ⟨_, _, MapGet_not_smi ext M debug_code fuel hrecv htable hkey,
    MapHas_not_smi ext M debug_code fuel hrecv htable hkey, rfl, rfl, ?_, ?_⟩
  · intro ev hev
    simp only [List.mem_cons, List.mem_singleton, List.not_mem_nil, or_false] at hev
    rcases hev with rfl | rfl <;> rfl
  · intro ev hev
    simp only [List.mem_cons, List.mem_singleton, List.not_mem_nil, or_false] at hev
    rcases hev with rfl | rfl <;> rfl

/-- C7 on the sample heap, with no fuel: the key is the heap number 2147483648,
integral and outside the small-integer range. -/
theorem MapGet_MapHas_delegate_witness :
    ∃ get has,
      MapGet sampleExternal OrderedHashMap true sampleHeap 0 (.object 2)
        (.heapNumber (.finite 2147483648)) = some get ∧
      MapHas sampleExternal OrderedHashMap true sampleHeap 0 (.object 2)
        (.heapNumber (.finite 2147483648)) = some has ∧
      get.completion = .Return (sampleExternal.orderedhashmap_get_raw sampleTable
        (.heapNumber (.finite 2147483648))) ∧
      has.completion = .Return (SelectBooleanConstant
        ((sampleExternal.orderedhashtable_has_raw OrderedHashMap 2 sampleTable
          (.heapNumber (.finite 2147483648)) &&& 0xFF) != 0)) ∧
      (∀ ev ∈ get.trace, ev.isTableLoad = false) ∧
      (∀ ev ∈ has.trace, ev.isTableLoad = false) :=
  MapGet_MapHas_delegate sampleExternal OrderedHashMap true sampleHeap (.object 2)
    (.heapNumber (.finite 2147483648)) sampleTable 0 (by decide) (by decide) (by decide)

/-- C8: for a receiver that is a Set and every key, a small integer included,
`SetHas` returns the boolean of the external has routine for the set constants
with entry size 1 on the table and the key; it loads no slot of the table. -/
theorem SetHas_delegate (ext : ExternalReference) (S : CollectionType) (heap : Heap)
    (receiver key : Value) (table : FixedArray)
    (hrecv : LoadInstanceType heap receiver = some .JS_SET_TYPE)
    (htable : LoadTableField heap receiver = some table) :
    (SetHas ext S heap receiver key).completion =
        .Return (SelectBooleanConstant
          ((ext.orderedhashtable_has_raw S 1 table key &&& 0xFF) != 0)) ∧
      (SetHas ext S heap receiver key).trace =
        [.LoadObjectField receiver, .CallCFunction "orderedhashtable_has_raw" table key] ∧
      (∀ ev ∈ (SetHas ext S heap receiver key).trace, ev.isTableLoad = false) := by
  rw [SetHas_pass ext S key hrecv htable]
  refine ⟨rfl, rfl, ?_⟩
  intro ev hev
  simp only [List.mem_cons, List.mem_singleton, List.not_mem_nil, or_false] at hev
  rcases hev with rfl | rfl <;> rfl

/-- C8 on the sample heap: the set at address 3 and the small-integer key 3. -/
theorem SetHas_delegate_witness :
    (SetHas sampleExternal OrderedHashSet sampleHeap (.object 3) (.smi 3)).completion =
        .Return (SelectBooleanConstant
          ((sampleExternal.orderedhashtable_has_raw OrderedHashSet 1
            [.smi 0, .smi 0, .smi 2, .smi (-1), .smi (-1),
              .undefined, .undefined, .undefined, .undefined,
              .undefined, .undefined, .undefined, .undefined] (.smi 3) &&& 0xFF) != 0)) ∧
      (SetHas sampleExternal OrderedHashSet sampleHeap (.object 3) (.smi 3)).trace =
        [.LoadObjectField (.object 3), .CallCFunction "orderedhashtable_has_raw"
          [.smi 0, .smi 0, .smi 2, .smi (-1), .smi (-1),
            .undefined, .undefined, .undefined, .undefined,
            .undefined, .undefined, .undefined, .undefined] (.smi 3)] ∧
      (∀ ev ∈ (SetHas sampleExternal OrderedHashSet sampleHeap (.object 3) (.smi 3)).trace,
        ev.isTableLoad = false) :=
  SetHas_delegate sampleExternal OrderedHashSet sampleHeap (.object 3) (.smi 3) _
    (by decide) (by decide)

/-! ## The constructors -/

theorem StoreTableField_new (heap : Heap) (shell : HeapObject) (table : FixedArray) :
    StoreTableField (heap ++ [shell]) (.object heap.length) table =
      some (heap ++ [{ shell with table := some table }]) := by
  simp [StoreTableField]

theorem LoadTableField_new (heap : Heap) (shell : HeapObject) :
    LoadTableField (heap ++ [shell]) (.object heap.length) = shell.table := by
  simp [LoadTableField]

theorem LoadInstanceType_new (heap : Heap) (shell : HeapObject) :
    LoadInstanceType (heap ++ [shell]) (.object heap.length) = some shell.instance_type := by
  simp [LoadInstanceType]

theorem MapConstructor_loop_throw {σ : Type} (rt : Runtime σ)
    (adder iterator var_result : Value) :
    ∀ (fuel : Nat) (w : World σ) (run : Run σ),
      MapConstructor_loop rt adder iterator var_result fuel w = some run →
      ∀ exception, run.completion = .Throw exception →
        rt.throws exception ∨
          ∃ value, exception = .TypeError .kIteratorValueNotAnObject [value] := by
  intro fuel
  induction fuel with
  | zero =>
    intro w run h
    simp [MapConstructor_loop] at h
  | succ f ih =>
    intro w run h exception hc
    rw [MapConstructor_loop] at h
    split at h
    · rename_i w1 e1 heq
      cases h
      cases hc
      exact Or.inl (Or.inr (Or.inr (Or.inl ⟨w, iterator, by rw [heq]⟩)))
    · cases h
      cases hc
    · rename_i w1 next heq
      split at h
      · rename_i w2 e2 heq2
        cases h
        cases hc
        exact Or.inl (Or.inr (Or.inr (Or.inr (Or.inl ⟨w1, next, by rw [heq2]⟩))))
      · rename_i w2 next_value heq2
        split at h
        · cases h
          cases hc
          exact Or.inr ⟨next_value, rfl⟩
        · split at h
          · rename_i w3 e3 heq3
            cases h
            cases hc
            exact Or.inl (Or.inl ⟨w2, next_value, "0", by rw [heq3]⟩)
          · rename_i w3 k heq3
            split at h
            · rename_i w4 e4 heq4
              cases h
              cases hc
              exact Or.inl (Or.inl ⟨w3, next_value, "1", by rw [heq4]⟩)
            · rename_i w4 v heq4
              split at h
              · rename_i w5 e5 heq5
                cases h
                cases hc
                exact Or.inl (Or.inr (Or.inr (Or.inr (Or.inr
                  ⟨w4, adder, var_result, [k, v], by rw [heq5]⟩))))
              · rename_i w5 r5 heq5
                obtain ⟨run1, hrun1, rfl⟩ := Option.map_eq_some'.mp h
                exact ih w5 run1 hrun1 exception hc

theorem SetConstructor_loop_throw {σ : Type} (rt : Runtime σ)
    (adder iterator var_result : Value) :
    ∀ (fuel : Nat) (w : World σ) (run : Run σ),
      SetConstructor_loop rt adder iterator var_result fuel w = some run →
      ∀ exception, run.completion = .Throw exception → rt.throws exception := by
  intro fuel
  induction fuel with
  | zero =>
    intro w run h
    simp [SetConstructor_loop] at h
  | succ f ih =>
    intro w run h exception hc
    rw [SetConstructor_loop] at h
    split at h
    · rename_i w1 e1 heq
      cases h
      cases hc
      exact Or.inr (Or.inr (Or.inl ⟨w, iterator, by rw [heq]⟩))
    · cases h
      cases hc
    · rename_i w1 next heq
      split at h
      · rename_i w2 e2 heq2
        cases h
        cases hc
        exact Or.inr (Or.inr (Or.inr (Or.inl ⟨w1, next, by rw [heq2]⟩)))
      · rename_i w2 next_value heq2
        split at h
        · rename_i w5 e5 heq5
          cases h
          cases hc
          exact Or.inr (Or.inr (Or.inr (Or.inr
            ⟨w2, adder, var_result, [next_value], by rw [heq5]⟩)))
        · rename_i w5 r5 heq5
          obtain ⟨run1, hrun1, rfl⟩ := Option.map_eq_some'.mp h
          exact ih w5 run1 hrun1 exception hc

/-- With a defined new-target, an exception that leaves `MapConstructor` was
thrown by a collaborator or is one of the two errors of the later steps, and
the shell has been allocated by then. -/
theorem MapConstructor_throw {σ : Type} (rt : Runtime σ) (M : CollectionType)
    (debug_code : Bool) (kMaxRegularLength : Nat) (context : Context) (fuel : Nat)
    (w : World σ) (new_target : Value) (args : List Value) (run : Run σ)
    (exception : Exception) (hnt : new_target ≠ .undefined)
    (h : MapConstructor rt M debug_code kMaxRegularLength context fuel w new_target args =
      some run)
    (hc : run.completion = .Throw exception) :
    (rt.throws exception ∨
      (∃ value, exception = .TypeError .kIteratorValueNotAnObject [value]) ∨
      (∃ adder var_result, exception =
        .TypeError .kPropertyNotFunction [adder, .string "add", var_result])) ∧
      run.trace ≠ [] := by
  have hu : IsUndefined new_target = false := by simp [IsUndefined, hnt]
  simp only [MapConstructor, hu, Bool.false_eq_true, if_false] at h
  split at h
  · cases h
    rename_i e heq
    revert heq
    split
    · unfold AllocateJSCollection
      intro heq
      split at heq
      · cases heq
      · split at heq
        · cases heq
        · split at heq <;> cases heq
    · unfold EmitFastNewObject
      intro heq
      split at heq
      · cases heq
      · split at heq <;> cases heq
  · cases h
    cases hc
  · cases h
    cases hc
  · split at h
    · cases h
      cases hc
    · split at h
      · cases h
        cases hc
      · split at h
        · cases h
          cases hc
        · split at h
          · rename_i w1 e1 heq1
            cases h
            cases hc
            exact ⟨Or.inl (Or.inl ⟨_, _, _, by rw [heq1]⟩), by simp⟩
          · rename_i w1 adder heq1
            split at h
            · cases h
              cases hc
              exact ⟨Or.inr (Or.inr ⟨_, _, rfl⟩), by simp⟩
            · split at h
              · rename_i w2 e2 heq2
                cases h
                cases hc
                exact ⟨Or.inl (Or.inr (Or.inl ⟨_, _, by rw [heq2]⟩)), by simp⟩
              · rename_i w2 iterator heq2
                split at h
                · cases h
                  cases hc
                · obtain ⟨run1, hrun1, rfl⟩ := Option.map_eq_some'.mp h
                  refine ⟨?_, by simp [Run.after]⟩
                  rcases MapConstructor_loop_throw rt _ _ _ fuel _ run1 hrun1 exception hc
                    with h1 | h1
                  · exact Or.inl h1
                  · exact Or.inr (Or.inl h1)

/-- With a defined new-target, an exception that leaves `SetConstructor` was
thrown by a collaborator or is the error of the later step, and the shell has
been allocated by then. -/
theorem SetConstructor_throw {σ : Type} (rt : Runtime σ) (S : CollectionType)
    (debug_code : Bool) (kMaxRegularLength : Nat) (context : Context) (fuel : Nat)
    (w : World σ) (new_target : Value) (args : List Value) (run : Run σ)
    (exception : Exception) (hnt : new_target ≠ .undefined)
    (h : SetConstructor rt S debug_code kMaxRegularLength context fuel w new_target args =
      some run)
    (hc : run.completion = .Throw exception) :
    (rt.throws exception ∨
      (∃ adder var_result, exception =
        .TypeError .kPropertyNotFunction [adder, .string "add", var_result])) ∧
      run.trace ≠ [] := by
  have hu : IsUndefined new_target = false := by simp [IsUndefined, hnt]
  simp only [SetConstructor, hu, Bool.false_eq_true, if_false] at h
  split at h
  · cases h
    rename_i e heq
    revert heq
    split
    · unfold AllocateJSCollection
      intro heq
      split at heq
      · cases heq
      · split at heq
        · cases heq
        · split at heq <;> cases heq
    · unfold EmitFastNewObject
      intro heq
      split at heq
      · cases heq
      · split at heq <;> cases heq
  · cases h
    cases hc
  · cases h
    cases hc
  · split at h
    · cases h
      cases hc
    · split at h
      · cases h
        cases hc
      · split at h
        · cases h
          cases hc
        · split at h
          · rename_i w1 e1 heq1
            cases h
            cases hc
            exact ⟨Or.inl (Or.inl ⟨_, _, _, by rw [heq1]⟩), by simp⟩
          · rename_i w1 adder heq1
            split at h
            · cases h
              cases hc
              exact ⟨Or.inr ⟨_, _, rfl⟩, by simp⟩
            · split at h
              · rename_i w2 e2 heq2
                cases h
                cases hc
                exact ⟨Or.inl (Or.inr (Or.inl ⟨_, _, by rw [heq2]⟩)), by simp⟩
              · rename_i w2 iterator heq2
                split at h
                · cases h
                  cases hc
                · obtain ⟨run1, hrun1, rfl⟩ := Option.map_eq_some'.mp h
                  exact ⟨Or.inl (SetConstructor_loop_throw rt _ _ _ fuel _ run1 hrun1
                    exception hc), by simp [Run.after]⟩

/-- C9: when the new-target is undefined, `MapConstructor` and `SetConstructor`
throw the constructor-not-called-as-constructor type error naming "Map" and
"Set"; the world they leave is the one they received and their trace is empty:
nothing was allocated, no property was read, the source was not touched. When
the new-target is defined, a run that throws has allocated the shell first,
and if it throws this error, a collaborator threw it: the constructor itself
raises it never. -/
theorem constructor_without_new_target {σ : Type} (rt : Runtime σ) (M S : CollectionType)
    (debug_code : Bool) (kMaxRegularLength : Nat) (context : Context) (fuel : Nat)
    (w : World σ) (new_target : Value) (args : List Value) :
    (new_target = .undefined →
      MapConstructor rt M debug_code kMaxRegularLength context fuel w new_target args =
        some ⟨w, .Throw (.TypeError .kConstructorNotFunction [.string "Map"]), []⟩ ∧
      SetConstructor rt S debug_code kMaxRegularLength context fuel w new_target args =
        some ⟨w, .Throw (.TypeError .kConstructorNotFunction [.string "Set"]), []⟩) ∧
    (new_target ≠ .undefined →
      (∀ run message_args,
        MapConstructor rt M debug_code kMaxRegularLength context fuel w new_target args =
          some run →
        run.completion = .Throw (.TypeError .kConstructorNotFunction message_args) →
        rt.throws (.TypeError .kConstructorNotFunction message_args) ∧ run.trace ≠ []) ∧
      (∀ run message_args,
        SetConstructor rt S debug_code kMaxRegularLength context fuel w new_target args =
          some run →
        run.completion = .Throw (.TypeError .kConstructorNotFunction message_args) →
        rt.throws (.TypeError .kConstructorNotFunction message_args) ∧ run.trace ≠ [])) := by
  constructor
  · intro h
    subst h
    exact ⟨by simp [MapConstructor, IsUndefined], by simp [SetConstructor, IsUndefined]⟩
  · intro hnt
    constructor
    · intro run message_args h hc
      obtain ⟨h1, h2⟩ := MapConstructor_throw rt M debug_code kMaxRegularLength context
        fuel w new_target args run _ hnt h hc
      refine ⟨?_, h2⟩
      rcases h1 with h1 | ⟨_, h1⟩ | ⟨_, _, h1⟩
      · exact h1
      · cases h1
      · cases h1
    · intro run message_args h hc
      obtain ⟨h1, h2⟩ := SetConstructor_throw rt S debug_code kMaxRegularLength context
        fuel w new_target args run _ hnt h hc
      refine ⟨?_, h2⟩
      rcases h1 with h1 | ⟨_, _, h1⟩
      · exact h1
      · cases h1

theorem AllocateJSCollection_ok (debug_code : Bool) (heap : Heap) (js_map_function : Value)
    (function : HeapObject) (initial_map : InstanceType)
    (hfun : LoadFunction heap js_map_function = some function)
    (hctor : debug_code = true → function.is_constructor_map = true)
    (hmap : function.prototype_or_initial_map = some initial_map) :
    AllocateJSCollection debug_code heap js_map_function =
      .Return (heap ++ [⟨initial_map, false, none, none⟩], .object heap.length) := by
  unfold AllocateJSCollection
  have hd : (debug_code && !function.is_constructor_map) = false := by
    cases debug_code with
    | false => rfl
    | true => simp [hctor rfl]
  simp only [hfun, hd, Bool.false_eq_true, if_false, hmap]

theorem EmitFastNewObject_ok (heap : Heap) (target new_target : Value)
    (function : HeapObject) (initial_map : InstanceType)
    (hfun : LoadFunction heap target = some function)
    (hmap : function.prototype_or_initial_map = some initial_map) :
    EmitFastNewObject heap target new_target =
      .Return (heap ++ [⟨initial_map, false, none, none⟩], .object heap.length) := by
  unfold EmitFastNewObject
  simp only [hfun, hmap]

/-- The run of `MapConstructor` on an absent or null source. -/
theorem MapConstructor_empty {σ : Type} (rt : Runtime σ) (M : CollectionType)
    (debug_code : Bool) (kMaxRegularLength : Nat) (context : Context) (fuel : Nat)
    (w : World σ) (new_target : Value) (args : List Value)
    (function : HeapObject) (initial_map : InstanceType) (table : FixedArray)
    (hnt : new_target ≠ .undefined)
    (hsrc : GetOptionalArgumentValue args 0 = .undefined ∨
      GetOptionalArgumentValue args 0 = .null)
    (hfun : LoadFunction w.heap context.JS_MAP_FUN = some function)
    (hctor : debug_code = true → function.is_constructor_map = true)
    (hmap : function.prototype_or_initial_map = some initial_map)
    (halloc : AllocateOrderedHashTable M debug_code kMaxRegularLength = some table) :
    MapConstructor rt M debug_code kMaxRegularLength context fuel w new_target args =
      some ⟨⟨w.heap ++ [⟨initial_map, false, none, some table⟩], w.host⟩,
        .Return (.object w.heap.length),
        [if WordEqual context.JS_MAP_FUN new_target then .AllocateJSCollection (.object w.heap.length)
          else .EmitFastNewObject (.object w.heap.length),
         .AllocateOrderedHashTable, .StoreObjectField (.object w.heap.length)]⟩ := by
  have hu : IsUndefined new_target = false := by simp [IsUndefined, hnt]
  have hs : (IsUndefined (GetOptionalArgumentValue args 0) ||
      IsNull (GetOptionalArgumentValue args 0)) = true := by
    rcases hsrc with h | h <;> simp [h, IsUndefined, IsNull]
  have ha : (if WordEqual context.JS_MAP_FUN new_target = true then
        AllocateJSCollection debug_code w.heap context.JS_MAP_FUN
      else EmitFastNewObject w.heap context.JS_MAP_FUN new_target) =
      .Return (w.heap ++ [⟨initial_map, false, none, none⟩], .object w.heap.length) := by
    split
    · exact AllocateJSCollection_ok debug_code w.heap _ function initial_map hfun hctor hmap
    · exact EmitFastNewObject_ok w.heap _ _ function initial_map hfun hmap
  simp only [MapConstructor, hu, Bool.false_eq_true, if_false, ha, halloc,
    StoreTableField_new, hs, if_true]

/-- The run of `SetConstructor` on an absent or null source. -/
theorem SetConstructor_empty {σ : Type} (rt : Runtime σ) (S : CollectionType)
    (debug_code : Bool) (kMaxRegularLength : Nat) (context : Context) (fuel : Nat)
    (w : World σ) (new_target : Value) (args : List Value)
    (function : HeapObject) (initial_map : InstanceType) (table : FixedArray)
    (hnt : new_target ≠ .undefined)
    (hsrc : GetOptionalArgumentValue args 0 = .undefined ∨
      GetOptionalArgumentValue args 0 = .null)
    (hfun : LoadFunction w.heap context.JS_SET_FUN = some function)
    (hctor : debug_code = true → function.is_constructor_map = true)
    (hmap : function.prototype_or_initial_map = some initial_map)
    (halloc : AllocateOrderedHashTable S debug_code kMaxRegularLength = some table) :
    SetConstructor rt S debug_code kMaxRegularLength context fuel w new_target args =
      some ⟨⟨w.heap ++ [⟨initial_map, false, none, some table⟩], w.host⟩,
        .Return (.object w.heap.length),
        [if WordEqual context.JS_SET_FUN new_target then .AllocateJSCollection (.object w.heap.length)
          else .EmitFastNewObject (.object w.heap.length),
         .AllocateOrderedHashTable, .StoreObjectField (.object w.heap.length)]⟩ := by
  have hu : IsUndefined new_target = false := by simp [IsUndefined, hnt]
  have hs : (IsUndefined (GetOptionalArgumentValue args 0) ||
      IsNull (GetOptionalArgumentValue args 0)) = true := by
    rcases hsrc with h | h <;> simp [h, IsUndefined, IsNull]
  have ha : (if WordEqual context.JS_SET_FUN new_target = true then
        AllocateJSCollection debug_code w.heap context.JS_SET_FUN
      else EmitFastNewObject w.heap context.JS_SET_FUN new_target) =
      .Return (w.heap ++ [⟨initial_map, false, none, none⟩], .object w.heap.length) := by
    split
    · exact AllocateJSCollection_ok debug_code w.heap _ function initial_map hfun hctor hmap
    · exact EmitFastNewObject_ok w.heap _ _ function initial_map hfun hmap
  simp only [SetConstructor, hu, Bool.false_eq_true, if_false, ha, halloc,
    StoreTableField_new, hs, if_true]

/-- C9 on the sample heap: without a new-target both constructors throw at
once; with the Map function as new-target and a `set` getter that throws the
same error, the error that leaves `MapConstructor` is the getter's. -/
theorem constructor_without_new_target_witness :
    (MapConstructor sampleRuntime OrderedHashMap true 1000 sampleContext 5
        ⟨sampleHeap, 0⟩ .undefined [.object 5] =
        some ⟨⟨sampleHeap, 0⟩,
          .Throw (.TypeError .kConstructorNotFunction [.string "Map"]), []⟩ ∧
      SetConstructor sampleRuntime OrderedHashSet true 1000 sampleContext 5
        ⟨sampleHeap, 0⟩ .undefined [.object 5] =
        some ⟨⟨sampleHeap, 0⟩,
          .Throw (.TypeError .kConstructorNotFunction [.string "Set"]), []⟩) ∧
    (throwingRuntime.throws (.TypeError .kConstructorNotFunction [.string "Map"]) ∧
      [Event.AllocateJSCollection (.object 4), .AllocateOrderedHashTable,
        .StoreObjectField (.object 4), .GetProperty (.object 4) "set"] ≠ []) :=
  ⟨(constructor_without_new_target sampleRuntime OrderedHashMap OrderedHashSet true 1000
      sampleContext 5 ⟨sampleHeap, 0⟩ .undefined [.object 5]).1 rfl,
    ((constructor_without_new_target throwingRuntime OrderedHashMap OrderedHashSet true
      1000 sampleContext 5 ⟨sampleHeap, 0⟩ (.object 0) [.object 5]).2 (by decide)).1
      ⟨⟨sampleHeap ++ [⟨.JS_MAP_TYPE, false, none,
          AllocateOrderedHashTable OrderedHashMap true 1000⟩], 0⟩,
        .Throw (.TypeError .kConstructorNotFunction [.string "Map"]),
        [.AllocateJSCollection (.object 4), .AllocateOrderedHashTable,
          .StoreObjectField (.object 4), .GetProperty (.object 4) "set"]⟩
      [.string "Map"] (by decide) rfl⟩

/-- C10: with a defined new-target and a source that is absent (undefined) or
null, `MapConstructor` and `SetConstructor` return, with any fuel, a new shell
of the function's initial map whose table field holds the table
`AllocateOrderedHashTable` returns for the collection type. The state of
user-level code is the one they received and no event of the trace reads a
property, obtains or steps an iterator, or calls a function. -/
theorem constructor_without_source {σ : Type} (rt : Runtime σ) (M S : CollectionType)
    (debug_code : Bool) (kMaxRegularLength : Nat) (context : Context) (fuel : Nat)
    (w : World σ) (new_target : Value) (args : List Value)
    (map_function set_function : HeapObject) (map_type set_type : InstanceType)
    (hnt : new_target ≠ .undefined)
    (hsrc : GetOptionalArgumentValue args 0 = .undefined ∨
      GetOptionalArgumentValue args 0 = .null)
    (hM : M.HeaderLayout) (hS : S.HeaderLayout)
    (hmaxM : debug_code = true → M.kFixedArrayLength ≤ kMaxRegularLength)
    (hmaxS : debug_code = true → S.kFixedArrayLength ≤ kMaxRegularLength)
    (hmf : LoadFunction w.heap context.JS_MAP_FUN = some map_function)
    (hmc : debug_code = true → map_function.is_constructor_map = true)
    (hmt : map_function.prototype_or_initial_map = some map_type)
    (hsf : LoadFunction w.heap context.JS_SET_FUN = some set_function)
    (hsc : debug_code = true → set_function.is_constructor_map = true)
    (hst : set_function.prototype_or_initial_map = some set_type) :
    ∃ map_table set_table map_run set_run,
      AllocateOrderedHashTable M debug_code kMaxRegularLength = some map_table ∧
      MapConstructor rt M debug_code kMaxRegularLength context fuel w new_target args =
        some map_run ∧
      map_run.completion = .Return (.object w.heap.length) ∧
      LoadTableField map_run.world.heap (.object w.heap.length) = some map_table ∧
      LoadInstanceType map_run.world.heap (.object w.heap.length) = some map_type ∧
      map_run.world.host = w.host ∧
      (∀ ev ∈ map_run.trace, ev.isUserLevel = false) ∧
      AllocateOrderedHashTable S debug_code kMaxRegularLength = some set_table ∧
      SetConstructor rt S debug_code kMaxRegularLength context fuel w new_target args =
        some set_run ∧
      set_run.completion = .Return (.object w.heap.length) ∧
      LoadTableField set_run.world.heap (.object w.heap.length) = some set_table ∧
      LoadInstanceType set_run.world.heap (.object w.heap.length) = some set_type ∧
      set_run.world.host = w.host ∧
      (∀ ev ∈ set_run.trace, ev.isUserLevel = false) := by
  obtain ⟨map_table, hmtab, _⟩ :=
    AllocateOrderedHashTable_spec M debug_code kMaxRegularLength hM hmaxM
  obtain ⟨set_table, hstab, _⟩ :=
    AllocateOrderedHashTable_spec S debug_code kMaxRegularLength hS hmaxS
  have user : ∀ (a : Event) (b : Value) (ev : Event),
      a.isUserLevel = false → ev ∈ [a, .AllocateOrderedHashTable,
        .StoreObjectField b] → ev.isUserLevel = false := by
    intro a b ev ha hev
    simp only [List.mem_cons, List.mem_singleton, List.not_mem_nil, or_false] at hev
    rcases hev with rfl | rfl | rfl
    · exact ha
    · rfl
    · rfl
  refine ⟨map_table, set_table, _, _, hmtab,
    MapConstructor_empty rt M debug_code kMaxRegularLength context fuel w new_target args
      map_function map_type map_table hnt hsrc hmf hmc hmt hmtab,
    rfl, LoadTableField_new _ _, LoadInstanceType_new _ _, rfl, ?_, hstab,
    SetConstructor_empty rt S debug_code kMaxRegularLength context fuel w new_target args
      set_function set_type set_table hnt hsrc hsf hsc hst hstab,
    rfl, LoadTableField_new _ _, LoadInstanceType_new _ _, rfl, ?_⟩
  · intro ev hev
    refine user _ _ ev ?_ hev
    split <;> rfl
  · intro ev hev
    refine user _ _ ev ?_ hev
    split <;> rfl

/-- C10 on the sample heap: the Map function as new-target, no argument, no
fuel. -/
theorem constructor_without_source_witness :
    ∃ map_table set_table map_run set_run,
      AllocateOrderedHashTable OrderedHashMap true 1000 = some map_table ∧
      MapConstructor sampleRuntime OrderedHashMap true 1000 sampleContext 0
        ⟨sampleHeap, 0⟩ (.object 0) [] = some map_run ∧
      map_run.completion = .Return (.object 4) ∧
      LoadTableField map_run.world.heap (.object 4) = some map_table ∧
      LoadInstanceType map_run.world.heap (.object 4) = some .JS_MAP_TYPE ∧
      map_run.world.host = 0 ∧
      (∀ ev ∈ map_run.trace, ev.isUserLevel = false) ∧
      AllocateOrderedHashTable OrderedHashSet true 1000 = some set_table ∧
      SetConstructor sampleRuntime OrderedHashSet true 1000 sampleContext 0
        ⟨sampleHeap, 0⟩ (.object 0) [] = some set_run ∧
      set_run.completion = .Return (.object 4) ∧
      LoadTableField set_run.world.heap (.object 4) = some set_table ∧
      LoadInstanceType set_run.world.heap (.object 4) = some .JS_SET_TYPE ∧
      set_run.world.host = 0 ∧
      (∀ ev ∈ set_run.trace, ev.isUserLevel = false) :=
  constructor_without_source sampleRuntime OrderedHashMap OrderedHashSet true 1000
    sampleContext 0 ⟨sampleHeap, 0⟩ (.object 0) []
    ⟨.OTHER_TYPE 3, true, some .JS_MAP_TYPE, none⟩
    ⟨.OTHER_TYPE 3, true, some .JS_SET_TYPE, none⟩ .JS_MAP_TYPE .JS_SET_TYPE
    (by decide) (by decide) (by decide) (by decide) (by decide) (by decide)
    (by decide) (by decide) rfl (by decide) (by decide) rfl

/-! ## The constructors on a source -/

theorem Run.after_after {σ : Type} (a b : List Event) (r : Run σ) :
    Run.after a (Run.after b r) = Run.after (a ++ b) r := by
  simp [Run.after]

theorem Option.map_after_after {σ : Type} (a b : List Event) (r : Option (Run σ)) :
    (r.map (Run.after b)).map (Run.after a) = r.map (Run.after (a ++ b)) := by
  cases r with
  | none => rfl
  | some r => simp [Run.after]

/-- The loop of `MapConstructor` along the elements the iterator produces. -/
theorem MapConstructor_loop_produces {σ : Type} (rt : Runtime σ)
    (adder iterator var_result : Value) {w w' : World σ} {steps : List MapStep}
    (h : MapProduces rt adder iterator var_result w steps w') :
    ∀ fuel, MapConstructor_loop rt adder iterator var_result (steps.length + fuel) w =
      (MapConstructor_loop rt adder iterator var_result fuel w').map
        (Run.after (MapStep.trace adder iterator var_result steps)) := by
  induction h with
  | done w =>
    intro fuel
    cases hl : MapConstructor_loop rt adder iterator var_result fuel w with
    | none => simp [hl]
    | some r => simp [hl, MapStep.trace, Run.after]
  | @step w w1 w2 w3 w4 w5 w6 s steps result h1 h2 h3 h4 h5 h6 h7 _ ih =>
    intro fuel
    have hf : (s :: steps).length + fuel = (steps.length + fuel) + 1 := by
      simp only [List.length_cons]; omega
    rw [hf, MapConstructor_loop]
    simp only [h1, h2, h3, h4, h5, h6, h7, Bool.not_true, Bool.or_self, Bool.false_eq_true,
      if_false]
    rw [ih fuel, Option.map_after_after]
    rfl

/-- The loop of `SetConstructor` along the elements the iterator produces. -/
theorem SetConstructor_loop_produces {σ : Type} (rt : Runtime σ)
    (adder iterator var_result : Value) {w w' : World σ} {steps : List SetStep}
    (h : SetProduces rt adder iterator var_result w steps w') :
    ∀ fuel, SetConstructor_loop rt adder iterator var_result (steps.length + fuel) w =
      (SetConstructor_loop rt adder iterator var_result fuel w').map
        (Run.after (SetStep.trace adder iterator var_result steps)) := by
  induction h with
  | done w =>
    intro fuel
    cases hl : SetConstructor_loop rt adder iterator var_result fuel w with
    | none => simp [hl]
    | some r => simp [hl, SetStep.trace, Run.after]
  | @step w w1 w2 w3 w4 s steps result h1 h2 h3 _ ih =>
    intro fuel
    have hf : (s :: steps).length + fuel = (steps.length + fuel) + 1 := by
      simp only [List.length_cons]; omega
    rw [hf, SetConstructor_loop]
    simp only [h1, h2, h3]
    rw [ih fuel, Option.map_after_after]
    rfl


theorem allocation_ok (debug_code : Bool) (heap : Heap) (js_function new_target : Value)
    (initial_map : InstanceType)
    (hfun : ∃ f, LoadFunction heap js_function = some f ∧
      (debug_code = true → f.is_constructor_map = true) ∧
      f.prototype_or_initial_map = some initial_map) :
    (if WordEqual js_function new_target = true then
        AllocateJSCollection debug_code heap js_function
      else EmitFastNewObject heap js_function new_target) =
      .Return (heap ++ [⟨initial_map, false, none, none⟩], .object heap.length) := by
  obtain ⟨f, hf, hc, hm⟩ := hfun
  split
  · exact AllocateJSCollection_ok debug_code heap _ f initial_map hf hc hm
  · exact EmitFastNewObject_ok heap _ _ f initial_map hf hm

theorem source_present {iterable : Value} (h1 : iterable ≠ .undefined) (h2 : iterable ≠ .null) :
    (IsUndefined iterable || IsNull iterable) = false := by
  simp [IsUndefined, IsNull, h1, h2]

/-- The run of `MapConstructor` when the value read from `set` is not callable. -/
theorem MapConstructor_not_callable {σ : Type} (rt : Runtime σ) (M : CollectionType)
    (debug_code : Bool) (kMaxRegularLength : Nat) (context : Context) (fuel : Nat)
    (w w1 : World σ) (new_target : Value) (args : List Value)
    (initial_map : InstanceType) (table : FixedArray) (adder : Value)
    (hnt : new_target ≠ .undefined)
    (hu : GetOptionalArgumentValue args 0 ≠ .undefined)
    (hn : GetOptionalArgumentValue args 0 ≠ .null)
    (halloc : Allocates M debug_code kMaxRegularLength w.heap context.JS_MAP_FUN
      initial_map table)
    (hget : rt.GetProperty ⟨heapWithShell w.heap initial_map table, w.host⟩
      (.object w.heap.length) "set" = (w1, .ok adder))
    (hcall : (TaggedIsSmi adder || !rt.IsCallable w1 adder) = true) :
    MapConstructor rt M debug_code kMaxRegularLength context fuel w new_target args =
      some ⟨w1, .Throw (.TypeError .kPropertyNotFunction
          [adder, .string "add", .object w.heap.length]),
        initEvents context.JS_MAP_FUN new_target (.object w.heap.length) ++
          [.GetProperty (.object w.heap.length) "set"]⟩ := by
  have hnt2 : IsUndefined new_target = false := by simp [IsUndefined, hnt]
  have ha := allocation_ok debug_code w.heap context.JS_MAP_FUN new_target initial_map
    halloc.function
  unfold heapWithShell at hget
  simp only [MapConstructor, hnt2, Bool.false_eq_true, if_false, ha, halloc.table,
    StoreTableField_new, source_present hu hn, hget, hcall, if_true, initEvents]

/-- The run of `MapConstructor` once the insertion method and the iterator are
resolved: the loop, after the five events of the resolution. -/
theorem MapConstructor_resolved {σ : Type} (rt : Runtime σ) (M : CollectionType)
    (debug_code : Bool) (kMaxRegularLength : Nat) (context : Context) (fuel : Nat)
    (w w1 w2 : World σ) (new_target : Value) (args : List Value)
    (initial_map : InstanceType) (table : FixedArray) (adder iterator : Value)
    (hnt : new_target ≠ .undefined)
    (hu : GetOptionalArgumentValue args 0 ≠ .undefined)
    (hn : GetOptionalArgumentValue args 0 ≠ .null)
    (halloc : Allocates M debug_code kMaxRegularLength w.heap context.JS_MAP_FUN
      initial_map table)
    (hget : rt.GetProperty ⟨heapWithShell w.heap initial_map table, w.host⟩
      (.object w.heap.length) "set" = (w1, .ok adder))
    (hsmi : TaggedIsSmi adder = false)
    (hcall : rt.IsCallable w1 adder = true)
    (hiter : rt.GetIterator w1 (GetOptionalArgumentValue args 0) = (w2, .ok iterator))
    (hdef : iterator ≠ .undefined) :
    MapConstructor rt M debug_code kMaxRegularLength context fuel w new_target args =
      (MapConstructor_loop rt adder iterator (.object w.heap.length) fuel w2).map
        (Run.after (initEvents context.JS_MAP_FUN new_target (.object w.heap.length) ++
          [.GetProperty (.object w.heap.length) "set",
           .GetIterator (GetOptionalArgumentValue args 0)])) := by
  have hnt2 : IsUndefined new_target = false := by simp [IsUndefined, hnt]
  have hdef2 : IsUndefined iterator = false := by simp [IsUndefined, hdef]
  have ha := allocation_ok debug_code w.heap context.JS_MAP_FUN new_target initial_map
    halloc.function
  unfold heapWithShell at hget
  simp only [MapConstructor, hnt2, Bool.false_eq_true, if_false, ha, halloc.table,
    StoreTableField_new, source_present hu hn, hget, hsmi, hcall, Bool.not_true,
    Bool.or_self, hiter, hdef2, initEvents]

/-- The run of `SetConstructor` when the value read from `add` is not callable. -/
theorem SetConstructor_not_callable {σ : Type} (rt : Runtime σ) (S : CollectionType)
    (debug_code : Bool) (kMaxRegularLength : Nat) (context : Context) (fuel : Nat)
    (w w1 : World σ) (new_target : Value) (args : List Value)
    (initial_map : InstanceType) (table : FixedArray) (adder : Value)
    (hnt : new_target ≠ .undefined)
    (hu : GetOptionalArgumentValue args 0 ≠ .undefined)
    (hn : GetOptionalArgumentValue args 0 ≠ .null)
    (halloc : Allocates S debug_code kMaxRegularLength w.heap context.JS_SET_FUN
      initial_map table)
    (hget : rt.GetProperty ⟨heapWithShell w.heap initial_map table, w.host⟩
      (.object w.heap.length) "add" = (w1, .ok adder))
    (hcall : (TaggedIsSmi adder || !rt.IsCallable w1 adder) = true) :
    SetConstructor rt S debug_code kMaxRegularLength context fuel w new_target args =
      some ⟨w1, .Throw (.TypeError .kPropertyNotFunction
          [adder, .string "add", .object w.heap.length]),
        initEvents context.JS_SET_FUN new_target (.object w.heap.length) ++
          [.GetProperty (.object w.heap.length) "add"]⟩ := by
  have hnt2 : IsUndefined new_target = false := by simp [IsUndefined, hnt]
  have ha := allocation_ok debug_code w.heap context.JS_SET_FUN new_target initial_map
    halloc.function
  unfold heapWithShell at hget
  simp only [SetConstructor, hnt2, Bool.false_eq_true, if_false, ha, halloc.table,
    StoreTableField_new, source_present hu hn, hget, hcall, if_true, initEvents]

/-- The run of `SetConstructor` once the insertion method and the iterator are
resolved: the loop, after the five events of the resolution. -/
theorem SetConstructor_resolved {σ : Type} (rt : Runtime σ) (S : CollectionType)
    (debug_code : Bool) (kMaxRegularLength : Nat) (context : Context) (fuel : Nat)
    (w w1 w2 : World σ) (new_target : Value) (args : List Value)
    (initial_map : InstanceType) (table : FixedArray) (adder iterator : Value)
    (hnt : new_target ≠ .undefined)
    (hu : GetOptionalArgumentValue args 0 ≠ .undefined)
    (hn : GetOptionalArgumentValue args 0 ≠ .null)
    (halloc : Allocates S debug_code kMaxRegularLength w.heap context.JS_SET_FUN
      initial_map table)
    (hget : rt.GetProperty ⟨heapWithShell w.heap initial_map table, w.host⟩
      (.object w.heap.length) "add" = (w1, .ok adder))
    (hsmi : TaggedIsSmi adder = false)
    (hcall : rt.IsCallable w1 adder = true)
    (hiter : rt.GetIterator w1 (GetOptionalArgumentValue args 0) = (w2, .ok iterator))
    (hdef : iterator ≠ .undefined) :
    SetConstructor rt S debug_code kMaxRegularLength context fuel w new_target args =
      (SetConstructor_loop rt adder iterator (.object w.heap.length) fuel w2).map
        (Run.after (initEvents context.JS_SET_FUN new_target (.object w.heap.length) ++
          [.GetProperty (.object w.heap.length) "add",
           .GetIterator (GetOptionalArgumentValue args 0)])) := by
  have hnt2 : IsUndefined new_target = false := by simp [IsUndefined, hnt]
  have hdef2 : IsUndefined iterator = false := by simp [IsUndefined, hdef]
  have ha := allocation_ok debug_code w.heap context.JS_SET_FUN new_target initial_map
    halloc.function
  unfold heapWithShell at hget
  simp only [SetConstructor, hnt2, Bool.false_eq_true, if_false, ha, halloc.table,
    StoreTableField_new, source_present hu hn, hget, hsmi, hcall, Bool.not_true,
    Bool.or_self, hiter, hdef2, initEvents]


theorem MapConstructor_loop_done {σ : Type} (rt : Runtime σ)
    (adder iterator var_result : Value) (fuel : Nat) {w w' : World σ}
    (h : rt.IteratorStep w iterator = (w', .ok none)) :
    MapConstructor_loop rt adder iterator var_result (fuel + 1) w =
      some ⟨w', .Return var_result, [.IteratorStep iterator]⟩ := by
  rw [MapConstructor_loop]
  simp only [h]

theorem SetConstructor_loop_done {σ : Type} (rt : Runtime σ)
    (adder iterator var_result : Value) (fuel : Nat) {w w' : World σ}
    (h : rt.IteratorStep w iterator = (w', .ok none)) :
    SetConstructor_loop rt adder iterator var_result (fuel + 1) w =
      some ⟨w', .Return var_result, [.IteratorStep iterator]⟩ := by
  rw [SetConstructor_loop]
  simp only [h]

theorem initEvents_filter (p : Event → Bool) (js_function new_target shell : Value)
    (h1 : ∀ v, p (.AllocateJSCollection v) = false)
    (h2 : ∀ v, p (.EmitFastNewObject v) = false)
    (h3 : p .AllocateOrderedHashTable = false)
    (h4 : ∀ v, p (.StoreObjectField v) = false) :
    (initEvents js_function new_target shell).filter p = [] := by
  unfold initEvents
  split <;> simp [List.filter, h1, h2, h3, h4]

theorem MapStep_trace_calls (adder iterator var_result : Value) (steps : List MapStep) :
    (MapStep.trace adder iterator var_result steps).filter Event.isCallJS =
      steps.map fun s => .CallJS adder var_result [s.k, s.v] := by
  induction steps with
  | nil => rfl
  | cons s rest ih =>
    simp only [MapStep.trace, List.filter_append, ih, List.map_cons]
    rfl

theorem SetStep_trace_calls (adder iterator var_result : Value) (steps : List SetStep) :
    (SetStep.trace adder iterator var_result steps).filter Event.isCallJS =
      steps.map fun s => .CallJS adder var_result [s.next_value] := by
  induction steps with
  | nil => rfl
  | cons s rest ih =>
    simp only [SetStep.trace, List.filter_append, ih, List.map_cons]
    rfl

theorem MapStep_trace_reads (adder iterator var_result object : Value) (name : String)
    (hname : name ≠ "0" ∧ name ≠ "1") (steps : List MapStep) :
    (MapStep.trace adder iterator var_result steps).count (.GetProperty object name) = 0 := by
  induction steps with
  | nil => rfl
  | cons s rest ih =>
    simp only [MapStep.trace, List.count_append, ih, Nat.add_zero]
    rw [List.count_eq_zero]
    intro hmem
    simp only [MapStep.events, List.mem_cons, List.mem_singleton, List.not_mem_nil,
      or_false] at hmem
    rcases hmem with h | h | h | h | h
    · cases h
    · cases h
    · injection h with _ h2
      exact hname.1 h2
    · injection h with _ h2
      exact hname.2 h2
    · cases h

theorem SetStep_trace_reads (adder iterator var_result object : Value) (name : String)
    (steps : List SetStep) :
    (SetStep.trace adder iterator var_result steps).count (.GetProperty object name) = 0 := by
  induction steps with
  | nil => rfl
  | cons s rest ih =>
    simp only [SetStep.trace, List.count_append, ih, Nat.add_zero]
    rw [List.count_eq_zero]
    intro hmem
    simp only [SetStep.events, List.mem_cons, List.mem_singleton, List.not_mem_nil,
      or_false] at hmem
    rcases hmem with h | h | h <;> cases h

theorem initEvents_reads (js_function new_target shell object : Value) (name : String) :
    (initEvents js_function new_target shell).count (.GetProperty object name) = 0 := by
  rw [List.count_eq_zero]
  intro hmem
  unfold initEvents at hmem
  simp only [List.mem_cons, List.mem_singleton, List.not_mem_nil, or_false] at hmem
  rcases hmem with h | h | h
  · split at h <;> cases h
  · cases h
  · cases h


/-- The run of `MapConstructor` on a source whose iterator produces `steps`
and is then done. -/
theorem MapConstructor_iterates {σ : Type} (rt : Runtime σ) (M : CollectionType)
    (debug_code : Bool) (kMaxRegularLength : Nat) (context : Context) (fuel : Nat)
    (w w1 w2 w3 w4 : World σ) (new_target : Value) (args : List Value)
    (initial_map : InstanceType) (table : FixedArray) (adder iterator : Value)
    (steps : List MapStep)
    (hnt : new_target ≠ .undefined)
    (hu : GetOptionalArgumentValue args 0 ≠ .undefined)
    (hn : GetOptionalArgumentValue args 0 ≠ .null)
    (halloc : Allocates M debug_code kMaxRegularLength w.heap context.JS_MAP_FUN
      initial_map table)
    (hget : rt.GetProperty ⟨heapWithShell w.heap initial_map table, w.host⟩
      (.object w.heap.length) "set" = (w1, .ok adder))
    (hsmi : TaggedIsSmi adder = false)
    (hcall : rt.IsCallable w1 adder = true)
    (hiter : rt.GetIterator w1 (GetOptionalArgumentValue args 0) = (w2, .ok iterator))
    (hdef : iterator ≠ .undefined)
    (hprod : MapProduces rt adder iterator (.object w.heap.length) w2 steps w3)
    (hdone : rt.IteratorStep w3 iterator = (w4, .ok none))
    (hfuel : steps.length < fuel) :
    MapConstructor rt M debug_code kMaxRegularLength context fuel w new_target args =
      some ⟨w4, .Return (.object w.heap.length),
        initEvents context.JS_MAP_FUN new_target (.object w.heap.length) ++
          [.GetProperty (.object w.heap.length) "set",
           .GetIterator (GetOptionalArgumentValue args 0)] ++
          MapStep.trace adder iterator (.object w.heap.length) steps ++
          [.IteratorStep iterator]⟩ := by
  obtain ⟨f, rfl⟩ : ∃ f, fuel = steps.length + (f + 1) := ⟨fuel - steps.length - 1, by omega⟩
  rw [MapConstructor_resolved rt M debug_code kMaxRegularLength context _ w w1 w2 new_target
    args initial_map table adder iterator hnt hu hn halloc hget hsmi hcall hiter hdef,
    MapConstructor_loop_produces rt adder iterator _ hprod,
    MapConstructor_loop_done rt adder iterator _ f hdone]
  simp [Run.after]

/-- The run of `SetConstructor` on a source whose iterator produces `steps`
and is then done. -/
theorem SetConstructor_iterates {σ : Type} (rt : Runtime σ) (S : CollectionType)
    (debug_code : Bool) (kMaxRegularLength : Nat) (context : Context) (fuel : Nat)
    (w w1 w2 w3 w4 : World σ) (new_target : Value) (args : List Value)
    (initial_map : InstanceType) (table : FixedArray) (adder iterator : Value)
    (steps : List SetStep)
    (hnt : new_target ≠ .undefined)
    (hu : GetOptionalArgumentValue args 0 ≠ .undefined)
    (hn : GetOptionalArgumentValue args 0 ≠ .null)
    (halloc : Allocates S debug_code kMaxRegularLength w.heap context.JS_SET_FUN
      initial_map table)
    (hget : rt.GetProperty ⟨heapWithShell w.heap initial_map table, w.host⟩
      (.object w.heap.length) "add" = (w1, .ok adder))
    (hsmi : TaggedIsSmi adder = false)
    (hcall : rt.IsCallable w1 adder = true)
    (hiter : rt.GetIterator w1 (GetOptionalArgumentValue args 0) = (w2, .ok iterator))
    (hdef : iterator ≠ .undefined)
    (hprod : SetProduces rt adder iterator (.object w.heap.length) w2 steps w3)
    (hdone : rt.IteratorStep w3 iterator = (w4, .ok none))
    (hfuel : steps.length < fuel) :
    SetConstructor rt S debug_code kMaxRegularLength context fuel w new_target args =
      some ⟨w4, .Return (.object w.heap.length),
        initEvents context.JS_SET_FUN new_target (.object w.heap.length) ++
          [.GetProperty (.object w.heap.length) "add",
           .GetIterator (GetOptionalArgumentValue args 0)] ++
          SetStep.trace adder iterator (.object w.heap.length) steps ++
          [.IteratorStep iterator]⟩ := by
  obtain ⟨f, rfl⟩ : ∃ f, fuel = steps.length + (f + 1) := ⟨fuel - steps.length - 1, by omega⟩
  rw [SetConstructor_resolved rt S debug_code kMaxRegularLength context _ w w1 w2 new_target
    args initial_map table adder iterator hnt hu hn halloc hget hsmi hcall hiter hdef,
    SetConstructor_loop_produces rt adder iterator _ hprod,
    SetConstructor_loop_done rt adder iterator _ f hdone]
  simp [Run.after]


/-- C11: take a defined new-target and a source that is neither undefined nor
null. Let the read of the insertion-method property on the shell (`set` for
Map, `add` for Set) give a callable value `adder`, let the source give an
iterator, and let the iterator produce `n` elements without any failure and
then be done. With fuel above `n` the constructor returns the shell. Its trace
is: the three events of the allocation, the read of the property, the
obtaining of the iterator, then for each element in production order its
round (Map: step, value, member "0", member "1", call of `adder` on the shell
with the two members; Set: step, value, call of `adder` on the shell with the
value), then the last step. So the property is read exactly once, before the
iterator is obtained, and the calls are exactly the `n` calls of that `adder`,
whatever the runtime would answer to a later read of the property. -/
theorem constructor_iterates {σ : Type} (rt : Runtime σ) (M S : CollectionType)
    (debug_code : Bool) (kMaxRegularLength : Nat) (context : Context) (fuel : Nat)
    (w : World σ) (new_target : Value) (args : List Value)
    (map_type set_type : InstanceType) (map_table set_table : FixedArray)
    (m1 m2 m3 m4 s1 s2 s3 s4 : World σ)
    (map_adder map_iterator set_adder set_iterator : Value)
    (map_steps : List MapStep) (set_steps : List SetStep)
    (hnt : new_target ≠ .undefined)
    (hu : GetOptionalArgumentValue args 0 ≠ .undefined)
    (hn : GetOptionalArgumentValue args 0 ≠ .null)
    (hmalloc : Allocates M debug_code kMaxRegularLength w.heap context.JS_MAP_FUN
      map_type map_table)
    (hmget : rt.GetProperty ⟨heapWithShell w.heap map_type map_table, w.host⟩
      (.object w.heap.length) "set" = (m1, .ok map_adder))
    (hmsmi : TaggedIsSmi map_adder = false)
    (hmcall : rt.IsCallable m1 map_adder = true)
    (hmiter : rt.GetIterator m1 (GetOptionalArgumentValue args 0) = (m2, .ok map_iterator))
    (hmdef : map_iterator ≠ .undefined)
    (hmprod : MapProduces rt map_adder map_iterator (.object w.heap.length) m2 map_steps m3)
    (hmdone : rt.IteratorStep m3 map_iterator = (m4, .ok none))
    (hmfuel : map_steps.length < fuel)
    (hsalloc : Allocates S debug_code kMaxRegularLength w.heap context.JS_SET_FUN
      set_type set_table)
    (hsget : rt.GetProperty ⟨heapWithShell w.heap set_type set_table, w.host⟩
      (.object w.heap.length) "add" = (s1, .ok set_adder))
    (hssmi : TaggedIsSmi set_adder = false)
    (hscall : rt.IsCallable s1 set_adder = true)
    (hsiter : rt.GetIterator s1 (GetOptionalArgumentValue args 0) = (s2, .ok set_iterator))
    (hsdef : set_iterator ≠ .undefined)
    (hsprod : SetProduces rt set_adder set_iterator (.object w.heap.length) s2 set_steps s3)
    (hsdone : rt.IteratorStep s3 set_iterator = (s4, .ok none))
    (hsfuel : set_steps.length < fuel) :
    (∃ run,
      MapConstructor rt M debug_code kMaxRegularLength context fuel w new_target args =
        some run ∧
      run.completion = .Return (.object w.heap.length) ∧
      run.trace =
        initEvents context.JS_MAP_FUN new_target (.object w.heap.length) ++
          [.GetProperty (.object w.heap.length) "set",
           .GetIterator (GetOptionalArgumentValue args 0)] ++
          MapStep.trace map_adder map_iterator (.object w.heap.length) map_steps ++
          [.IteratorStep map_iterator] ∧
      run.trace.count (.GetProperty (.object w.heap.length) "set") = 1 ∧
      run.trace.filter Event.isCallJS =
        map_steps.map fun s => .CallJS map_adder (.object w.heap.length) [s.k, s.v]) ∧
    (∃ run,
      SetConstructor rt S debug_code kMaxRegularLength context fuel w new_target args =
        some run ∧
      run.completion = .Return (.object w.heap.length) ∧
      run.trace =
        initEvents context.JS_SET_FUN new_target (.object w.heap.length) ++
          [.GetProperty (.object w.heap.length) "add",
           .GetIterator (GetOptionalArgumentValue args 0)] ++
          SetStep.trace set_adder set_iterator (.object w.heap.length) set_steps ++
          [.IteratorStep set_iterator] ∧
      run.trace.count (.GetProperty (.object w.heap.length) "add") = 1 ∧
      run.trace.filter Event.isCallJS =
        set_steps.map fun s => .CallJS set_adder (.object w.heap.length) [s.next_value]) := by
  constructor
  · refine ⟨_, MapConstructor_iterates rt M debug_code kMaxRegularLength context fuel w m1 m2
      m3 m4 new_target args map_type map_table map_adder map_iterator map_steps hnt hu hn
      hmalloc hmget hmsmi hmcall hmiter hmdef hmprod hmdone hmfuel, rfl, rfl, ?_, ?_⟩
    · simp only [List.count_append, initEvents_reads,
        MapStep_trace_reads _ _ _ _ "set" ⟨by decide, by decide⟩]
      simp [List.count_cons]
    · simp only [List.filter_append, MapStep_trace_calls,
        initEvents_filter Event.isCallJS _ _ _ (fun _ => rfl) (fun _ => rfl) rfl
          (fun _ => rfl)]
      simp [List.filter, Event.isCallJS]
  · refine ⟨_, SetConstructor_iterates rt S debug_code kMaxRegularLength context fuel w s1 s2
      s3 s4 new_target args set_type set_table set_adder set_iterator set_steps hnt hu hn
      hsalloc hsget hssmi hscall hsiter hsdef hsprod hsdone hsfuel, rfl, rfl, ?_, ?_⟩
    · simp only [List.count_append, initEvents_reads, SetStep_trace_reads]
      simp [List.count_cons]
    · simp only [List.filter_append, SetStep_trace_calls,
        initEvents_filter Event.isCallJS _ _ _ (fun _ => rfl) (fun _ => rfl) rfl
          (fun _ => rfl)]
      simp [List.filter, Event.isCallJS]


/-- C11 on the sample heap, with the runtime that reassigns the property after
the first element: two elements are produced and both calls go to the object
at address 9, the value read before the iteration. -/
theorem constructor_iterates_witness :
    (∃ run,
      MapConstructor reassigningRuntime OrderedHashMap true 1000 sampleContext 3
        ⟨sampleHeap, 0⟩ (.object 0) [.object 5] = some run ∧
      run.completion = .Return (.object 4) ∧
      run.trace =
        [.AllocateJSCollection (.object 4), .AllocateOrderedHashTable,
         .StoreObjectField (.object 4),
         .GetProperty (.object 4) "set", .GetIterator (.object 5),
         .IteratorStep (.object 8), .IteratorValue (.object 7),
         .GetProperty (.object 6) "0", .GetProperty (.object 6) "1",
         .CallJS (.object 9) (.object 4) [.smi 7, .smi 7],
         .IteratorStep (.object 8), .IteratorValue (.object 7),
         .GetProperty (.object 6) "0", .GetProperty (.object 6) "1",
         .CallJS (.object 9) (.object 4) [.smi 7, .smi 7],
         .IteratorStep (.object 8)] ∧
      run.trace.count (.GetProperty (.object 4) "set") = 1 ∧
      run.trace.filter Event.isCallJS =
        [.CallJS (.object 9) (.object 4) [.smi 7, .smi 7],
         .CallJS (.object 9) (.object 4) [.smi 7, .smi 7]]) ∧
    (∃ run,
      SetConstructor reassigningRuntime OrderedHashSet true 1000 sampleContext 3
        ⟨sampleHeap, 0⟩ (.object 0) [.object 5] = some run ∧
      run.completion = .Return (.object 4) ∧
      run.trace =
        [.EmitFastNewObject (.object 4), .AllocateOrderedHashTable,
         .StoreObjectField (.object 4),
         .GetProperty (.object 4) "add", .GetIterator (.object 5),
         .IteratorStep (.object 8), .IteratorValue (.object 7),
         .CallJS (.object 9) (.object 4) [.object 6],
         .IteratorStep (.object 8), .IteratorValue (.object 7),
         .CallJS (.object 9) (.object 4) [.object 6],
         .IteratorStep (.object 8)] ∧
      run.trace.count (.GetProperty (.object 4) "add") = 1 ∧
      run.trace.filter Event.isCallJS =
        [.CallJS (.object 9) (.object 4) [.object 6],
         .CallJS (.object 9) (.object 4) [.object 6]]) :=
  constructor_iterates reassigningRuntime OrderedHashMap OrderedHashSet true 1000
    sampleContext 3 ⟨sampleHeap, 0⟩ (.object 0) [.object 5]
    .JS_MAP_TYPE .JS_SET_TYPE freshMapTable freshSetTable
    (mapWorld 0) (mapWorld 0) (mapWorld 2) (mapWorld 2)
    (setWorld 0) (setWorld 0) (setWorld 2) (setWorld 2)
    (.object 9) (.object 8) (.object 9) (.object 8)
    [⟨.object 7, .object 6, .smi 7, .smi 7⟩, ⟨.object 7, .object 6, .smi 7, .smi 7⟩]
    [⟨.object 7, .object 6⟩, ⟨.object 7, .object 6⟩]
    (by decide) (by decide) (by decide)
    ⟨⟨_, rfl, (fun _ => rfl), rfl⟩, by decide⟩ rfl rfl rfl rfl (by decide)
    (MapProduces.step rfl rfl rfl rfl rfl rfl rfl
      (MapProduces.step rfl rfl rfl rfl rfl rfl rfl (MapProduces.done _)))
    rfl (by decide)
    ⟨⟨_, rfl, (fun _ => rfl), rfl⟩, by decide⟩ rfl rfl rfl rfl (by decide)
    (SetProduces.step rfl rfl rfl (SetProduces.step rfl rfl rfl (SetProduces.done _)))
    rfl (by decide)


/-! ## Failures during the iteration -/

theorem MapConstructor_enters_loop {σ : Type} {rt : Runtime σ} {M : CollectionType}
    {debug_code : Bool} {kMaxRegularLength : Nat} {context : Context} {w : World σ}
    {new_target : Value} {args : List Value} {initial_map : InstanceType}
    {table : FixedArray} {adder iterator : Value} {w2 : World σ}
    (h : MapResolves rt M debug_code kMaxRegularLength context w new_target args
      initial_map table adder iterator w2) (fuel : Nat) :
    MapConstructor rt M debug_code kMaxRegularLength context fuel w new_target args =
      (MapConstructor_loop rt adder iterator (.object w.heap.length) fuel w2).map
        (Run.after (resolveEvents context.JS_MAP_FUN new_target (.object w.heap.length)
          "set" (GetOptionalArgumentValue args 0))) := by
  obtain ⟨w1, hget, hsmi, hcall, hiter⟩ := h.resolved
  exact MapConstructor_resolved rt M debug_code kMaxRegularLength context fuel w w1 w2
    new_target args initial_map table adder iterator h.defined h.not_undefined h.not_null
    h.allocates hget hsmi hcall hiter h.iterator_defined

theorem SetConstructor_enters_loop {σ : Type} {rt : Runtime σ} {S : CollectionType}
    {debug_code : Bool} {kMaxRegularLength : Nat} {context : Context} {w : World σ}
    {new_target : Value} {args : List Value} {initial_map : InstanceType}
    {table : FixedArray} {adder iterator : Value} {w2 : World σ}
    (h : SetResolves rt S debug_code kMaxRegularLength context w new_target args
      initial_map table adder iterator w2) (fuel : Nat) :
    SetConstructor rt S debug_code kMaxRegularLength context fuel w new_target args =
      (SetConstructor_loop rt adder iterator (.object w.heap.length) fuel w2).map
        (Run.after (resolveEvents context.JS_SET_FUN new_target (.object w.heap.length)
          "add" (GetOptionalArgumentValue args 0))) := by
  obtain ⟨w1, hget, hsmi, hcall, hiter⟩ := h.resolved
  exact SetConstructor_resolved rt S debug_code kMaxRegularLength context fuel w w1 w2
    new_target args initial_map table adder iterator h.defined h.not_undefined h.not_null
    h.allocates hget hsmi hcall hiter h.iterator_defined

/-- The run of `MapConstructor` after the elements `steps`, when the loop then
ends with `last` from the world `w3`. -/
theorem MapConstructor_after_steps {σ : Type} {rt : Runtime σ} {M : CollectionType}
    {debug_code : Bool} {kMaxRegularLength : Nat} {context : Context} {w : World σ}
    {new_target : Value} {args : List Value} {initial_map : InstanceType}
    {table : FixedArray} {adder iterator : Value} {w2 w3 : World σ}
    {steps : List MapStep} {fuel : Nat} {last : Run σ}
    (hres : MapResolves rt M debug_code kMaxRegularLength context w new_target args
      initial_map table adder iterator w2)
    (hprod : MapProduces rt adder iterator (.object w.heap.length) w2 steps w3)
    (hfuel : steps.length < fuel)
    (hlast : ∀ f, MapConstructor_loop rt adder iterator (.object w.heap.length) (f + 1) w3 =
      some last) :
    MapConstructor rt M debug_code kMaxRegularLength context fuel w new_target args =
      some ⟨last.world, last.completion,
        resolveEvents context.JS_MAP_FUN new_target (.object w.heap.length) "set"
            (GetOptionalArgumentValue args 0) ++
          MapStep.trace adder iterator (.object w.heap.length) steps ++ last.trace⟩ := by
  obtain ⟨f, rfl⟩ : ∃ f, fuel = steps.length + (f + 1) := ⟨fuel - steps.length - 1, by omega⟩
  rw [MapConstructor_enters_loop hres, MapConstructor_loop_produces rt adder iterator _ hprod,
    hlast f]
  simp [Run.after]

/-- The run of `SetConstructor` after the elements `steps`, when the loop then
ends with `last` from the world `w3`. -/
theorem SetConstructor_after_steps {σ : Type} {rt : Runtime σ} {S : CollectionType}
    {debug_code : Bool} {kMaxRegularLength : Nat} {context : Context} {w : World σ}
    {new_target : Value} {args : List Value} {initial_map : InstanceType}
    {table : FixedArray} {adder iterator : Value} {w2 w3 : World σ}
    {steps : List SetStep} {fuel : Nat} {last : Run σ}
    (hres : SetResolves rt S debug_code kMaxRegularLength context w new_target args
      initial_map table adder iterator w2)
    (hprod : SetProduces rt adder iterator (.object w.heap.length) w2 steps w3)
    (hfuel : steps.length < fuel)
    (hlast : ∀ f, SetConstructor_loop rt adder iterator (.object w.heap.length) (f + 1) w3 =
      some last) :
    SetConstructor rt S debug_code kMaxRegularLength context fuel w new_target args =
      some ⟨last.world, last.completion,
        resolveEvents context.JS_SET_FUN new_target (.object w.heap.length) "add"
            (GetOptionalArgumentValue args 0) ++
          SetStep.trace adder iterator (.object w.heap.length) steps ++ last.trace⟩ := by
  obtain ⟨f, rfl⟩ : ∃ f, fuel = steps.length + (f + 1) := ⟨fuel - steps.length - 1, by omega⟩
  rw [SetConstructor_enters_loop hres, SetConstructor_loop_produces rt adder iterator _ hprod,
    hlast f]
  simp [Run.after]


theorem MapConstructor_loop_not_object {σ : Type} (rt : Runtime σ)
    (adder iterator var_result : Value) {w w1 w2 : World σ} {next next_value : Value}
    (hstep : rt.IteratorStep w iterator = (w1, .ok (some next)))
    (hvalue : rt.IteratorValue w1 next = (w2, .ok next_value))
    (hprim : (TaggedIsSmi next_value || !rt.IsJSReceiver w2 next_value) = true) (f : Nat) :
    MapConstructor_loop rt adder iterator var_result (f + 1) w =
      some ⟨rt.IteratorCloseOnException w2 iterator
          (.TypeError .kIteratorValueNotAnObject [next_value]),
        .Throw (.TypeError .kIteratorValueNotAnObject [next_value]),
        [.IteratorStep iterator, .IteratorValue next,
         .IteratorCloseOnException iterator
           (.TypeError .kIteratorValueNotAnObject [next_value])]⟩ := by
  rw [MapConstructor_loop]
  simp only [hstep, hvalue, hprim, if_true, ifException, IteratorCloseOnException,
    Run.after]
  rfl

theorem MapConstructor_loop_step_fails {σ : Type} (rt : Runtime σ)
    (adder iterator var_result : Value) {w w1 : World σ} {exception : Exception}
    (hstep : rt.IteratorStep w iterator = (w1, .error exception)) (f : Nat) :
    MapConstructor_loop rt adder iterator var_result (f + 1) w =
      some ⟨w1, .Throw exception, [.IteratorStep iterator]⟩ := by
  rw [MapConstructor_loop]
  simp only [hstep]

theorem MapConstructor_loop_value_fails {σ : Type} (rt : Runtime σ)
    (adder iterator var_result : Value) {w w1 w2 : World σ} {next : Value}
    {exception : Exception}
    (hstep : rt.IteratorStep w iterator = (w1, .ok (some next)))
    (hvalue : rt.IteratorValue w1 next = (w2, .error exception)) (f : Nat) :
    MapConstructor_loop rt adder iterator var_result (f + 1) w =
      some ⟨w2, .Throw exception, [.IteratorStep iterator, .IteratorValue next]⟩ := by
  rw [MapConstructor_loop]
  simp only [hstep, hvalue]

theorem MapConstructor_loop_first_fails {σ : Type} (rt : Runtime σ)
    (adder iterator var_result : Value) {w w1 w2 w3 : World σ} {next next_value : Value}
    {exception : Exception}
    (hstep : rt.IteratorStep w iterator = (w1, .ok (some next)))
    (hvalue : rt.IteratorValue w1 next = (w2, .ok next_value))
    (hsmi : TaggedIsSmi next_value = false)
    (hobj : rt.IsJSReceiver w2 next_value = true)
    (hk : rt.GetProperty w2 next_value "0" = (w3, .error exception)) (f : Nat) :
    MapConstructor_loop rt adder iterator var_result (f + 1) w =
      some ⟨rt.IteratorCloseOnException w3 iterator exception, .Throw exception,
        [.IteratorStep iterator, .IteratorValue next, .GetProperty next_value "0",
         .IteratorCloseOnException iterator exception]⟩ := by
  rw [MapConstructor_loop]
  simp only [hstep, hvalue, hsmi, hobj, hk, Bool.not_true, Bool.or_self,
    Bool.false_eq_true, if_false, ifException, IteratorCloseOnException,
    Run.after]
  rfl

theorem MapConstructor_loop_second_fails {σ : Type} (rt : Runtime σ)
    (adder iterator var_result : Value) {w w1 w2 w3 w4 : World σ}
    {next next_value k : Value} {exception : Exception}
    (hstep : rt.IteratorStep w iterator = (w1, .ok (some next)))
    (hvalue : rt.IteratorValue w1 next = (w2, .ok next_value))
    (hsmi : TaggedIsSmi next_value = false)
    (hobj : rt.IsJSReceiver w2 next_value = true)
    (hk : rt.GetProperty w2 next_value "0" = (w3, .ok k))
    (hv : rt.GetProperty w3 next_value "1" = (w4, .error exception)) (f : Nat) :
    MapConstructor_loop rt adder iterator var_result (f + 1) w =
      some ⟨rt.IteratorCloseOnException w4 iterator exception, .Throw exception,
        [.IteratorStep iterator, .IteratorValue next, .GetProperty next_value "0",
         .GetProperty next_value "1", .IteratorCloseOnException iterator exception]⟩ := by
  rw [MapConstructor_loop]
  simp only [hstep, hvalue, hsmi, hobj, hk, hv, Bool.not_true, Bool.or_self,
    Bool.false_eq_true, if_false, ifException, IteratorCloseOnException,
    Run.after]
  rfl

theorem MapConstructor_loop_call_fails {σ : Type} (rt : Runtime σ)
    (adder iterator var_result : Value) {w w1 w2 w3 w4 w5 : World σ}
    {next next_value k v : Value} {exception : Exception}
    (hstep : rt.IteratorStep w iterator = (w1, .ok (some next)))
    (hvalue : rt.IteratorValue w1 next = (w2, .ok next_value))
    (hsmi : TaggedIsSmi next_value = false)
    (hobj : rt.IsJSReceiver w2 next_value = true)
    (hk : rt.GetProperty w2 next_value "0" = (w3, .ok k))
    (hv : rt.GetProperty w3 next_value "1" = (w4, .ok v))
    (hadd : rt.CallJS w4 adder var_result [k, v] = (w5, .error exception)) (f : Nat) :
    MapConstructor_loop rt adder iterator var_result (f + 1) w =
      some ⟨rt.IteratorCloseOnException w5 iterator exception, .Throw exception,
        [.IteratorStep iterator, .IteratorValue next, .GetProperty next_value "0",
         .GetProperty next_value "1", .CallJS adder var_result [k, v],
         .IteratorCloseOnException iterator exception]⟩ := by
  rw [MapConstructor_loop]
  simp only [hstep, hvalue, hsmi, hobj, hk, hv, hadd, Bool.not_true, Bool.or_self,
    Bool.false_eq_true, if_false, ifException, IteratorCloseOnException,
    Run.after]
  rfl

theorem SetConstructor_loop_step_fails {σ : Type} (rt : Runtime σ)
    (adder iterator var_result : Value) {w w1 : World σ} {exception : Exception}
    (hstep : rt.IteratorStep w iterator = (w1, .error exception)) (f : Nat) :
    SetConstructor_loop rt adder iterator var_result (f + 1) w =
      some ⟨w1, .Throw exception, [.IteratorStep iterator]⟩ := by
  rw [SetConstructor_loop]
  simp only [hstep]

theorem SetConstructor_loop_value_fails {σ : Type} (rt : Runtime σ)
    (adder iterator var_result : Value) {w w1 w2 : World σ} {next : Value}
    {exception : Exception}
    (hstep : rt.IteratorStep w iterator = (w1, .ok (some next)))
    (hvalue : rt.IteratorValue w1 next = (w2, .error exception)) (f : Nat) :
    SetConstructor_loop rt adder iterator var_result (f + 1) w =
      some ⟨w2, .Throw exception, [.IteratorStep iterator, .IteratorValue next]⟩ := by
  rw [SetConstructor_loop]
  simp only [hstep, hvalue]

theorem SetConstructor_loop_call_fails {σ : Type} (rt : Runtime σ)
    (adder iterator var_result : Value) {w w1 w2 w3 : World σ}
    {next next_value : Value} {exception : Exception}
    (hstep : rt.IteratorStep w iterator = (w1, .ok (some next)))
    (hvalue : rt.IteratorValue w1 next = (w2, .ok next_value))
    (hadd : rt.CallJS w2 adder var_result [next_value] = (w3, .error exception)) (f : Nat) :
    SetConstructor_loop rt adder iterator var_result (f + 1) w =
      some ⟨rt.IteratorCloseOnException w3 iterator exception, .Throw exception,
        [.IteratorStep iterator, .IteratorValue next,
         .CallJS adder var_result [next_value],
         .IteratorCloseOnException iterator exception]⟩ := by
  rw [SetConstructor_loop]
  simp only [hstep, hvalue, hadd, ifException, IteratorCloseOnException,
    Run.after]
  rfl


theorem resolveEvents_filter (p : Event → Bool) (js_function new_target shell : Value)
    (name : String) (iterable : Value)
    (h1 : ∀ v, p (.AllocateJSCollection v) = false)
    (h2 : ∀ v, p (.EmitFastNewObject v) = false)
    (h3 : p .AllocateOrderedHashTable = false)
    (h4 : ∀ v, p (.StoreObjectField v) = false)
    (h5 : ∀ v n, p (.GetProperty v n) = false)
    (h6 : ∀ v, p (.GetIterator v) = false) :
    (resolveEvents js_function new_target shell name iterable).filter p = [] := by
  unfold resolveEvents
  rw [List.filter_append, initEvents_filter p _ _ _ h1 h2 h3 h4]
  simp [List.filter, h5, h6]

theorem MapStep_trace_steps (adder iterator var_result : Value) (steps : List MapStep) :
    ((MapStep.trace adder iterator var_result steps).filter Event.isStep).length =
      steps.length := by
  induction steps with
  | nil => rfl
  | cons s rest ih =>
    simp only [MapStep.trace, List.filter_append, List.length_append, ih, List.length_cons]
    have : (List.filter Event.isStep (MapStep.events adder iterator var_result s)).length = 1 :=
      rfl
    omega

/-- The run of the close routine, after the events `events`. -/
theorem IteratorCloseOnException_after {σ : Type} (rt : Runtime σ) (w : World σ)
    (iterator : Value) (exception : Exception) (events : List Event) :
    (IteratorCloseOnException rt w iterator exception).after events =
      ⟨rt.IteratorCloseOnException w iterator exception, .Throw exception,
        events ++ [.IteratorCloseOnException iterator exception]⟩ := rfl

/-- C12: let `MapConstructor` have reached its loop, let the iterator have
produced the elements `steps` without failure, and let the next value it
produces be a primitive (a small integer, or a value that is not a receiver).
With fuel above the number of elements the constructor makes the
iterator-value-not-an-object type error for that value, binds it to
`var_exception` and ends with the call of `IteratorCloseOnException` on the
iterator with that variable: the run is the run of that routine after the step
and the reading of the value. The insertion method is not called for that
value and the iterator is not stepped again, while every element produced
before has been passed to the insertion method. By the behaviour of
`IteratorCloseOnException`, which is modelled from the spec, the close path of
the iterator runs and the constructor then throws that type error, in the
world the close path leaves. -/
theorem MapConstructor_primitive_value {σ : Type} (rt : Runtime σ) (M : CollectionType)
    (debug_code : Bool) (kMaxRegularLength : Nat) (context : Context) (fuel : Nat)
    (w : World σ) (new_target : Value) (args : List Value) (initial_map : InstanceType)
    (table : FixedArray) (adder iterator : Value) (w2 w3 w4 w5 : World σ)
    (steps : List MapStep) (next next_value : Value)
    (hres : MapResolves rt M debug_code kMaxRegularLength context w new_target args
      initial_map table adder iterator w2)
    (hprod : MapProduces rt adder iterator (.object w.heap.length) w2 steps w3)
    (hstep : rt.IteratorStep w3 iterator = (w4, .ok (some next)))
    (hvalue : rt.IteratorValue w4 next = (w5, .ok next_value))
    (hprim : (TaggedIsSmi next_value || !rt.IsJSReceiver w5 next_value) = true)
    (hfuel : steps.length < fuel) :
    ∃ run,
      MapConstructor rt M debug_code kMaxRegularLength context fuel w new_target args =
        some run ∧
      run.completion = .Throw (.TypeError .kIteratorValueNotAnObject [next_value]) ∧
      run.world = rt.IteratorCloseOnException w5 iterator
        (.TypeError .kIteratorValueNotAnObject [next_value]) ∧
      run.trace =
        resolveEvents context.JS_MAP_FUN new_target (.object w.heap.length) "set"
            (GetOptionalArgumentValue args 0) ++
          MapStep.trace adder iterator (.object w.heap.length) steps ++
          [.IteratorStep iterator, .IteratorValue next,
           .IteratorCloseOnException iterator
             (.TypeError .kIteratorValueNotAnObject [next_value])] ∧
      run.trace.filter Event.isCallJS =
        steps.map (fun s => .CallJS adder (.object w.heap.length) [s.k, s.v]) ∧
      (run.trace.filter Event.isStep).length = steps.length + 1 ∧
      run = (IteratorCloseOnException rt w5 iterator
          (.TypeError .kIteratorValueNotAnObject [next_value])).after
        (resolveEvents context.JS_MAP_FUN new_target (.object w.heap.length) "set"
            (GetOptionalArgumentValue args 0) ++
          MapStep.trace adder iterator (.object w.heap.length) steps ++
          [.IteratorStep iterator, .IteratorValue next]) := by
  refine ⟨_, MapConstructor_after_steps hres hprod hfuel
    (MapConstructor_loop_not_object rt adder iterator _ hstep hvalue hprim), rfl, rfl, rfl,
    ?_, ?_, ?_⟩
  · simp only [List.filter_append, MapStep_trace_calls,
      resolveEvents_filter Event.isCallJS _ _ _ _ _ (fun _ => rfl) (fun _ => rfl) rfl
        (fun _ => rfl) (fun _ _ => rfl) (fun _ => rfl)]
    simp [List.filter, Event.isCallJS]
  · simp only [List.filter_append, List.length_append, MapStep_trace_steps,
      resolveEvents_filter Event.isStep _ _ _ _ _ (fun _ => rfl) (fun _ => rfl) rfl
        (fun _ => rfl) (fun _ _ => rfl) (fun _ => rfl)]
    simp [List.filter, Event.isStep]
  · rw [IteratorCloseOnException_after]
    simp

/-- C12 on the sample heap, with the source whose second element is the small
integer 2: the first element is inserted, the second makes the constructor
throw after the close path. -/
theorem MapConstructor_primitive_value_witness :
    ∃ run,
      MapConstructor mixedRuntime OrderedHashMap true 1000 sampleContext 3
        ⟨sampleHeap, 0⟩ (.object 0) [.object 5] = some run ∧
      run.completion = .Throw (.TypeError .kIteratorValueNotAnObject [.smi 2]) ∧
      run.world = mapWorld 100 ∧
      run.trace =
        [.AllocateJSCollection (.object 4), .AllocateOrderedHashTable,
         .StoreObjectField (.object 4),
         .GetProperty (.object 4) "set", .GetIterator (.object 5),
         .IteratorStep (.object 8), .IteratorValue (.object 7),
         .GetProperty (.object 6) "0", .GetProperty (.object 6) "1",
         .CallJS (.object 9) (.object 4) [.smi 7, .smi 7],
         .IteratorStep (.object 8), .IteratorValue (.object 7),
         .IteratorCloseOnException (.object 8)
           (.TypeError .kIteratorValueNotAnObject [.smi 2])] ∧
      run.trace.filter Event.isCallJS =
        [.CallJS (.object 9) (.object 4) [.smi 7, .smi 7]] ∧
      (run.trace.filter Event.isStep).length = 2 ∧
      run = (IteratorCloseOnException mixedRuntime (mapWorld 2) (.object 8)
          (.TypeError .kIteratorValueNotAnObject [.smi 2])).after
        [.AllocateJSCollection (.object 4), .AllocateOrderedHashTable,
         .StoreObjectField (.object 4),
         .GetProperty (.object 4) "set", .GetIterator (.object 5),
         .IteratorStep (.object 8), .IteratorValue (.object 7),
         .GetProperty (.object 6) "0", .GetProperty (.object 6) "1",
         .CallJS (.object 9) (.object 4) [.smi 7, .smi 7],
         .IteratorStep (.object 8), .IteratorValue (.object 7)] :=
  MapConstructor_primitive_value mixedRuntime OrderedHashMap true 1000 sampleContext 3
    ⟨sampleHeap, 0⟩ (.object 0) [.object 5] .JS_MAP_TYPE freshMapTable
    (.object 9) (.object 8) (mapWorld 0) (mapWorld 1) (mapWorld 2) (mapWorld 2)
    [⟨.object 7, .object 6, .smi 7, .smi 7⟩] (.object 7) (.smi 2)
    ⟨by decide, by decide, by decide, ⟨⟨_, rfl, (fun _ => rfl), rfl⟩, by decide⟩,
      ⟨mapWorld 0, rfl, rfl, rfl, rfl⟩, by decide⟩
    (MapProduces.step rfl rfl rfl rfl rfl rfl rfl (MapProduces.done _))
    rfl rfl rfl (by decide)


/-- C13, as stated, fails: with an iterator whose `next` method throws, both
constructors rethrow the failure raised while stepping, the trace ends with the
step and holds no close path, and the host state is not the one the close path
would leave. -/
theorem stepping_failure_is_not_closed :
    MapConstructor steppingFailsRuntime OrderedHashMap true 1000 sampleContext 3
        ⟨sampleHeap, 0⟩ (.object 0) [.object 5] =
      some ⟨mapWorld 0, .Throw (.Thrown (.string "boom")),
        [.AllocateJSCollection (.object 4), .AllocateOrderedHashTable,
         .StoreObjectField (.object 4),
         .GetProperty (.object 4) "set", .GetIterator (.object 5),
         .IteratorStep (.object 8)]⟩ ∧
    SetConstructor steppingFailsRuntime OrderedHashSet true 1000 sampleContext 3
        ⟨sampleHeap, 0⟩ (.object 1) [.object 5] =
      some ⟨setWorld 0, .Throw (.Thrown (.string "boom")),
        [.AllocateJSCollection (.object 4), .AllocateOrderedHashTable,
         .StoreObjectField (.object 4),
         .GetProperty (.object 4) "add", .GetIterator (.object 5),
         .IteratorStep (.object 8)]⟩ ∧
    (steppingFailsRuntime.IteratorStep (mapWorld 0) (.object 8)).2 =
      .error (.Thrown (.string "boom")) ∧
    List.any [Event.AllocateJSCollection (.object 4), .AllocateOrderedHashTable,
      .StoreObjectField (.object 4),
      .GetProperty (.object 4) "set", .GetIterator (.object 5),
      .IteratorStep (.object 8)] Event.isClose = false := by
  refine ⟨by decide, by decide, rfl, by decide⟩


/-- C13, amended: let each constructor have reached its loop and let the
iterator have produced the elements `steps` without failure, with fuel above
their number. A failure raised in the next round while reading the member "0"
or the member "1" of the produced value (Map) or while calling the insertion
method (Map and Set) is bound to `var_exception` and the constructor ends with
the call of `IteratorCloseOnException` on the iterator with that variable: the
run is the run of that routine after the events up to the failing call. By the
behaviour of `IteratorCloseOnException`, which is modelled from the spec, the
close path of the iterator runs and the constructor then throws that same
failure: the world is the one the close path leaves and the close path is the
last event. A failure raised while stepping the iterator or while reading the
value of the step is thrown as it is, by the code of the constructors alone:
the world is the one the failing call leaves and the trace ends with that
call, without the close path. -/
theorem failure_during_iteration {σ : Type} (rt : Runtime σ) (M S : CollectionType)
    (debug_code : Bool) (kMaxRegularLength : Nat) (context : Context) (fuel : Nat)
    (w : World σ) (new_target : Value) (args : List Value)
    (map_type set_type : InstanceType) (map_table set_table : FixedArray)
    (map_adder map_iterator set_adder set_iterator : Value)
    (m2 m3 s2 s3 : World σ) (map_steps : List MapStep) (set_steps : List SetStep)
    (hmres : MapResolves rt M debug_code kMaxRegularLength context w new_target args
      map_type map_table map_adder map_iterator m2)
    (hmprod : MapProduces rt map_adder map_iterator (.object w.heap.length) m2 map_steps m3)
    (hmfuel : map_steps.length < fuel)
    (hsres : SetResolves rt S debug_code kMaxRegularLength context w new_target args
      set_type set_table set_adder set_iterator s2)
    (hsprod : SetProduces rt set_adder set_iterator (.object w.heap.length) s2 set_steps s3)
    (hsfuel : set_steps.length < fuel) :
    (∀ (w4 w5 w6 : World σ) (next next_value : Value) (exception : Exception),
      rt.IteratorStep m3 map_iterator = (w4, .ok (some next)) →
      rt.IteratorValue w4 next = (w5, .ok next_value) →
      TaggedIsSmi next_value = false → rt.IsJSReceiver w5 next_value = true →
      rt.GetProperty w5 next_value "0" = (w6, .error exception) →
      MapConstructor rt M debug_code kMaxRegularLength context fuel w new_target args =
        some ⟨rt.IteratorCloseOnException w6 map_iterator exception, .Throw exception,
          resolveEvents context.JS_MAP_FUN new_target (.object w.heap.length) "set"
              (GetOptionalArgumentValue args 0) ++
            MapStep.trace map_adder map_iterator (.object w.heap.length) map_steps ++
            [.IteratorStep map_iterator, .IteratorValue next,
             .GetProperty next_value "0",
             .IteratorCloseOnException map_iterator exception]⟩ ∧
      MapConstructor rt M debug_code kMaxRegularLength context fuel w new_target args =
        some ((IteratorCloseOnException rt w6 map_iterator exception).after
          (resolveEvents context.JS_MAP_FUN new_target (.object w.heap.length) "set"
              (GetOptionalArgumentValue args 0) ++
            MapStep.trace map_adder map_iterator (.object w.heap.length) map_steps ++
            [.IteratorStep map_iterator, .IteratorValue next,
             .GetProperty next_value "0"]))) ∧
    (∀ (w4 w5 w6 w7 : World σ) (next next_value k : Value) (exception : Exception),
      rt.IteratorStep m3 map_iterator = (w4, .ok (some next)) →
      rt.IteratorValue w4 next = (w5, .ok next_value) →
      TaggedIsSmi next_value = false → rt.IsJSReceiver w5 next_value = true →
      rt.GetProperty w5 next_value "0" = (w6, .ok k) →
      rt.GetProperty w6 next_value "1" = (w7, .error exception) →
      MapConstructor rt M debug_code kMaxRegularLength context fuel w new_target args =
        some ⟨rt.IteratorCloseOnException w7 map_iterator exception, .Throw exception,
          resolveEvents context.JS_MAP_FUN new_target (.object w.heap.length) "set"
              (GetOptionalArgumentValue args 0) ++
            MapStep.trace map_adder map_iterator (.object w.heap.length) map_steps ++
            [.IteratorStep map_iterator, .IteratorValue next,
             .GetProperty next_value "0", .GetProperty next_value "1",
             .IteratorCloseOnException map_iterator exception]⟩ ∧
      MapConstructor rt M debug_code kMaxRegularLength context fuel w new_target args =
        some ((IteratorCloseOnException rt w7 map_iterator exception).after
          (resolveEvents context.JS_MAP_FUN new_target (.object w.heap.length) "set"
              (GetOptionalArgumentValue args 0) ++
            MapStep.trace map_adder map_iterator (.object w.heap.length) map_steps ++
            [.IteratorStep map_iterator, .IteratorValue next,
             .GetProperty next_value "0", .GetProperty next_value "1"]))) ∧
    (∀ (w4 w5 w6 w7 w8 : World σ) (next next_value k v : Value) (exception : Exception),
      rt.IteratorStep m3 map_iterator = (w4, .ok (some next)) →
      rt.IteratorValue w4 next = (w5, .ok next_value) →
      TaggedIsSmi next_value = false → rt.IsJSReceiver w5 next_value = true →
      rt.GetProperty w5 next_value "0" = (w6, .ok k) →
      rt.GetProperty w6 next_value "1" = (w7, .ok v) →
      rt.CallJS w7 map_adder (.object w.heap.length) [k, v] = (w8, .error exception) →
      MapConstructor rt M debug_code kMaxRegularLength context fuel w new_target args =
        some ⟨rt.IteratorCloseOnException w8 map_iterator exception, .Throw exception,
          resolveEvents context.JS_MAP_FUN new_target (.object w.heap.length) "set"
              (GetOptionalArgumentValue args 0) ++
            MapStep.trace map_adder map_iterator (.object w.heap.length) map_steps ++
            [.IteratorStep map_iterator, .IteratorValue next,
             .GetProperty next_value "0", .GetProperty next_value "1",
             .CallJS map_adder (.object w.heap.length) [k, v],
             .IteratorCloseOnException map_iterator exception]⟩ ∧
      MapConstructor rt M debug_code kMaxRegularLength context fuel w new_target args =
        some ((IteratorCloseOnException rt w8 map_iterator exception).after
          (resolveEvents context.JS_MAP_FUN new_target (.object w.heap.length) "set"
              (GetOptionalArgumentValue args 0) ++
            MapStep.trace map_adder map_iterator (.object w.heap.length) map_steps ++
            [.IteratorStep map_iterator, .IteratorValue next,
             .GetProperty next_value "0", .GetProperty next_value "1",
             .CallJS map_adder (.object w.heap.length) [k, v]]))) ∧
    (∀ (w4 w5 w6 : World σ) (next next_value : Value) (exception : Exception),
      rt.IteratorStep s3 set_iterator = (w4, .ok (some next)) →
      rt.IteratorValue w4 next = (w5, .ok next_value) →
      rt.CallJS w5 set_adder (.object w.heap.length) [next_value] =
        (w6, .error exception) →
      SetConstructor rt S debug_code kMaxRegularLength context fuel w new_target args =
        some ⟨rt.IteratorCloseOnException w6 set_iterator exception, .Throw exception,
          resolveEvents context.JS_SET_FUN new_target (.object w.heap.length) "add"
              (GetOptionalArgumentValue args 0) ++
            SetStep.trace set_adder set_iterator (.object w.heap.length) set_steps ++
            [.IteratorStep set_iterator, .IteratorValue next,
             .CallJS set_adder (.object w.heap.length) [next_value],
             .IteratorCloseOnException set_iterator exception]⟩ ∧
      SetConstructor rt S debug_code kMaxRegularLength context fuel w new_target args =
        some ((IteratorCloseOnException rt w6 set_iterator exception).after
          (resolveEvents context.JS_SET_FUN new_target (.object w.heap.length) "add"
              (GetOptionalArgumentValue args 0) ++
            SetStep.trace set_adder set_iterator (.object w.heap.length) set_steps ++
            [.IteratorStep set_iterator, .IteratorValue next,
             .CallJS set_adder (.object w.heap.length) [next_value]]))) ∧
    (∀ (w4 : World σ) (exception : Exception),
      rt.IteratorStep m3 map_iterator = (w4, .error exception) →
      MapConstructor rt M debug_code kMaxRegularLength context fuel w new_target args =
        some ⟨w4, .Throw exception,
          resolveEvents context.JS_MAP_FUN new_target (.object w.heap.length) "set"
              (GetOptionalArgumentValue args 0) ++
            MapStep.trace map_adder map_iterator (.object w.heap.length) map_steps ++
            [.IteratorStep map_iterator]⟩) ∧
    (∀ (w4 w5 : World σ) (next : Value) (exception : Exception),
      rt.IteratorStep m3 map_iterator = (w4, .ok (some next)) →
      rt.IteratorValue w4 next = (w5, .error exception) →
      MapConstructor rt M debug_code kMaxRegularLength context fuel w new_target args =
        some ⟨w5, .Throw exception,
          resolveEvents context.JS_MAP_FUN new_target (.object w.heap.length) "set"
              (GetOptionalArgumentValue args 0) ++
            MapStep.trace map_adder map_iterator (.object w.heap.length) map_steps ++
            [.IteratorStep map_iterator, .IteratorValue next]⟩) ∧
    (∀ (w4 : World σ) (exception : Exception),
      rt.IteratorStep s3 set_iterator = (w4, .error exception) →
      SetConstructor rt S debug_code kMaxRegularLength context fuel w new_target args =
        some ⟨w4, .Throw exception,
          resolveEvents context.JS_SET_FUN new_target (.object w.heap.length) "add"
              (GetOptionalArgumentValue args 0) ++
            SetStep.trace set_adder set_iterator (.object w.heap.length) set_steps ++
            [.IteratorStep set_iterator]⟩) ∧
    (∀ (w4 w5 : World σ) (next : Value) (exception : Exception),
      rt.IteratorStep s3 set_iterator = (w4, .ok (some next)) →
      rt.IteratorValue w4 next = (w5, .error exception) →
      SetConstructor rt S debug_code kMaxRegularLength context fuel w new_target args =
        some ⟨w5, .Throw exception,
          resolveEvents context.JS_SET_FUN new_target (.object w.heap.length) "add"
              (GetOptionalArgumentValue args 0) ++
            SetStep.trace set_adder set_iterator (.object w.heap.length) set_steps ++
            [.IteratorStep set_iterator, .IteratorValue next]⟩) := by
  refine ⟨?_, ?_, ?_, ?_, ?_, ?_, ?_, ?_⟩
  · intro w4 w5 w6 next next_value exception h1 h2 h3 h4 h5
    have h := MapConstructor_after_steps hmres hmprod hmfuel
      (MapConstructor_loop_first_fails rt _ _ _ h1 h2 h3 h4 h5)
    refine ⟨h, ?_⟩
    rw [h, IteratorCloseOnException_after]
    simp
  · intro w4 w5 w6 w7 next next_value k exception h1 h2 h3 h4 h5 h6
    have h := MapConstructor_after_steps hmres hmprod hmfuel
      (MapConstructor_loop_second_fails rt _ _ _ h1 h2 h3 h4 h5 h6)
    refine ⟨h, ?_⟩
    rw [h, IteratorCloseOnException_after]
    simp
  · intro w4 w5 w6 w7 w8 next next_value k v exception h1 h2 h3 h4 h5 h6 h7
    have h := MapConstructor_after_steps hmres hmprod hmfuel
      (MapConstructor_loop_call_fails rt _ _ _ h1 h2 h3 h4 h5 h6 h7)
    refine ⟨h, ?_⟩
    rw [h, IteratorCloseOnException_after]
    simp
  · intro w4 w5 w6 next next_value exception h1 h2 h3
    have h := SetConstructor_after_steps hsres hsprod hsfuel
      (SetConstructor_loop_call_fails rt _ _ _ h1 h2 h3)
    refine ⟨h, ?_⟩
    rw [h, IteratorCloseOnException_after]
    simp
  · intro w4 exception h1
    exact MapConstructor_after_steps hmres hmprod hmfuel
      (MapConstructor_loop_step_fails rt _ _ _ h1)
  · intro w4 w5 next exception h1 h2
    exact MapConstructor_after_steps hmres hmprod hmfuel
      (MapConstructor_loop_value_fails rt _ _ _ h1 h2)
  · intro w4 exception h1
    exact SetConstructor_after_steps hsres hsprod hsfuel
      (SetConstructor_loop_step_fails rt _ _ _ h1)
  · intro w4 w5 next exception h1 h2
    exact SetConstructor_after_steps hsres hsprod hsfuel
      (SetConstructor_loop_value_fails rt _ _ _ h1 h2)

/-- C13, amended, on the sample heap with the insertion method that throws:
both constructors run the close path (host state 100) and rethrow "boom". -/
theorem failure_during_iteration_witness :
    MapConstructor callFailsRuntime OrderedHashMap true 1000 sampleContext 3
        ⟨sampleHeap, 0⟩ (.object 0) [.object 5] =
      some ⟨mapWorld 100, .Throw (.Thrown (.string "boom")),
        [.AllocateJSCollection (.object 4), .AllocateOrderedHashTable,
         .StoreObjectField (.object 4),
         .GetProperty (.object 4) "set", .GetIterator (.object 5),
         .IteratorStep (.object 8), .IteratorValue (.object 7),
         .GetProperty (.object 6) "0", .GetProperty (.object 6) "1",
         .CallJS (.object 9) (.object 4) [.smi 7, .smi 7],
         .IteratorCloseOnException (.object 8) (.Thrown (.string "boom"))]⟩ ∧
    SetConstructor callFailsRuntime OrderedHashSet true 1000 sampleContext 3
        ⟨sampleHeap, 0⟩ (.object 0) [.object 5] =
      some ⟨setWorld 100, .Throw (.Thrown (.string "boom")),
        [.EmitFastNewObject (.object 4), .AllocateOrderedHashTable,
         .StoreObjectField (.object 4),
         .GetProperty (.object 4) "add", .GetIterator (.object 5),
         .IteratorStep (.object 8), .IteratorValue (.object 7),
         .CallJS (.object 9) (.object 4) [.object 6],
         .IteratorCloseOnException (.object 8) (.Thrown (.string "boom"))]⟩ :=
  have h := failure_during_iteration callFailsRuntime OrderedHashMap OrderedHashSet true
    1000 sampleContext 3 ⟨sampleHeap, 0⟩ (.object 0) [.object 5]
    .JS_MAP_TYPE .JS_SET_TYPE freshMapTable freshSetTable
    (.object 9) (.object 8) (.object 9) (.object 8)
    (mapWorld 0) (mapWorld 0) (setWorld 0) (setWorld 0) [] []
    ⟨by decide, by decide, by decide, ⟨⟨_, rfl, (fun _ => rfl), rfl⟩, by decide⟩,
      ⟨mapWorld 0, rfl, rfl, rfl, rfl⟩, by decide⟩
    (MapProduces.done _) (by decide)
    ⟨by decide, by decide, by decide, ⟨⟨_, rfl, (fun _ => rfl), rfl⟩, by decide⟩,
      ⟨setWorld 0, rfl, rfl, rfl, rfl⟩, by decide⟩
    (SetProduces.done _) (by decide)
  ⟨(h.2.2.1 (mapWorld 1) (mapWorld 1) (mapWorld 1) (mapWorld 1) (mapWorld 1)
      (.object 7) (.object 6) (.smi 7) (.smi 7) (.Thrown (.string "boom"))
      rfl rfl rfl rfl rfl rfl rfl).1,
    (h.2.2.2.1 (setWorld 1) (setWorld 1) (setWorld 1) (.object 7) (.object 6)
      (.Thrown (.string "boom")) rfl rfl rfl).1⟩


/-! ## The insertion method -/

/-- With a callable insertion method, an exception that leaves `MapConstructor`
was thrown by a collaborator or is the error of a primitive element. -/
theorem MapConstructor_callable_throw {σ : Type} (rt : Runtime σ) (M : CollectionType)
    (debug_code : Bool) (kMaxRegularLength : Nat) (context : Context) (fuel : Nat)
    (w w1 : World σ) (new_target : Value) (args : List Value)
    (initial_map : InstanceType) (table : FixedArray) (adder : Value)
    (hnt : new_target ≠ .undefined)
    (hu : GetOptionalArgumentValue args 0 ≠ .undefined)
    (hn : GetOptionalArgumentValue args 0 ≠ .null)
    (halloc : Allocates M debug_code kMaxRegularLength w.heap context.JS_MAP_FUN
      initial_map table)
    (hget : rt.GetProperty ⟨heapWithShell w.heap initial_map table, w.host⟩
      (.object w.heap.length) "set" = (w1, .ok adder))
    (hcall : (TaggedIsSmi adder || !rt.IsCallable w1 adder) = false)
    (run : Run σ) (exception : Exception)
    (h : MapConstructor rt M debug_code kMaxRegularLength context fuel w new_target args =
      some run)
    (hc : run.completion = .Throw exception) :
    rt.throws exception ∨
      ∃ value, exception = .TypeError .kIteratorValueNotAnObject [value] := by
  have hnt2 : IsUndefined new_target = false := by simp [IsUndefined, hnt]
  have ha := allocation_ok debug_code w.heap context.JS_MAP_FUN new_target initial_map
    halloc.function
  unfold heapWithShell at hget
  simp only [MapConstructor, hnt2, Bool.false_eq_true, if_false, ha, halloc.table,
    StoreTableField_new, source_present hu hn, hget, hcall] at h
  split at h
  · rename_i w2 e2 heq2
    cases h
    cases hc
    exact Or.inl (Or.inr (Or.inl ⟨_, _, by rw [heq2]⟩))
  · split at h
    · cases h
      cases hc
    · obtain ⟨run1, hrun1, rfl⟩ := Option.map_eq_some'.mp h
      exact MapConstructor_loop_throw rt _ _ _ fuel _ run1 hrun1 exception hc

/-- With a callable insertion method, an exception that leaves `SetConstructor`
was thrown by a collaborator. -/
theorem SetConstructor_callable_throw {σ : Type} (rt : Runtime σ) (S : CollectionType)
    (debug_code : Bool) (kMaxRegularLength : Nat) (context : Context) (fuel : Nat)
    (w w1 : World σ) (new_target : Value) (args : List Value)
    (initial_map : InstanceType) (table : FixedArray) (adder : Value)
    (hnt : new_target ≠ .undefined)
    (hu : GetOptionalArgumentValue args 0 ≠ .undefined)
    (hn : GetOptionalArgumentValue args 0 ≠ .null)
    (halloc : Allocates S debug_code kMaxRegularLength w.heap context.JS_SET_FUN
      initial_map table)
    (hget : rt.GetProperty ⟨heapWithShell w.heap initial_map table, w.host⟩
      (.object w.heap.length) "add" = (w1, .ok adder))
    (hcall : (TaggedIsSmi adder || !rt.IsCallable w1 adder) = false)
    (run : Run σ) (exception : Exception)
    (h : SetConstructor rt S debug_code kMaxRegularLength context fuel w new_target args =
      some run)
    (hc : run.completion = .Throw exception) :
    rt.throws exception := by
  have hnt2 : IsUndefined new_target = false := by simp [IsUndefined, hnt]
  have ha := allocation_ok debug_code w.heap context.JS_SET_FUN new_target initial_map
    halloc.function
  unfold heapWithShell at hget
  simp only [SetConstructor, hnt2, Bool.false_eq_true, if_false, ha, halloc.table,
    StoreTableField_new, source_present hu hn, hget, hcall] at h
  split at h
  · rename_i w2 e2 heq2
    cases h
    cases hc
    exact Or.inr (Or.inl ⟨_, _, by rw [heq2]⟩)
  · split at h
    · cases h
      cases hc
    · obtain ⟨run1, hrun1, rfl⟩ := Option.map_eq_some'.mp h
      exact SetConstructor_loop_throw rt _ _ _ fuel _ run1 hrun1 exception hc


/-- C14: take a defined new-target, a source that is neither undefined nor
null, and let the read of `set` (Map) or `add` (Set) on the shell give the
value `adder`. If `adder` is a small integer or is not callable, the
constructor throws the property-not-a-function type error, with any fuel; its
trace is the allocation followed by the read of the property, so no iterator
is obtained, the source is not stepped and no insertion is attempted. If
`adder` is callable, a run that ends with a property-not-a-function error got
it from a collaborator: the constructor does not raise it. -/
theorem insertion_method_check {σ : Type} (rt : Runtime σ) (M S : CollectionType)
    (debug_code : Bool) (kMaxRegularLength : Nat) (context : Context) (fuel : Nat)
    (w : World σ) (new_target : Value) (args : List Value)
    (map_type set_type : InstanceType) (map_table set_table : FixedArray)
    (m1 s1 : World σ) (map_adder set_adder : Value)
    (hnt : new_target ≠ .undefined)
    (hu : GetOptionalArgumentValue args 0 ≠ .undefined)
    (hn : GetOptionalArgumentValue args 0 ≠ .null)
    (hmalloc : Allocates M debug_code kMaxRegularLength w.heap context.JS_MAP_FUN
      map_type map_table)
    (hmget : rt.GetProperty ⟨heapWithShell w.heap map_type map_table, w.host⟩
      (.object w.heap.length) "set" = (m1, .ok map_adder))
    (hsalloc : Allocates S debug_code kMaxRegularLength w.heap context.JS_SET_FUN
      set_type set_table)
    (hsget : rt.GetProperty ⟨heapWithShell w.heap set_type set_table, w.host⟩
      (.object w.heap.length) "add" = (s1, .ok set_adder)) :
    ((TaggedIsSmi map_adder || !rt.IsCallable m1 map_adder) = true →
      ∃ run,
        MapConstructor rt M debug_code kMaxRegularLength context fuel w new_target args =
          some run ∧
        (∃ message_args,
          run.completion = .Throw (.TypeError .kPropertyNotFunction message_args)) ∧
        run.world = m1 ∧
        run.trace = initEvents context.JS_MAP_FUN new_target (.object w.heap.length) ++
          [.GetProperty (.object w.heap.length) "set"] ∧
        (∀ ev ∈ run.trace, ev.isIteration = false)) ∧
    ((TaggedIsSmi map_adder || !rt.IsCallable m1 map_adder) = false →
      ∀ run message_args,
        MapConstructor rt M debug_code kMaxRegularLength context fuel w new_target args =
          some run →
        run.completion = .Throw (.TypeError .kPropertyNotFunction message_args) →
        rt.throws (.TypeError .kPropertyNotFunction message_args)) ∧
    ((TaggedIsSmi set_adder || !rt.IsCallable s1 set_adder) = true →
      ∃ run,
        SetConstructor rt S debug_code kMaxRegularLength context fuel w new_target args =
          some run ∧
        (∃ message_args,
          run.completion = .Throw (.TypeError .kPropertyNotFunction message_args)) ∧
        run.world = s1 ∧
        run.trace = initEvents context.JS_SET_FUN new_target (.object w.heap.length) ++
          [.GetProperty (.object w.heap.length) "add"] ∧
        (∀ ev ∈ run.trace, ev.isIteration = false)) ∧
    ((TaggedIsSmi set_adder || !rt.IsCallable s1 set_adder) = false →
      ∀ run message_args,
        SetConstructor rt S debug_code kMaxRegularLength context fuel w new_target args =
          some run →
        run.completion = .Throw (.TypeError .kPropertyNotFunction message_args) →
        rt.throws (.TypeError .kPropertyNotFunction message_args)) := by
  have quiet : ∀ (f shell : Value) (name : String),
      ∀ ev ∈ initEvents f new_target shell ++ [Event.GetProperty shell name],
        ev.isIteration = false := by
    intro f shell name ev hev
    simp only [initEvents, List.mem_append, List.mem_cons, List.mem_singleton,
      List.not_mem_nil, or_false] at hev
    rcases hev with (rfl | rfl | rfl) | rfl
    · split <;> rfl
    · rfl
    · rfl
    · rfl
  refine ⟨?_, ?_, ?_, ?_⟩
  · intro hcall
    exact ⟨_, MapConstructor_not_callable rt M debug_code kMaxRegularLength context fuel w m1
      new_target args map_type map_table map_adder hnt hu hn hmalloc hmget hcall,
      ⟨_, rfl⟩, rfl, rfl, quiet _ _ _⟩
  · intro hcall run message_args h hc
    rcases MapConstructor_callable_throw rt M debug_code kMaxRegularLength context fuel w m1
      new_target args map_type map_table map_adder hnt hu hn hmalloc hmget hcall run _ h hc
      with h1 | ⟨_, h1⟩
    · exact h1
    · cases h1
  · intro hcall
    exact ⟨_, SetConstructor_not_callable rt S debug_code kMaxRegularLength context fuel w s1
      new_target args set_type set_table set_adder hnt hu hn hsalloc hsget hcall,
      ⟨_, rfl⟩, rfl, rfl, quiet _ _ _⟩
  · intro hcall run message_args h hc
    exact SetConstructor_callable_throw rt S debug_code kMaxRegularLength context fuel w s1
      new_target args set_type set_table set_adder hnt hu hn hsalloc hsget hcall run _ h hc

/-- C14 on the sample heap with the insertion-method property that holds the
small integer 1: both constructors throw before any iterator is obtained, with
no fuel at all. -/
theorem insertion_method_check_witness :
    (∃ run,
      MapConstructor notCallableRuntime OrderedHashMap true 1000 sampleContext 0
        ⟨sampleHeap, 0⟩ (.object 0) [.object 5] = some run ∧
      (∃ message_args,
        run.completion = .Throw (.TypeError .kPropertyNotFunction message_args)) ∧
      run.world = mapWorld 0 ∧
      run.trace = [.AllocateJSCollection (.object 4), .AllocateOrderedHashTable,
        .StoreObjectField (.object 4), .GetProperty (.object 4) "set"] ∧
      (∀ ev ∈ run.trace, ev.isIteration = false)) ∧
    (∃ run,
      SetConstructor notCallableRuntime OrderedHashSet true 1000 sampleContext 0
        ⟨sampleHeap, 0⟩ (.object 0) [.object 5] = some run ∧
      (∃ message_args,
        run.completion = .Throw (.TypeError .kPropertyNotFunction message_args)) ∧
      run.world = setWorld 0 ∧
      run.trace = [.EmitFastNewObject (.object 4), .AllocateOrderedHashTable,
        .StoreObjectField (.object 4), .GetProperty (.object 4) "add"] ∧
      (∀ ev ∈ run.trace, ev.isIteration = false)) :=
  have h := insertion_method_check notCallableRuntime OrderedHashMap OrderedHashSet true
    1000 sampleContext 0 ⟨sampleHeap, 0⟩ (.object 0) [.object 5]
    .JS_MAP_TYPE .JS_SET_TYPE freshMapTable freshSetTable (mapWorld 0) (setWorld 0)
    (.smi 1) (.smi 1) (by decide) (by decide) (by decide)
    ⟨⟨_, rfl, (fun _ => rfl), rfl⟩, by decide⟩ rfl
    ⟨⟨_, rfl, (fun _ => rfl), rfl⟩, by decide⟩ rfl
  ⟨h.1 rfl, h.2.2.1 rfl⟩


/-- C16, on the code: with `Map.prototype.set` holding the small integer 1,
`MapConstructor` reads the property `set` of the shell and throws the
property-not-a-function error with the property name "add"; `SetConstructor`,
in the same situation, reads `add` and names "add". -/
theorem MapConstructor_names_add :
    MapConstructor notCallableRuntime OrderedHashMap true 1000 sampleContext 0
        ⟨sampleHeap, 0⟩ (.object 0) [.object 5] =
      some ⟨mapWorld 0,
        .Throw (.TypeError .kPropertyNotFunction [.smi 1, .string "add", .object 4]),
        [.AllocateJSCollection (.object 4), .AllocateOrderedHashTable,
         .StoreObjectField (.object 4), .GetProperty (.object 4) "set"]⟩ ∧
    SetConstructor notCallableRuntime OrderedHashSet true 1000 sampleContext 0
        ⟨sampleHeap, 0⟩ (.object 1) [.object 5] =
      some ⟨setWorld 0,
        .Throw (.TypeError .kPropertyNotFunction [.smi 1, .string "add", .object 4]),
        [.AllocateJSCollection (.object 4), .AllocateOrderedHashTable,
         .StoreObjectField (.object 4), .GetProperty (.object 4) "add"]⟩ := by
  refine ⟨by decide, by decide⟩

/-! ## The lookups are pure reads -/

/-- More fuel does not change the result of a walk that ended. -/
theorem walkChain_more_fuel (M : CollectionType) (debug_code : Bool) (table : FixedArray)
    (k number_of_buckets : Int) :
    ∀ (fuel : Nat) (entry : Int) (walk : Walk),
      walkChain M debug_code table k number_of_buckets fuel entry = some walk →
      walkChain M debug_code table k number_of_buckets (fuel + 1) entry = some walk := by
  intro fuel
  induction fuel with
  | zero =>
    intro entry walk h
    simp [walkChain] at h
  | succ f ih =>
    intro entry walk h
    rw [walkChain] at h ⊢
    by_cases h1 : entry = M.kNotFound
    · simp only [h1, if_true] at h ⊢
      exact h
    · simp only [h1, if_false] at h ⊢
      cases h2 : rangeCheck M debug_code table entry with
      | none =>
        simp only [h2] at h ⊢
        exact h
      | some ok =>
        cases ok with
        | false =>
          simp only [h2] at h ⊢
          exact h
        | true =>
          simp only [h2] at h ⊢
          cases h3 : LoadFixedArrayElement table
              (entry * M.kEntrySize + number_of_buckets) M.kHashTableStartIndex with
          | none =>
            simp only [h3] at h ⊢
            exact h
          | some candidate =>
            simp only [h3] at h ⊢
            by_cases h4 : keyComparison candidate k = true
            · simp only [h4, if_true] at h ⊢
              exact h
            · simp only [h4, if_false] at h ⊢
              cases h5 : (LoadFixedArrayElement table
                  (entry * M.kEntrySize + number_of_buckets)
                  (M.kHashTableStartIndex + M.kChainOffset : Nat)).bind SmiUntag with
              | none =>
                simp only [h5] at h ⊢
                exact h
              | some next =>
                simp only [h5] at h ⊢
                obtain ⟨w1, hw1, rfl⟩ := Option.map_eq_some'.mp h
                rw [ih next w1 hw1]
                rfl

theorem walkChain_fuel_le (M : CollectionType) (debug_code : Bool) (table : FixedArray)
    (k number_of_buckets : Int) {fuel fuel2 : Nat} (hle : fuel ≤ fuel2) {entry : Int}
    {walk : Walk}
    (h : walkChain M debug_code table k number_of_buckets fuel entry = some walk) :
    walkChain M debug_code table k number_of_buckets fuel2 entry = some walk := by
  induction hle with
  | refl => exact h
  | step _ ih => exact walkChain_more_fuel M debug_code table k number_of_buckets _ _ _ ih

/-- Two walks that end, whatever their fuel, are the same walk. -/
theorem FindOrderedHashMapEntryForSmiKey_deterministic (ext : ExternalReference)
    (M : CollectionType) (debug_code : Bool) (table : FixedArray) (key_tagged : Value)
    {fuel1 fuel2 : Nat} {walk1 walk2 : Walk}
    (h1 : FindOrderedHashMapEntryForSmiKey ext M debug_code fuel1 table key_tagged =
      some walk1)
    (h2 : FindOrderedHashMapEntryForSmiKey ext M debug_code fuel2 table key_tagged =
      some walk2) :
    walk1 = walk2 := by
  unfold FindOrderedHashMapEntryForSmiKey at h1 h2
  cases hk : SmiUntag key_tagged with
  | none =>
    simp only [hk] at h1 h2
    rw [h1] at h2
    exact Option.some.inj h2
  | some key =>
    simp only [hk] at h1 h2
    cases hb : (LoadFixedArrayElement table M.kNumberOfBucketsIndex 0).bind SmiUntag with
    | none =>
      simp only [hb] at h1 h2
      rw [h1] at h2
      exact Option.some.inj h2
    | some number_of_buckets =>
      simp only [hb] at h1 h2
      cases hf : (LoadFixedArrayElement table
          (WordAnd (ext.ComputeIntegerHash key 0) (number_of_buckets - 1))
          M.kHashTableStartIndex).bind SmiUntag with
      | none =>
        simp only [hf] at h1 h2
        rw [h1] at h2
        exact Option.some.inj h2
      | some first_entry =>
        simp only [hf] at h1 h2
        obtain ⟨w1, hw1, rfl⟩ := Option.map_eq_some'.mp h1
        obtain ⟨w2, hw2, rfl⟩ := Option.map_eq_some'.mp h2
        have e1 := walkChain_fuel_le M debug_code table _ _ (Nat.le_max_left fuel1 fuel2) hw1
        have e2 := walkChain_fuel_le M debug_code table _ _ (Nat.le_max_right fuel1 fuel2) hw2
        rw [e1] at e2
        rw [Option.some.inj e2]

theorem isRead_of_isTableLoad {ev : Event} (h : ev.isTableLoad = true) : ev.isRead = true := by
  cases ev <;> simp_all [Event.isTableLoad, Event.isRead]

theorem MapGet_smi_reads (ext : ExternalReference) (M : CollectionType)
    (debug_code : Bool) {heap : Heap} {receiver : Value} {table : FixedArray} (k : Int)
    (fuel : Nat)
    (hrecv : LoadInstanceType heap receiver = some .JS_MAP_TYPE)
    (htable : LoadTableField heap receiver = some table) (out : Outcome)
    (h : MapGet ext M debug_code heap fuel receiver (.smi k) = some out) :
    ∃ walk, FindOrderedHashMapEntryForSmiKey ext M debug_code fuel table (.smi k) =
        some walk ∧
      (∀ ev ∈ out.trace, ev.isRead = true) ∧
      out.completion =
        (match walk.exit with
          | .entry_found position =>
            match LoadFixedArrayElement table position
                (M.kHashTableStartIndex + M.kValueOffset : Nat) with
            | some value => .Return value
            | none => .Fault
          | .not_found => .Return .undefined
          | other => walkFailure other) := by
  unfold MapGet at h
  simp only [ThrowIfNotInstanceType_pass _ hrecv, htable, TaggedIsSmi, if_true] at h
  obtain ⟨walk, hw, rfl⟩ := Option.map_eq_some'.mp h
  have hloads := FindOrderedHashMapEntryForSmiKey_trace ext M debug_code fuel table _ walk hw
  refine ⟨walk, hw, ?_, ?_⟩
  · intro ev hev
    cases hx : walk.exit with
    | entry_found position =>
      simp only [hx] at hev
      cases hl : LoadFixedArrayElement table position
          (M.kHashTableStartIndex + M.kValueOffset : Nat) <;>
        · simp only [hl, List.mem_cons, List.mem_append, List.mem_singleton,
            List.not_mem_nil, or_false] at hev
          rcases hev with (rfl | hev) | rfl
          · rfl
          · exact isRead_of_isTableLoad (hloads ev hev)
          · rfl
    | not_found =>
      simp only [hx, List.mem_cons] at hev
      rcases hev with rfl | hev
      · rfl
      · exact isRead_of_isTableLoad (hloads ev hev)
    | assert_failed =>
      simp only [hx, List.mem_cons] at hev
      rcases hev with rfl | hev
      · rfl
      · exact isRead_of_isTableLoad (hloads ev hev)
    | fault =>
      simp only [hx, List.mem_cons] at hev
      rcases hev with rfl | hev
      · rfl
      · exact isRead_of_isTableLoad (hloads ev hev)
  · cases hx : walk.exit with
    | entry_found position =>
      simp only
      cases LoadFixedArrayElement table position
          (M.kHashTableStartIndex + M.kValueOffset : Nat) <;> rfl
    | not_found => rfl
    | assert_failed => rfl
    | fault => rfl

theorem MapHas_smi_reads (ext : ExternalReference) (M : CollectionType)
    (debug_code : Bool) {heap : Heap} {receiver : Value} {table : FixedArray} (k : Int)
    (fuel : Nat)
    (hrecv : LoadInstanceType heap receiver = some .JS_MAP_TYPE)
    (htable : LoadTableField heap receiver = some table) (out : Outcome)
    (h : MapHas ext M debug_code heap fuel receiver (.smi k) = some out) :
    ∃ walk, FindOrderedHashMapEntryForSmiKey ext M debug_code fuel table (.smi k) =
        some walk ∧
      (∀ ev ∈ out.trace, ev.isRead = true) ∧
      out.completion =
        (match walk.exit with
          | .entry_found _ => .Return .true_value
          | .not_found => .Return .false_value
          | other => walkFailure other) := by
  unfold MapHas at h
  simp only [ThrowIfNotInstanceType_pass _ hrecv, htable, TaggedIsSmi, if_true] at h
  obtain ⟨walk, hw, rfl⟩ := Option.map_eq_some'.mp h
  have hloads := FindOrderedHashMapEntryForSmiKey_trace ext M debug_code fuel table _ walk hw
  refine ⟨walk, hw, ?_, ?_⟩
  · intro ev hev
    cases hx : walk.exit <;>
      · simp only [hx, List.mem_cons] at hev
        rcases hev with rfl | hev
        · rfl
        · exact isRead_of_isTableLoad (hloads ev hev)
  · cases hx : walk.exit <;> rfl


/-- C15: `MapGet` and `MapHas` with a small-integer key, on receivers that pass
the type check, only read. The embedding of the two builtins takes the heap
and gives no heap back; every event of a run is the load of the table field or
the load of a slot of the table, so the header, the buckets, the data slots and
the table field are after the call what they were before. The result is a
function of the table and the key alone: two runs on the same table and key
return the same result, whatever the receiver, the rest of the heap and the
fuel. -/
theorem lookup_pure_read (ext : ExternalReference) (M : CollectionType)
    (debug_code : Bool) (heap1 heap2 : Heap) (receiver1 receiver2 : Value)
    (table : FixedArray) (k : Int) (fuel1 fuel2 : Nat)
    (hrecv1 : LoadInstanceType heap1 receiver1 = some .JS_MAP_TYPE)
    (htable1 : LoadTableField heap1 receiver1 = some table)
    (hrecv2 : LoadInstanceType heap2 receiver2 = some .JS_MAP_TYPE)
    (htable2 : LoadTableField heap2 receiver2 = some table) :
    (∀ out, MapGet ext M debug_code heap1 fuel1 receiver1 (.smi k) = some out →
      ∀ ev ∈ out.trace, ev.isRead = true) ∧
    (∀ out, MapHas ext M debug_code heap1 fuel1 receiver1 (.smi k) = some out →
      ∀ ev ∈ out.trace, ev.isRead = true) ∧
    (∀ out1 out2,
      MapGet ext M debug_code heap1 fuel1 receiver1 (.smi k) = some out1 →
      MapGet ext M debug_code heap2 fuel2 receiver2 (.smi k) = some out2 →
      out1.completion = out2.completion) ∧
    (∀ out1 out2,
      MapHas ext M debug_code heap1 fuel1 receiver1 (.smi k) = some out1 →
      MapHas ext M debug_code heap2 fuel2 receiver2 (.smi k) = some out2 →
      out1.completion = out2.completion) := by
  refine ⟨?_, ?_, ?_, ?_⟩
  · intro out h
    obtain ⟨_, _, hr, _⟩ := MapGet_smi_reads ext M debug_code k fuel1 hrecv1 htable1 out h
    exact hr
  · intro out h
    obtain ⟨_, _, hr, _⟩ := MapHas_smi_reads ext M debug_code k fuel1 hrecv1 htable1 out h
    exact hr
  · intro out1 out2 h1 h2
    obtain ⟨walk1, hw1, _, hc1⟩ :=
      MapGet_smi_reads ext M debug_code k fuel1 hrecv1 htable1 out1 h1
    obtain ⟨walk2, hw2, _, hc2⟩ :=
      MapGet_smi_reads ext M debug_code k fuel2 hrecv2 htable2 out2 h2
    rw [hc1, hc2, FindOrderedHashMapEntryForSmiKey_deterministic ext M debug_code table _
      hw1 hw2]
  · intro out1 out2 h1 h2
    obtain ⟨walk1, hw1, _, hc1⟩ :=
      MapHas_smi_reads ext M debug_code k fuel1 hrecv1 htable1 out1 h1
    obtain ⟨walk2, hw2, _, hc2⟩ :=
      MapHas_smi_reads ext M debug_code k fuel2 hrecv2 htable2 out2 h2
    rw [hc1, hc2, FindOrderedHashMapEntryForSmiKey_deterministic ext M debug_code table _
      hw1 hw2]

/-- C15 on two heaps that hold the sample table, with the key 3 and the fuels 3
and 7: both runs of `MapGet` only load and both return the value "a". -/
theorem lookup_pure_read_witness :
    ∃ out1 out2,
      MapGet sampleExternal OrderedHashMap false sampleHeap 3 (.object 2) (.smi 3) =
        some out1 ∧
      MapGet sampleExternal OrderedHashMap false singleMapHeap 7 (.object 0) (.smi 3) =
        some out2 ∧
      (∀ ev ∈ out1.trace, ev.isRead = true) ∧
      out1.completion = out2.completion ∧
      out1.completion = .Return (.string "a") :=
  have h := lookup_pure_read sampleExternal OrderedHashMap false sampleHeap singleMapHeap
    (.object 2) (.object 0) sampleTable 3 3 7 (by decide) (by decide) (by decide)
    (by decide)
  ⟨⟨.Return (.string "a"),
      [.LoadObjectField (.object 2), .LoadFixedArrayElement 2,
        .LoadFixedArrayElement 4, .LoadFixedArrayElement 8, .LoadFixedArrayElement 10,
        .LoadFixedArrayElement 5, .LoadFixedArrayElement 6]⟩,
    ⟨.Return (.string "a"),
      [.LoadObjectField (.object 0), .LoadFixedArrayElement 2,
        .LoadFixedArrayElement 4, .LoadFixedArrayElement 8, .LoadFixedArrayElement 10,
        .LoadFixedArrayElement 5, .LoadFixedArrayElement 6]⟩,
    by decide, by decide, h.1 _ (by decide), h.2.2.1 _ _ (by decide) (by decide), rfl⟩

/-! ## The walk on a table that satisfies the invariants -/

theorem LoadFixedArrayElement_inside (table : FixedArray) (index offset : Int)
    (h0 : 0 ≤ index + offset) (h1 : index + offset < table.length) :
    ∃ value, LoadFixedArrayElement table index offset = some value := by
  have h2 : (index + offset).toNat < table.length := by omega
  exact ⟨table[(index + offset).toNat], by
    simp [LoadFixedArrayElement, h0, List.getElem?_eq_getElem h2]⟩

theorem LoadFixedArrayElement_some (table : FixedArray) (index offset : Int) (value : Value)
    (h : LoadFixedArrayElement table index offset = some value) :
    0 ≤ index + offset ∧ index + offset < table.length := by
  unfold LoadFixedArrayElement at h
  split at h
  · rename_i h0
    refine ⟨h0, ?_⟩
    by_contra hlt
    have : table.length ≤ (index + offset).toNat := by omega
    rw [List.getElem?_eq_none this] at h
    cases h
  · cases h

theorem signed32_eq (x : Int) (h0 : -(2 ^ 31) ≤ x) (h1 : x < 2 ^ 31) : signed32 x = x := by
  unfold signed32
  omega

theorem slot_bound (e C E co : Int) (h0 : 0 ≤ e) (h1 : e < C) (h2 : 0 ≤ co) (h3 : co < E) :
    0 ≤ e * E + co ∧ e * E + co < C * E := by
  have hE : 0 ≤ E := by omega
  have h4 : (e + 1) * E ≤ C * E := mul_le_mul_of_nonneg_right (by omega) hE
  have h5 : 0 ≤ e * E := mul_nonneg h0 hE
  constructor
  · omega
  · nlinarith


theorem entryInRange_inside (M : CollectionType) (table : FixedArray)
    (live deleted entry : Int)
    (hlive : LoadFixedArrayElement table M.kNumberOfElementsIndex 0 = some (.smi live))
    (hdeleted : LoadFixedArrayElement table M.kNumberOfDeletedElementsIndex 0 =
      some (.smi deleted))
    (hsum : live + deleted < 2 ^ 31) (h0 : 0 ≤ entry) (h1 : entry < live + deleted) :
    entryInRange M table entry = some true := by
  have hs : signed32 (live + deleted) = live + deleted := signed32_eq _ (by omega) hsum
  have he : entry % 2 ^ 64 = entry := Int.emod_eq_of_lt h0 (by omega)
  have hl : (live + deleted) % 2 ^ 64 = live + deleted := Int.emod_eq_of_lt (by omega) (by omega)
  simp only [entryInRange, hlive, hdeleted, Option.some_bind, SmiAdd, SmiUntag, hs,
    Option.map_some', UintPtrLessThan, he, hl, h1, decide_True]

/-- What the invariants give for an entry below live plus deleted: the count
is below 2^31, the key slot and the chain-link slot are inside the table. -/
theorem TableInvariants.entry_slots {M : CollectionType} {table : FixedArray}
    {number_of_buckets live deleted : Int}
    (hinv : TableInvariants M table number_of_buckets live deleted)
    (hoffset : M.kChainOffset < M.kEntrySize)
    (entry : Int) (h0 : 0 ≤ entry) (h1 : entry < live + deleted) :
    live + deleted ≤ table.length ∧
    (0 ≤ keySlot M (entry * M.kEntrySize + number_of_buckets) ∧
      keySlot M (entry * M.kEntrySize + number_of_buckets) < table.length) ∧
    (0 ≤ chainSlot M (entry * M.kEntrySize + number_of_buckets) ∧
      chainSlot M (entry * M.kEntrySize + number_of_buckets) < table.length) := by
  obtain ⟨j, hj⟩ := hinv.power_of_two
  have hnb : (0 : Int) < number_of_buckets := by rw [hj]; positivity
  have hcounts := hinv.counts
  have hlength := hinv.length
  have hco : ((M.kChainOffset : Nat) : Int) < (M.kEntrySize : Int) := by exact_mod_cast hoffset
  have hE : (1 : Int) ≤ (M.kEntrySize : Int) := by omega
  have hC : 0 < number_of_buckets * (M.kLoadFactor : Int) := by omega
  have hkey := slot_bound entry (number_of_buckets * (M.kLoadFactor : Int))
    (M.kEntrySize : Int) 0 h0 (by omega) (le_refl 0) (by omega)
  have hlink := slot_bound entry (number_of_buckets * (M.kLoadFactor : Int))
    (M.kEntrySize : Int) (M.kChainOffset : Int) h0 (by omega) (by omega) hco
  have hCE : number_of_buckets * (M.kLoadFactor : Int) ≤
      number_of_buckets * (M.kLoadFactor : Int) * (M.kEntrySize : Int) := by nlinarith
  simp only [keySlot, chainSlot]
  push_cast
  refine ⟨by omega, ⟨by omega, by omega⟩, ⟨by omega, by omega⟩⟩


theorem rangeCheck_inside (M : CollectionType) (debug_code : Bool) (table : FixedArray)
    (live deleted entry : Int)
    (hlive : LoadFixedArrayElement table M.kNumberOfElementsIndex 0 = some (.smi live))
    (hdeleted : LoadFixedArrayElement table M.kNumberOfDeletedElementsIndex 0 =
      some (.smi deleted))
    (hsum : live + deleted < 2 ^ 31) (h0 : 0 ≤ entry) (h1 : entry < live + deleted) :
    rangeCheck M debug_code table entry = some true := by
  cases debug_code with
  | false => rfl
  | true =>
    simp only [rangeCheck, if_true]
    exact entryInRange_inside M table live deleted entry hlive hdeleted hsum h0 h1

theorem rangeCheckLoads_inside (M : CollectionType) (debug_code : Bool) (table : FixedArray)
    (live deleted : Value)
    (hlive : LoadFixedArrayElement table M.kNumberOfElementsIndex 0 = some live)
    (hdeleted : LoadFixedArrayElement table M.kNumberOfDeletedElementsIndex 0 = some deleted)
    (slot : Int) (h : Event.LoadFixedArrayElement slot ∈ rangeCheckLoads M debug_code) :
    0 ≤ slot ∧ slot < table.length := by
  have h1 := LoadFixedArrayElement_some _ _ _ _ hlive
  have h2 := LoadFixedArrayElement_some _ _ _ _ hdeleted
  cases debug_code with
  | false => simp [rangeCheckLoads] at h
  | true =>
    simp only [rangeCheckLoads, if_true, List.mem_cons, List.mem_singleton,
      List.not_mem_nil, or_false, Event.LoadFixedArrayElement.injEq] at h
    rcases h with rfl | rfl
    · simpa using h1
    · simpa using h2

/-- On a table that satisfies the invariants, a walk that starts at the
sentinel or at an entry below live plus deleted ends at `entry_found` or at
`not_found`, and every slot it loads is inside the table. -/
theorem walkChain_inside (M : CollectionType) (debug_code : Bool) (table : FixedArray)
    (k number_of_buckets live deleted : Int)
    (hinv : TableInvariants M table number_of_buckets live deleted)
    (hoffset : M.kChainOffset < M.kEntrySize)
    (hlen : (table.length : Int) < 2 ^ 31) :
    ∀ (fuel : Nat) (entry : Int) (walk : Walk),
      (entry = M.kNotFound ∨ (0 ≤ entry ∧ entry < live + deleted)) →
      walkChain M debug_code table k number_of_buckets fuel entry = some walk →
      (walk.exit = .not_found ∨ ∃ position, walk.exit = .entry_found position) ∧
      ∀ slot, Event.LoadFixedArrayElement slot ∈ walk.trace →
        0 ≤ slot ∧ slot < table.length := by
  intro fuel
  induction fuel with
  | zero =>
    intro entry walk _ h
    simp [walkChain] at h
  | succ f ih =>
    intro entry walk hentry h
    rw [walkChain] at h
    by_cases h1 : entry = M.kNotFound
    · simp only [h1, if_true] at h
      cases h
      exact ⟨Or.inl rfl, fun slot hs => by simp at hs⟩
    · simp only [h1, if_false] at h
      obtain ⟨h0, hlt⟩ := hentry.resolve_left h1
      obtain ⟨hsum, hkey, hlink⟩ := hinv.entry_slots hoffset entry h0 hlt
      have hl := rangeCheckLoads_inside M debug_code table _ _ hinv.live_slot hinv.deleted_slot
      have h2 := rangeCheck_inside M debug_code table live deleted entry hinv.live_slot
        hinv.deleted_slot (by omega) h0 hlt
      simp only [h2] at h
      obtain ⟨candidate, h3⟩ := LoadFixedArrayElement_inside table
        (entry * M.kEntrySize + number_of_buckets) M.kHashTableStartIndex hkey.1 hkey.2
      simp only [h3] at h
      by_cases h4 : keyComparison candidate k = true
      · simp only [h4, if_true] at h
        cases h
        refine ⟨Or.inr ⟨_, rfl⟩, ?_⟩
        intro slot hs
        simp only [List.mem_append, List.mem_singleton,
          Event.LoadFixedArrayElement.injEq] at hs
        rcases hs with hs | rfl
        · exact hl slot hs
        · exact hkey
      · simp only [h4, if_false] at h
        obtain ⟨link, h5⟩ := LoadFixedArrayElement_inside table
          (entry * M.kEntrySize + number_of_buckets)
          ((M.kHashTableStartIndex + M.kChainOffset : Nat) : Int) hlink.1 hlink.2
        obtain ⟨next, rfl, hnext⟩ := hinv.chain_links entry link h0 hlt h5
        simp only [h5, Option.some_bind, SmiUntag] at h
        obtain ⟨w1, hw1, rfl⟩ := Option.map_eq_some'.mp h
        obtain ⟨hexit, hslots⟩ := ih next w1 hnext hw1
        refine ⟨hexit, ?_⟩
        intro slot hs
        simp only [Walk.after, List.mem_append, List.mem_cons, List.mem_singleton,
          List.not_mem_nil, or_false, Event.LoadFixedArrayElement.injEq] at hs
        rcases hs with (hs | rfl | rfl) | hs
        · exact hl slot hs
        · exact hkey
        · exact hlink
        · exact hslots slot hs


/-- The start of the walk on a table that satisfies the invariants: the bucket
slot is inside the table and holds the sentinel or an entry below live plus
deleted, from which the loop starts. -/
theorem FindOrderedHashMapEntryForSmiKey_start (ext : ExternalReference)
    (M : CollectionType) (debug_code : Bool) (table : FixedArray)
    (number_of_buckets live deleted : Int)
    (hinv : TableInvariants M table number_of_buckets live deleted) (k : Int) :
    ∃ first_entry, (first_entry = M.kNotFound ∨ (0 ≤ first_entry ∧ first_entry < live + deleted)) ∧
      (0 ≤ WordAnd (ext.ComputeIntegerHash k 0) (number_of_buckets - 1) +
          M.kHashTableStartIndex ∧
        WordAnd (ext.ComputeIntegerHash k 0) (number_of_buckets - 1) +
          M.kHashTableStartIndex < table.length) ∧
      LoadFixedArrayElement table (WordAnd (ext.ComputeIntegerHash k 0) (number_of_buckets - 1))
        M.kHashTableStartIndex = some (.smi first_entry) ∧
      ∀ fuel, FindOrderedHashMapEntryForSmiKey ext M debug_code fuel table (.smi k) =
        (walkChain M debug_code table k number_of_buckets fuel first_entry).map
          (Walk.after [.LoadFixedArrayElement M.kNumberOfBucketsIndex,
            .LoadFixedArrayElement
              (WordAnd (ext.ComputeIntegerHash k 0) (number_of_buckets - 1) +
                M.kHashTableStartIndex)]) := by
  obtain ⟨j, hj⟩ := hinv.power_of_two
  have hnb : (0 : Int) < number_of_buckets := by rw [hj]; positivity
  have hlength := hinv.length
  obtain ⟨hb0, hb1⟩ := WordAnd_range (ext.ComputeIntegerHash k 0) (number_of_buckets - 1)
    (by omega)
  have hCE : 0 ≤ number_of_buckets * (M.kLoadFactor : Int) * (M.kEntrySize : Int) :=
    mul_nonneg (mul_nonneg (le_of_lt hnb) (Int.natCast_nonneg _)) (Int.natCast_nonneg _)
  have hin : 0 ≤ WordAnd (ext.ComputeIntegerHash k 0) (number_of_buckets - 1) +
        M.kHashTableStartIndex ∧
      WordAnd (ext.ComputeIntegerHash k 0) (number_of_buckets - 1) +
        M.kHashTableStartIndex < table.length := ⟨by omega, by omega⟩
  obtain ⟨head, hhead⟩ := LoadFixedArrayElement_inside table _ _ hin.1 hin.2
  obtain ⟨first_entry, rfl, hfirst⟩ := hinv.bucket_heads _ head hb0 (by omega) hhead
  refine ⟨first_entry, hfirst, hin, hhead, ?_⟩
  intro fuel
  unfold FindOrderedHashMapEntryForSmiKey
  simp only [SmiUntag, hinv.buckets_slot, hhead, Option.some_bind]

/-- One step of the walk on a table that satisfies the invariants, at an
entry below live plus deleted: the range check holds, the key slot is inside
the table, and when the key does not match the chain-link slot is inside the
table and the loop goes on at the sentinel or at an entry below live plus
deleted. -/
theorem walkChain_step_inside (M : CollectionType) (debug_code : Bool) (table : FixedArray)
    (k number_of_buckets live deleted : Int)
    (hinv : TableInvariants M table number_of_buckets live deleted)
    (hoffset : M.kChainOffset < M.kEntrySize)
    (hlen : (table.length : Int) < 2 ^ 31)
    (entry : Int) (hne : entry ≠ M.kNotFound) (h0 : 0 ≤ entry) (hlt : entry < live + deleted) :
    entryInRange M table entry = some true ∧
    UintPtrLessThan entry (live + deleted) = true ∧
    (0 ≤ keySlot M (entry * M.kEntrySize + number_of_buckets) ∧
      keySlot M (entry * M.kEntrySize + number_of_buckets) < table.length) ∧
    (0 ≤ chainSlot M (entry * M.kEntrySize + number_of_buckets) ∧
      chainSlot M (entry * M.kEntrySize + number_of_buckets) < table.length) ∧
    ∃ candidate next, entryKey M table number_of_buckets entry = some candidate ∧
      entryLink M table number_of_buckets entry = some (.smi next) ∧
      (next = M.kNotFound ∨ (0 ≤ next ∧ next < live + deleted)) ∧
      ∀ fuel, walkChain M debug_code table k number_of_buckets (fuel + 1) entry =
        if keyComparison candidate k then
          some ⟨.entry_found (entry * M.kEntrySize + number_of_buckets),
            rangeCheckLoads M debug_code ++
              [.LoadFixedArrayElement (keySlot M (entry * M.kEntrySize + number_of_buckets))]⟩
        else
          (walkChain M debug_code table k number_of_buckets fuel next).map
            (Walk.after (rangeCheckLoads M debug_code ++
              [.LoadFixedArrayElement (keySlot M (entry * M.kEntrySize + number_of_buckets)),
               .LoadFixedArrayElement
                 (chainSlot M (entry * M.kEntrySize + number_of_buckets))])) := by
  obtain ⟨hsum, hkey, hlink⟩ := hinv.entry_slots hoffset entry h0 hlt
  have hcheck := entryInRange_inside M table live deleted entry hinv.live_slot
    hinv.deleted_slot (by omega) h0 hlt
  have h2 := rangeCheck_inside M debug_code table live deleted entry hinv.live_slot
    hinv.deleted_slot (by omega) h0 hlt
  obtain ⟨candidate, h3⟩ := LoadFixedArrayElement_inside table
    (entry * M.kEntrySize + number_of_buckets) M.kHashTableStartIndex hkey.1 hkey.2
  obtain ⟨link, h5⟩ := LoadFixedArrayElement_inside table
    (entry * M.kEntrySize + number_of_buckets)
    ((M.kHashTableStartIndex + M.kChainOffset : Nat) : Int) hlink.1 hlink.2
  obtain ⟨next, rfl, hnext⟩ := hinv.chain_links entry link h0 hlt h5
  have hu : UintPtrLessThan entry (live + deleted) = true := by
    have he : entry % 2 ^ 64 = entry := Int.emod_eq_of_lt h0 (by omega)
    have hl : (live + deleted) % 2 ^ 64 = live + deleted :=
      Int.emod_eq_of_lt (by omega) (by omega)
    simp only [UintPtrLessThan, he, hl, hlt, decide_True]
  refine ⟨hcheck, hu, hkey, hlink, candidate, next, h3, h5, hnext, ?_⟩
  intro fuel
  rw [walkChain]
  simp only [hne, if_false, h2, h3, h5, Option.some_bind, SmiUntag]

theorem FindOrderedHashMapEntryForSmiKey_inside (ext : ExternalReference)
    (M : CollectionType) (debug_code : Bool) (table : FixedArray)
    (number_of_buckets live deleted : Int)
    (hinv : TableInvariants M table number_of_buckets live deleted)
    (hoffset : M.kChainOffset < M.kEntrySize)
    (hlen : (table.length : Int) < 2 ^ 31) (k : Int) (fuel : Nat) (walk : Walk)
    (h : FindOrderedHashMapEntryForSmiKey ext M debug_code fuel table (.smi k) = some walk) :
    (walk.exit = .not_found ∨ ∃ position, walk.exit = .entry_found position) ∧
    ∀ slot, Event.LoadFixedArrayElement slot ∈ walk.trace →
      0 ≤ slot ∧ slot < table.length := by
  obtain ⟨first_entry, hfirst, hin, _, hstart⟩ :=
    FindOrderedHashMapEntryForSmiKey_start ext M debug_code table number_of_buckets live
      deleted hinv k
  rw [hstart fuel] at h
  obtain ⟨w1, hw1, rfl⟩ := Option.map_eq_some'.mp h
  obtain ⟨hexit, hslots⟩ := walkChain_inside M debug_code table k number_of_buckets live
    deleted hinv hoffset hlen fuel first_entry w1 hfirst hw1
  refine ⟨hexit, ?_⟩
  intro slot hs
  simp only [Walk.after, List.mem_append, List.mem_cons, List.mem_singleton,
    List.not_mem_nil, or_false, Event.LoadFixedArrayElement.injEq] at hs
  have hb := LoadFixedArrayElement_some _ _ _ _ hinv.buckets_slot
  rcases hs with (rfl | rfl) | hs
  · simpa using hb
  · exact hin
  · exact hslots slot hs

theorem sampleTable_invariants : TableInvariants OrderedHashMap sampleTable 2 2 0 where
  buckets_slot := by decide
  live_slot := by decide
  deleted_slot := by decide
  power_of_two := ⟨1, by norm_num⟩
  counts := by decide
  length := by decide
  bucket_heads := by
    intro b value h0 h1 h
    have hb : b = 0 ∨ b = 1 := by omega
    rcases hb with rfl | rfl
    · have h2 : LoadFixedArrayElement sampleTable 0 OrderedHashMap.kHashTableStartIndex =
          some (.smi (-1)) := by decide
      rw [h2] at h
      cases h
      exact ⟨-1, rfl, Or.inl rfl⟩
    · have h2 : LoadFixedArrayElement sampleTable 1 OrderedHashMap.kHashTableStartIndex =
          some (.smi 1) := by decide
      rw [h2] at h
      cases h
      exact ⟨1, rfl, Or.inr ⟨by decide, by decide⟩⟩
  chain_links := by
    intro e value h0 h1 h
    have he : e = 0 ∨ e = 1 := by omega
    rcases he with rfl | rfl
    · have h2 : entryLink OrderedHashMap sampleTable 2 0 = some (.smi (-1)) := by decide
      rw [h2] at h
      cases h
      exact ⟨-1, rfl, Or.inl rfl⟩
    · have h2 : entryLink OrderedHashMap sampleTable 2 1 = some (.smi 0) := by decide
      rw [h2] at h
      cases h
      exact ⟨0, rfl, Or.inr ⟨by decide, by decide⟩⟩


/-- C17: take a map table that satisfies the invariants of the data model
(bucket count a positive power of two, live plus deleted entries at most the
capacity, length `kHashTableStartIndex` plus bucket count plus capacity times
`kEntrySize`, every bucket slot and every chain-link slot of an entry below
live plus deleted holding `kNotFound` or an index below live plus deleted),
with the chain link a slot of the entry and the length of the table a small
integer, and a small-integer key `k`. The bucket slot the walk of
`FindOrderedHashMapEntryForSmiKey` loads is inside the table and starts the
loop at the sentinel or at an entry below live plus deleted; at every such
entry the asserted range check holds (the index is below live plus deleted,
compared unsigned), the key slot and the chain-link slot are inside the table,
and the loop either stops at `entry_found` or goes on at the sentinel or at an
entry below live plus deleted; so a walk that ends, whatever the fuel and the
build, ends at `entry_found` or `not_found`, never at a failed assertion or a
load outside the table, and every slot it loaded is inside the table. -/
theorem walk_stays_inside (ext : ExternalReference) (M : CollectionType)
    (table : FixedArray) (number_of_buckets live deleted : Int)
    (hinv : TableInvariants M table number_of_buckets live deleted)
    (hoffset : M.kChainOffset < M.kEntrySize)
    (hlen : (table.length : Int) < 2 ^ 31) (debug_code : Bool) (k : Int) :
    (∃ first_entry,
      (first_entry = M.kNotFound ∨ (0 ≤ first_entry ∧ first_entry < live + deleted)) ∧
      (0 ≤ WordAnd (ext.ComputeIntegerHash k 0) (number_of_buckets - 1) +
          M.kHashTableStartIndex ∧
        WordAnd (ext.ComputeIntegerHash k 0) (number_of_buckets - 1) +
          M.kHashTableStartIndex < table.length) ∧
      ∀ fuel, FindOrderedHashMapEntryForSmiKey ext M debug_code fuel table (.smi k) =
        (walkChain M debug_code table k number_of_buckets fuel first_entry).map
          (Walk.after [.LoadFixedArrayElement M.kNumberOfBucketsIndex,
            .LoadFixedArrayElement
              (WordAnd (ext.ComputeIntegerHash k 0) (number_of_buckets - 1) +
                M.kHashTableStartIndex)])) ∧
    (∀ entry, entry ≠ M.kNotFound → 0 ≤ entry → entry < live + deleted →
      entryInRange M table entry = some true ∧
      UintPtrLessThan entry (live + deleted) = true ∧
      (0 ≤ keySlot M (entry * M.kEntrySize + number_of_buckets) ∧
        keySlot M (entry * M.kEntrySize + number_of_buckets) < table.length) ∧
      (0 ≤ chainSlot M (entry * M.kEntrySize + number_of_buckets) ∧
        chainSlot M (entry * M.kEntrySize + number_of_buckets) < table.length) ∧
      ∃ candidate next, entryKey M table number_of_buckets entry = some candidate ∧
        entryLink M table number_of_buckets entry = some (.smi next) ∧
        (next = M.kNotFound ∨ (0 ≤ next ∧ next < live + deleted)) ∧
        ∀ fuel, walkChain M debug_code table k number_of_buckets (fuel + 1) entry =
          if keyComparison candidate k then
            some ⟨.entry_found (entry * M.kEntrySize + number_of_buckets),
              rangeCheckLoads M debug_code ++
                [.LoadFixedArrayElement
                  (keySlot M (entry * M.kEntrySize + number_of_buckets))]⟩
          else
            (walkChain M debug_code table k number_of_buckets fuel next).map
              (Walk.after (rangeCheckLoads M debug_code ++
                [.LoadFixedArrayElement
                   (keySlot M (entry * M.kEntrySize + number_of_buckets)),
                 .LoadFixedArrayElement
                   (chainSlot M (entry * M.kEntrySize + number_of_buckets))]))) ∧
    (∀ (fuel : Nat) (walk : Walk),
      FindOrderedHashMapEntryForSmiKey ext M debug_code fuel table (.smi k) = some walk →
      (walk.exit = .not_found ∨ ∃ position, walk.exit = .entry_found position) ∧
      ∀ slot, Event.LoadFixedArrayElement slot ∈ walk.trace →
        0 ≤ slot ∧ slot < table.length) := by
  refine ⟨?_, ?_, ?_⟩
  · obtain ⟨first_entry, hfirst, hin, _, hstart⟩ :=
      FindOrderedHashMapEntryForSmiKey_start ext M debug_code table number_of_buckets live
        deleted hinv k
    exact ⟨first_entry, hfirst, hin, hstart⟩
  · intro entry hne h0 hlt
    exact walkChain_step_inside M debug_code table k number_of_buckets live deleted hinv
      hoffset hlen entry hne h0 hlt
  · intro fuel walk h
    exact FindOrderedHashMapEntryForSmiKey_inside ext M debug_code table number_of_buckets
      live deleted hinv hoffset hlen k fuel walk h

/-- C17 on the sample table (two buckets, two live entries, seventeen slots):
the walk for the key 3 in a debug build ends, at `entry_found` or `not_found`,
and every slot it loaded is inside the table. -/
theorem walk_stays_inside_witness :
    TableInvariants OrderedHashMap sampleTable 2 2 0 ∧
    OrderedHashMap.kChainOffset < OrderedHashMap.kEntrySize ∧
    (sampleTable.length : Int) < 2 ^ 31 ∧
    ∃ walk, FindOrderedHashMapEntryForSmiKey sampleExternal OrderedHashMap true 3
        sampleTable (.smi 3) = some walk ∧
      (walk.exit = .not_found ∨ ∃ position, walk.exit = .entry_found position) ∧
      ∀ slot, Event.LoadFixedArrayElement slot ∈ walk.trace →
        0 ≤ slot ∧ slot < sampleTable.length := by
  obtain ⟨walk, hw⟩ := Option.isSome_iff_exists.mp
    (by decide : (FindOrderedHashMapEntryForSmiKey sampleExternal OrderedHashMap true 3
      sampleTable (.smi 3)).isSome = true)
  exact ⟨sampleTable_invariants, by decide, by decide, walk, hw,
    (walk_stays_inside sampleExternal OrderedHashMap sampleTable 2 2 0
      sampleTable_invariants (by decide) (by decide) true 3).2.2 3 walk hw⟩


/-! ## Termination of the walk -/

/-- The chain that starts at an entry is determined by the entry. -/
theorem Chain.unique {M : CollectionType} {table : FixedArray} {number_of_buckets : Int}
    {entry : Int} {chain1 chain2 : List Int}
    (h1 : Chain M table number_of_buckets entry chain1)
    (h2 : Chain M table number_of_buckets entry chain2) : chain1 = chain2 := by
  induction h1 generalizing chain2 with
  | done =>
    cases h2 with
    | done => rfl
    | link hne _ _ _ => exact absurd rfl hne
  | link hne _ hlink _ ih =>
    cases h2 with
    | done => exact absurd rfl hne
    | link _ _ hlink2 hrest2 =>
      rw [hlink] at hlink2
      cases hlink2
      rw [ih hrest2]

/-- Every entry of a chain starts a chain of its own, which is no longer. -/
theorem Chain.suffix {M : CollectionType} {table : FixedArray} {number_of_buckets : Int}
    {entry : Int} {chain : List Int}
    (h : Chain M table number_of_buckets entry chain) :
    ∀ x ∈ chain, ∃ rest, Chain M table number_of_buckets x (x :: rest) ∧
      (x :: rest).length ≤ chain.length := by
  induction h with
  | done =>
    intro x hx
    simp at hx
  | @link entry next key rest hne hkey hlink hrest ih =>
    intro x hx
    rcases List.mem_cons.mp hx with rfl | hx
    · exact ⟨rest, Chain.link hne hkey hlink hrest, le_refl _⟩
    · obtain ⟨rest2, hc, hlen⟩ := ih x hx
      exact ⟨rest2, hc, by simp only [List.length_cons] at hlen ⊢; omega⟩

/-- A chain visits no entry twice. -/
theorem Chain.nodup {M : CollectionType} {table : FixedArray} {number_of_buckets : Int}
    {entry : Int} {chain : List Int}
    (h : Chain M table number_of_buckets entry chain) : chain.Nodup := by
  induction h with
  | done => exact List.nodup_nil
  | @link entry next key rest hne hkey hlink hrest ih =>
    refine List.nodup_cons.mpr ⟨?_, ih⟩
    intro hmem
    obtain ⟨rest2, hc, hlen⟩ := hrest.suffix entry hmem
    have := Chain.unique hc (Chain.link hne hkey hlink hrest)
    have hl := congrArg List.length this
    simp only [List.length_cons] at hl hlen
    omega

/-- A list of distinct integers between 0 and `limit` has at most `limit`
members. -/
theorem nodup_length_le (chain : List Int) (limit : Int) (hnodup : chain.Nodup)
    (hbelow : ∀ e ∈ chain, 0 ≤ e ∧ e < limit) : chain.length ≤ limit.toNat := by
  have hinj : (chain.map Int.toNat).Nodup := by
    refine List.Nodup.map_on ?_ hnodup
    intro x hx y hy hxy
    have := hbelow x hx
    have := hbelow y hy
    omega
  have hsub : (chain.map Int.toNat).toFinset ⊆ Finset.range limit.toNat := by
    intro n hn
    simp only [List.mem_toFinset, List.mem_map] at hn
    obtain ⟨e, he, rfl⟩ := hn
    have := hbelow e he
    simp only [Finset.mem_range]
    omega
  have hcard := Finset.card_le_card hsub
  rw [List.toFinset_card_of_nodup hinj, List.length_map, Finset.card_range] at hcard
  exact hcard

/-- The walk on the cyclic table never leaves its only entry. -/
theorem walkChain_cyclic (debug_code : Bool) :
    ∀ fuel, walkChain OrderedHashMap debug_code cyclicTable 3 1 fuel 0 = none := by
  intro fuel
  induction fuel with
  | zero => rfl
  | succ f ih =>
    have hcheck : rangeCheck OrderedHashMap debug_code cyclicTable 0 = some true := by
      cases debug_code <;> decide
    rw [walkChain_next OrderedHashMap debug_code cyclicTable 3 1 f (by decide) hcheck
      (by decide : entryKey OrderedHashMap cyclicTable 1 0 = some (.smi 5)) (by decide)
      (by decide : entryLink OrderedHashMap cyclicTable 1 0 = some (.smi 0)), ih]
    rfl

theorem FindOrderedHashMapEntryForSmiKey_cyclic (debug_code : Bool) (fuel : Nat) :
    FindOrderedHashMapEntryForSmiKey sampleExternal OrderedHashMap debug_code fuel
      cyclicTable (.smi 3) = none := by
  have hb : LoadFixedArrayElement cyclicTable OrderedHashMap.kNumberOfBucketsIndex 0 =
      some (.smi 1) := by decide
  have hf : LoadFixedArrayElement cyclicTable
      (WordAnd (sampleExternal.ComputeIntegerHash 3 0) (1 - 1))
      OrderedHashMap.kHashTableStartIndex = some (.smi 0) := by decide
  unfold FindOrderedHashMapEntryForSmiKey
  simp only [SmiUntag, hb, hf, Option.some_bind, walkChain_cyclic, Option.map_none']

theorem cyclicTable_invariants : TableInvariants OrderedHashMap cyclicTable 1 1 0 where
  buckets_slot := by decide
  live_slot := by decide
  deleted_slot := by decide
  power_of_two := ⟨0, by norm_num⟩
  counts := by decide
  length := by decide
  bucket_heads := by
    intro b value h0 h1 h
    have hb : b = 0 := by omega
    subst hb
    have h2 : LoadFixedArrayElement cyclicTable 0 OrderedHashMap.kHashTableStartIndex =
        some (.smi 0) := by decide
    rw [h2] at h
    cases h
    exact ⟨0, rfl, Or.inr ⟨by decide, by decide⟩⟩
  chain_links := by
    intro e value h0 h1 h
    have he : e = 0 := by omega
    subst he
    have h2 : entryLink OrderedHashMap cyclicTable 1 0 = some (.smi 0) := by decide
    rw [h2] at h
    cases h
    exact ⟨0, rfl, Or.inr ⟨by decide, by decide⟩⟩


/-- The walk along a chain of entries below live plus deleted ends, with one
unit of fuel more than live plus deleted. -/
theorem FindOrderedHashMapEntryForSmiKey_terminates (ext : ExternalReference)
    (M : CollectionType) (debug_code : Bool) (table : FixedArray)
    (k number_of_buckets live deleted first_entry : Int) (chain : List Int)
    (hbuckets : LoadFixedArrayElement table M.kNumberOfBucketsIndex 0 =
      some (.smi number_of_buckets))
    (hlive : LoadFixedArrayElement table M.kNumberOfElementsIndex 0 = some (.smi live))
    (hdeleted : LoadFixedArrayElement table M.kNumberOfDeletedElementsIndex 0 =
      some (.smi deleted))
    (hsum : live + deleted < 2 ^ 31)
    (hbucket : LoadFixedArrayElement table
      (WordAnd (ext.ComputeIntegerHash k 0) (number_of_buckets - 1))
      M.kHashTableStartIndex = some (.smi first_entry))
    (hchain : Chain M table number_of_buckets first_entry chain)
    (hbelow : ∀ e ∈ chain, 0 ≤ e ∧ e < live + deleted) :
    chain.Nodup ∧ chain.length ≤ (live + deleted).toNat ∧
    ∀ fuel, chain.length < fuel →
      ∃ walk, FindOrderedHashMapEntryForSmiKey ext M debug_code fuel table (.smi k) =
          some walk ∧
        (walk.exit = .not_found ∨ ∃ position, walk.exit = .entry_found position) := by
  have hnodup := hchain.nodup
  refine ⟨hnodup, nodup_length_le chain _ hnodup hbelow, ?_⟩
  intro fuel hfuel
  have hrange : ∀ e ∈ chain, rangeCheck M debug_code table e = some true := fun e he =>
    rangeCheck_inside M debug_code table live deleted e hlive hdeleted hsum
      (hbelow e he).1 (hbelow e he).2
  have h := FindOrderedHashMapEntryForSmiKey_chain ext M debug_code table k
    number_of_buckets first_entry chain fuel hbuckets hbucket hchain hrange hfuel
  obtain ⟨walk, hw, hexit⟩ := Option.map_eq_some'.mp h
  refine ⟨walk, hw, ?_⟩
  rw [hexit]
  cases chain.find? (entryHoldsKey M table number_of_buckets k) with
  | none => exact Or.inl rfl
  | some e => exact Or.inr ⟨_, rfl⟩

/-- C18: take a map table whose header holds the bucket count and the counts
of live and deleted entries (their sum a small integer), a small-integer key
`k`, and let the chain links from the bucket of `k` form a singly linked list
`chain` terminated by `kNotFound`, its entries below live plus deleted. Then
the chain visits no entry twice, so it has at most live plus deleted entries,
and the walk of `FindOrderedHashMapEntryForSmiKey` terminates: with one unit of
fuel per visited entry and one for the sentinel, live plus deleted plus one
iterations suffice, and the walk reaches `entry_found` or `not_found`. On the
other hand the table `cyclicTable`, which satisfies the invariants that the
range check rests on but whose only entry links to itself and holds another
key, makes the walk for the key 3 run out of every amount of fuel, in a debug
build and in a release build. -/
theorem walk_terminates (ext : ExternalReference) (M : CollectionType)
    (debug_code : Bool) (table : FixedArray)
    (k number_of_buckets live deleted first_entry : Int) (chain : List Int)
    (hbuckets : LoadFixedArrayElement table M.kNumberOfBucketsIndex 0 =
      some (.smi number_of_buckets))
    (hlive : LoadFixedArrayElement table M.kNumberOfElementsIndex 0 = some (.smi live))
    (hdeleted : LoadFixedArrayElement table M.kNumberOfDeletedElementsIndex 0 =
      some (.smi deleted))
    (hsum : live + deleted < 2 ^ 31)
    (hbucket : LoadFixedArrayElement table
      (WordAnd (ext.ComputeIntegerHash k 0) (number_of_buckets - 1))
      M.kHashTableStartIndex = some (.smi first_entry))
    (hchain : Chain M table number_of_buckets first_entry chain)
    (hbelow : ∀ e ∈ chain, 0 ≤ e ∧ e < live + deleted) :
    (chain.Nodup ∧ chain.length ≤ (live + deleted).toNat ∧
      (∀ fuel, chain.length < fuel →
        ∃ walk, FindOrderedHashMapEntryForSmiKey ext M debug_code fuel table (.smi k) =
            some walk ∧
          (walk.exit = .not_found ∨ ∃ position, walk.exit = .entry_found position)) ∧
      ∃ walk, FindOrderedHashMapEntryForSmiKey ext M debug_code
          ((live + deleted).toNat + 1) table (.smi k) = some walk ∧
        (walk.exit = .not_found ∨ ∃ position, walk.exit = .entry_found position)) ∧
    (TableInvariants OrderedHashMap cyclicTable 1 1 0 ∧
      (∀ entry, 0 ≤ entry → entry < 1 →
        entryInRange OrderedHashMap cyclicTable entry = some true) ∧
      entryLink OrderedHashMap cyclicTable 1 0 = some (.smi 0) ∧
      entryHoldsKey OrderedHashMap cyclicTable 1 3 0 = false ∧
      ∀ (release_or_debug : Bool) (fuel : Nat),
        FindOrderedHashMapEntryForSmiKey sampleExternal OrderedHashMap release_or_debug fuel
          cyclicTable (.smi 3) = none) := by
  obtain ⟨hnodup, hlength, hends⟩ := FindOrderedHashMapEntryForSmiKey_terminates ext M
    debug_code table k number_of_buckets live deleted first_entry chain hbuckets hlive
    hdeleted hsum hbucket hchain hbelow
  refine ⟨⟨hnodup, hlength, hends, hends _ (by omega)⟩, cyclicTable_invariants, ?_,
    by decide, by decide, FindOrderedHashMapEntryForSmiKey_cyclic⟩
  intro entry h0 h1
  have he : entry = 0 := by omega
  subst he
  decide

/-- C18 on the sample table: the chain of bucket 1 is entry 1 then entry 0,
both below the two live entries, and the walk for the key 3 ends within three
iterations. -/
theorem walk_terminates_witness :
    Chain OrderedHashMap sampleTable 2 1 [1, 0] ∧
    (∀ e ∈ [(1 : Int), 0], 0 ≤ e ∧ e < 2 + 0) ∧
    ∃ walk, FindOrderedHashMapEntryForSmiKey sampleExternal OrderedHashMap true
        (((2 : Int) + 0).toNat + 1) sampleTable (.smi 3) = some walk ∧
      (walk.exit = .not_found ∨ ∃ position, walk.exit = .entry_found position) :=
  have hchain : Chain OrderedHashMap sampleTable 2 1 [1, 0] :=
    Chain.link (by decide) (by decide : _ = some (Value.smi 5))
      (by decide : _ = some (Value.smi 0))
      (Chain.link (by decide) (by decide : _ = some (Value.smi 3))
        (by decide : _ = some (Value.smi (-1))) Chain.done)
  have hbelow : ∀ e ∈ [(1 : Int), 0], 0 ≤ e ∧ e < 2 + 0 := by decide
  ⟨hchain, hbelow,
    (walk_terminates sampleExternal OrderedHashMap true sampleTable 3 2 2 0 1 [1, 0]
      (by decide) (by decide) (by decide) (by decide) (by decide) hchain hbelow).1.2.2.2⟩


/-! ## The bucket index -/

/-- For a hash that is not negative, masking with a power of two minus one is
the remainder of the division by that power of two. -/
theorem WordAnd_mod (hash : Int) (j : Nat) (h0 : 0 ≤ hash) :
    WordAnd hash (2 ^ j - 1) = hash % 2 ^ j := by
  obtain ⟨m, rfl⟩ := Int.eq_ofNat_of_zero_le h0
  have hp : 1 ≤ 2 ^ j := Nat.one_le_two_pow
  have hmask : ((2 : Int) ^ j - 1) = ((2 ^ j - 1 : Nat) : Int) := by
    push_cast [Nat.cast_sub hp]
    rfl
  rw [hmask]
  have h : WordAnd (m : Int) ((2 ^ j - 1 : Nat) : Int) = ((m &&& (2 ^ j - 1) : Nat) : Int) := rfl
  rw [h, Nat.and_pow_two_sub_one_eq_mod]
  push_cast
  rfl

/-- The first two loads of the walk: the bucket count, then the bucket slot
of the hash. -/
theorem FindOrderedHashMapEntryForSmiKey_bucket (ext : ExternalReference)
    (M : CollectionType) (debug_code : Bool) (fuel : Nat) (table : FixedArray)
    (k number_of_buckets : Int) (walk : Walk)
    (hbuckets : LoadFixedArrayElement table M.kNumberOfBucketsIndex 0 =
      some (.smi number_of_buckets))
    (h : FindOrderedHashMapEntryForSmiKey ext M debug_code fuel table (.smi k) = some walk) :
    ∃ rest, walk.trace =
      .LoadFixedArrayElement M.kNumberOfBucketsIndex ::
      .LoadFixedArrayElement
        (WordAnd (ext.ComputeIntegerHash k 0) (number_of_buckets - 1) +
          M.kHashTableStartIndex) :: rest := by
  unfold FindOrderedHashMapEntryForSmiKey at h
  simp only [SmiUntag, hbuckets, Option.some_bind] at h
  cases hf : LoadFixedArrayElement table
      (WordAnd (ext.ComputeIntegerHash k 0) (number_of_buckets - 1))
      M.kHashTableStartIndex with
  | none =>
    simp only [hf, Option.none_bind] at h
    cases h
    exact ⟨[], rfl⟩
  | some head =>
    cases head with
    | smi first_entry =>
      simp only [hf, Option.some_bind] at h
      obtain ⟨w1, _, rfl⟩ := Option.map_eq_some'.mp h
      exact ⟨w1.trace, rfl⟩
    | _ =>
      simp only [hf, Option.some_bind] at h
      cases h
      exact ⟨[], rfl⟩


/-- C19: for every hash `h` that is not negative and every bucket count
`2 ^ j`, the bucket index of the fast path, `h AND (2 ^ j - 1)`, is `h mod 2 ^ j`
and lies in `[0, 2 ^ j)`; on a table whose bucket count is `2 ^ j` the second
load of `FindOrderedHashMapEntryForSmiKey` is the bucket slot
`kHashTableStartIndex + (hash mod 2 ^ j)`. For the freshly allocated table,
whose bucket count `kMinCapacity / kLoadFactor` is a power of two, the index is
the remainder of the hash by the bucket count and addresses a bucket slot that
the allocation initialised with `kNotFound`. -/
theorem bucket_index_is_remainder (ext : ExternalReference) (M : CollectionType)
    (debug_code : Bool) (kMaxRegularLength : Nat) (fresh : FixedArray)
    (hlayout : M.HeaderLayout)
    (hmax : debug_code = true → M.kFixedArrayLength ≤ kMaxRegularLength)
    (hpow : ∃ i : Nat, M.kBucketCount = 2 ^ i)
    (halloc : AllocateOrderedHashTable M debug_code kMaxRegularLength = some fresh) :
    (∀ (hash : Int) (j : Nat), 0 ≤ hash →
      WordAnd hash (2 ^ j - 1) = hash % 2 ^ j ∧
      0 ≤ WordAnd hash (2 ^ j - 1) ∧ WordAnd hash (2 ^ j - 1) < 2 ^ j) ∧
    (∀ (table : FixedArray) (k : Int) (j fuel : Nat) (walk : Walk),
      LoadFixedArrayElement table M.kNumberOfBucketsIndex 0 = some (.smi (2 ^ j)) →
      0 ≤ ext.ComputeIntegerHash k 0 →
      FindOrderedHashMapEntryForSmiKey ext M debug_code fuel table (.smi k) = some walk →
      ∃ rest, walk.trace =
        .LoadFixedArrayElement M.kNumberOfBucketsIndex ::
        .LoadFixedArrayElement
          (ext.ComputeIntegerHash k 0 % 2 ^ j + M.kHashTableStartIndex) :: rest) ∧
    (M.kBucketCount = M.kMinCapacity / M.kLoadFactor ∧
      LoadFixedArrayElement fresh M.kNumberOfBucketsIndex 0 =
        some (.smi (M.kBucketCount : Int)) ∧
      ∀ hash : Int, 0 ≤ hash →
        WordAnd hash ((M.kBucketCount : Int) - 1) = hash % (M.kBucketCount : Int) ∧
        0 ≤ WordAnd hash ((M.kBucketCount : Int) - 1) ∧
        WordAnd hash ((M.kBucketCount : Int) - 1) < (M.kBucketCount : Int) ∧
        LoadFixedArrayElement fresh (WordAnd hash ((M.kBucketCount : Int) - 1))
          M.kHashTableStartIndex = some (.smi M.kNotFound)) := by
  have hmod : ∀ (hash : Int) (j : Nat), 0 ≤ hash →
      WordAnd hash (2 ^ j - 1) = hash % 2 ^ j ∧
      0 ≤ WordAnd hash (2 ^ j - 1) ∧ WordAnd hash (2 ^ j - 1) < 2 ^ j := by
    intro hash j h0
    have hp : (0 : Int) < 2 ^ j := by positivity
    have hr := WordAnd_range hash (2 ^ j - 1) (by omega)
    exact ⟨WordAnd_mod hash j h0, hr.1, by omega⟩
  refine ⟨hmod, ?_, rfl, ?_, ?_⟩
  · intro table k j fuel walk hbuckets h0 hwalk
    have := FindOrderedHashMapEntryForSmiKey_bucket ext M debug_code fuel table k (2 ^ j)
      walk hbuckets hwalk
    rw [WordAnd_mod _ j h0] at this
    exact this
  · obtain ⟨t, ht, _, _, _, hnb, _, _⟩ :=
      AllocateOrderedHashTable_spec M debug_code kMaxRegularLength hlayout hmax
    rw [halloc] at ht
    cases ht
    rw [LoadFixedArrayElement_nat]
    exact hnb
  · intro hash h0
    obtain ⟨i, hi⟩ := hpow
    have hc : (M.kBucketCount : Int) = 2 ^ i := by
      rw [hi]
      push_cast
      rfl
    obtain ⟨t, ht, _, _, _, _, hb, _⟩ :=
      AllocateOrderedHashTable_spec M debug_code kMaxRegularLength hlayout hmax
    rw [halloc] at ht
    cases ht
    obtain ⟨h1, h2, h3⟩ := hmod hash i h0
    rw [hc]
    refine ⟨h1, h2, h3, ?_⟩
    obtain ⟨b, hbeq⟩ := Int.eq_ofNat_of_zero_le h2
    rw [LoadFixedArrayElement_offset fresh _ M.kHashTableStartIndex b hbeq]
    exact hb b (by rw [hbeq, ← hc] at h3; exact_mod_cast h3)

/-- C19 on the map constants: the fresh map table has two buckets, the hash 7
selects bucket 1, which is 7 mod 2, and that bucket holds the sentinel. -/
theorem bucket_index_is_remainder_witness :
    OrderedHashMap.HeaderLayout ∧
    (∃ i : Nat, OrderedHashMap.kBucketCount = 2 ^ i) ∧
    AllocateOrderedHashTable OrderedHashMap true 1000 = some freshMapTable ∧
    WordAnd 7 ((OrderedHashMap.kBucketCount : Int) - 1) = 7 % (OrderedHashMap.kBucketCount : Int) ∧
    WordAnd 7 ((OrderedHashMap.kBucketCount : Int) - 1) = 1 ∧
    LoadFixedArrayElement freshMapTable (WordAnd 7 ((OrderedHashMap.kBucketCount : Int) - 1))
      OrderedHashMap.kHashTableStartIndex = some (.smi OrderedHashMap.kNotFound) :=
  have h := (bucket_index_is_remainder sampleExternal OrderedHashMap true 1000 freshMapTable
    (by decide) (by decide) ⟨1, by decide⟩ (by decide)).2.2.2.2 7 (by decide)
  ⟨by decide, ⟨1, by decide⟩, by decide, h.1, by decide, h.2.2.2⟩


/-! ## Heap-number candidates -/

theorem keyComparison_heapNumber (x : Float64) (k : Int) :
    keyComparison (.heapNumber x) k = Float64Equal x (.finite k) := by
  simp [keyComparison, WordEqual, TaggedIsSmi, IsHeapNumber, LoadHeapNumberValue,
    SmiToFloat64]

theorem keyComparison_heapNumber_iff (x : Float64) (k : Int) :
    keyComparison (.heapNumber x) k = true ↔ x.numericValue = some (k : ℚ) := by
  rw [keyComparison_eq_holdsSmiKey]
  simp [holdsSmiKey]

/-- C20: in the loop of `FindOrderedHashMapEntryForSmiKey`, at an entry whose
key slot holds a heap number `x`, the comparison with the small-integer key
`k` is the floating-point equality of `x` and the double of `k`, which holds
exactly when `x` stands for the number `k`: in that case the walk leaves
through `entry_found` at this entry, otherwise it goes on with the chain link.
The negative zero matches the key 0, and NaN matches no key. -/
theorem heap_number_candidate (M : CollectionType) (debug_code : Bool) (table : FixedArray)
    (k number_of_buckets entry : Int) (fuel : Nat) (x : Float64)
    (hne : entry ≠ M.kNotFound)
    (hcheck : rangeCheck M debug_code table entry = some true)
    (hkey : entryKey M table number_of_buckets entry = some (.heapNumber x)) :
    keyComparison (.heapNumber x) k = Float64Equal x (.finite k) ∧
    (Float64Equal x (.finite k) = true ↔ x.numericValue = some (k : ℚ)) ∧
    (x.numericValue = some (k : ℚ) →
      walkChain M debug_code table k number_of_buckets (fuel + 1) entry =
        some ⟨.entry_found (entry * M.kEntrySize + number_of_buckets),
          rangeCheckLoads M debug_code ++
            [.LoadFixedArrayElement
              (keySlot M (entry * M.kEntrySize + number_of_buckets))]⟩) ∧
    (x.numericValue ≠ some (k : ℚ) →
      walkChain M debug_code table k number_of_buckets (fuel + 1) entry =
        match (entryLink M table number_of_buckets entry).bind SmiUntag with
        | none =>
          some ⟨.fault, rangeCheckLoads M debug_code ++
            [.LoadFixedArrayElement (keySlot M (entry * M.kEntrySize + number_of_buckets)),
             .LoadFixedArrayElement
               (chainSlot M (entry * M.kEntrySize + number_of_buckets))]⟩
        | some next =>
          (walkChain M debug_code table k number_of_buckets fuel next).map
            (Walk.after (rangeCheckLoads M debug_code ++
              [.LoadFixedArrayElement (keySlot M (entry * M.kEntrySize + number_of_buckets)),
               .LoadFixedArrayElement
                 (chainSlot M (entry * M.kEntrySize + number_of_buckets))]))) ∧
    keyComparison (.heapNumber .negZero) 0 = true ∧
    (∀ key : Int, keyComparison (.heapNumber .nan) key = false) := by
  refine ⟨keyComparison_heapNumber x k, ?_, ?_, ?_, ?_, ?_⟩
  · rw [← keyComparison_heapNumber]
    exact keyComparison_heapNumber_iff x k
  · intro hx
    exact walkChain_found M debug_code table k number_of_buckets fuel hne hcheck hkey
      (by simp [holdsSmiKey, hx])
  · intro hx
    have hm : keyComparison (.heapNumber x) k = false := by
      rw [Bool.eq_false_iff]
      intro h
      exact hx ((keyComparison_heapNumber_iff x k).mp h)
    unfold entryKey at hkey
    unfold entryLink
    rw [walkChain]
    simp only [hne, if_false, hcheck, hkey, hm, Bool.false_eq_true]
  · rw [keyComparison_heapNumber]
    rfl
  · intro key
    rw [keyComparison_heapNumber]
    rfl

/-- C20 on the table that holds the boxed 3.0 in entry 0: the walk for the
key 3 leaves through `entry_found` at that entry. -/
theorem heap_number_candidate_witness :
    entryKey OrderedHashMap boxedTable 2 0 = some (.heapNumber (.finite 3)) ∧
    walkChain OrderedHashMap true boxedTable 3 2 (0 + 1) 0 =
      some ⟨.entry_found (0 * OrderedHashMap.kEntrySize + 2),
        rangeCheckLoads OrderedHashMap true ++
          [.LoadFixedArrayElement (keySlot OrderedHashMap (0 * OrderedHashMap.kEntrySize + 2))]⟩ :=
  ⟨by decide,
    (heap_number_candidate OrderedHashMap true boxedTable 3 2 0 0 (.finite 3) (by decide)
      (by decide) (by decide)).2.2.1 (by decide)⟩


/-! ## The answer of the external has routine -/

theorem and_low_byte (r : Nat) : r &&& 0xFF = r % 256 :=
  Nat.and_pow_two_sub_one_eq_mod r 8

theorem SelectBooleanConstant_true (b : Bool) :
    SelectBooleanConstant b = .true_value ↔ b = true := by
  cases b <;> simp [SelectBooleanConstant]

theorem CallHasRaw_low_byte (ext : ExternalReference) (C : CollectionType) (entrysize : Nat)
    (table : FixedArray) (key : Value) :
    CallHasRaw ext C entrysize table key =
      SelectBooleanConstant
        (decide (ext.orderedhashtable_has_raw C entrysize table key % 256 ≠ 0)) := by
  simp only [CallHasRaw, and_low_byte]
  by_cases h : ext.orderedhashtable_has_raw C entrysize table key % 256 = 0
  · simp [h]
  · have hb : (ext.orderedhashtable_has_raw C entrysize table key % 256 != 0) = true :=
      bne_iff_ne.mpr h
    simp [h, hb]

/-- C21: whatever word `r` the external has routine leaves in the result
register, `CallHasRaw` returns the boolean true if and only if `r AND 0xFF` is
not zero, and the boolean false otherwise. `r AND 0xFF` is `r mod 256`, and the
answer is computed from it alone: adding any multiple of 256 to `r` leaves the
answer unchanged. For `r = 0x100` the answer is false, for `r = 0x101` it is
true. -/
theorem CallHasRaw_masks_low_byte (ext : ExternalReference) (C : CollectionType)
    (entrysize : Nat) (table : FixedArray) (key : Value) :
    (CallHasRaw ext C entrysize table key = .true_value ↔
      ext.orderedhashtable_has_raw C entrysize table key &&& 0xFF ≠ 0) ∧
    (CallHasRaw ext C entrysize table key = .false_value ↔
      ext.orderedhashtable_has_raw C entrysize table key &&& 0xFF = 0) ∧
    (∀ r : Nat, r &&& 0xFF = r % 256) ∧
    CallHasRaw ext C entrysize table key =
      SelectBooleanConstant
        (decide (ext.orderedhashtable_has_raw C entrysize table key % 256 ≠ 0)) ∧
    (∀ r high : Nat,
      (CallHasRaw (rawExternal r) C entrysize table key = .true_value ↔ r &&& 0xFF ≠ 0) ∧
      CallHasRaw (rawExternal (r + 256 * high)) C entrysize table key =
        CallHasRaw (rawExternal r) C entrysize table key) ∧
    CallHasRaw (rawExternal 0x100) C entrysize table key = .false_value ∧
    CallHasRaw (rawExternal 0x101) C entrysize table key = .true_value := by
  have htrue : ∀ e : ExternalReference, CallHasRaw e C entrysize table key = .true_value ↔
      e.orderedhashtable_has_raw C entrysize table key &&& 0xFF ≠ 0 := by
    intro e
    simp only [CallHasRaw, SelectBooleanConstant_true, bne_iff_ne]
  refine ⟨htrue ext, ?_, and_low_byte, CallHasRaw_low_byte ext C entrysize table key, ?_,
    ?_, ?_⟩
  · by_cases h : ext.orderedhashtable_has_raw C entrysize table key &&& 0xFF = 0
    · simp [CallHasRaw, SelectBooleanConstant, h]
    · simp [CallHasRaw, SelectBooleanConstant, h]
  · intro r high
    refine ⟨htrue (rawExternal r), ?_⟩
    rw [CallHasRaw_low_byte, CallHasRaw_low_byte]
    simp only [rawExternal, Nat.add_mul_mod_self_left]
  · rw [CallHasRaw_low_byte]
    simp [rawExternal, SelectBooleanConstant]
  · rw [CallHasRaw_low_byte]
    simp [rawExternal, SelectBooleanConstant]


end Collections
